import Mathlib

/-!
# State-sync request-round trackers and fork-boundary state summaries

A shallow embedding of `snow/engine/snowman/syncer/trackers.go`
(`frontierTracker`, `voteTracker`) and of `vms/proposervm/state_syncable_vm.go`
(the state-sync methods of the proposer `VM`), together with the properties that
the specification states about them.

Go methods mutate their receiver in place; here every method takes the
tracker and returns the tracker after the call (paired with the Go return
value when there is one).
-/

set_option autoImplicit false
set_option linter.unusedVariables false
set_option linter.dupNamespace false

/-! ## Identifiers and identifier sets (package `ids`) -/

/-- Modelled from the spec: `ids.ShortID` is missing from the sources; the spec calls it an
opaque fixed-size identifier of a network participant. Only equality of identifiers is
used, so an identifier is represented by the number its bytes encode; `0` is the zero
value `ShortID{}`. -/
abbrev ShortID := Nat

/-- Modelled from the spec: `ids.ShortSet` is missing from the sources; the spec describes
`target`, `contacted` and `failed` as sets over ValidatorID with set semantics. The zero
value (a nil map) is the empty set. -/
abbrev ShortSet := Finset ShortID

/-- Modelled from the spec: `ids.NewShortSet(size)`, an empty set (the argument is only a
capacity hint). -/
def ids.NewShortSet (_size : Nat) : ShortSet := ∅

/-- Modelled from the spec: `ShortSet.Add(idList...)`, adds every listed identifier. -/
def ShortSet.Add (s : ShortSet) (idList : List ShortID) : ShortSet :=
  idList.foldl (fun acc id => insert id acc) s

/-- Modelled from the spec: `ShortSet.Contains(id)`, the membership query. -/
def ShortSet.Contains (s : ShortSet) (id : ShortID) : Bool := decide (id ∈ s)

/-- Modelled from the spec: `ShortSet.Len()`, the number of members. -/
def ShortSet.Len (s : ShortSet) : Nat := s.card

/-- Modelled from the spec: `ShortSet.Remove(idList...)`, removes every listed identifier. -/
def ShortSet.Remove (s : ShortSet) (idList : List ShortID) : ShortSet :=
  idList.foldl (fun acc id => acc.erase id) s

/-- Modelled from the spec: `ShortSet.Clear()`, empties the set. -/
def ShortSet.Clear (_s : ShortSet) : ShortSet := ∅

/-- Modelled from the spec: `ShortSet.Pop()`, removes and returns some member of the set
(`(ShortID{}, false)` on the empty set). Which member is returned is not determined by the
set, so the choice is an argument: `pick s` proposes the member to remove from `s`; a
proposal that is not a member is replaced by the least member, so that every `pick`
describes a run of the code and every run of the code is described by some `pick`. -/
def ShortSet.Pop (pick : ShortSet → ShortID) (s : ShortSet) : (ShortID × Bool) × ShortSet :=
  if h : s.Nonempty then
    let id := if pick s ∈ s then pick s else s.min' h
    ((id, true), s.erase id)
  else
    ((0, false), s)

/-- Modelled from the spec: `ShortSet.List()`, the members as a slice. The order of the
slice is unspecified in Go; the ascending order is used here. -/
def ShortSet.List (s : ShortSet) : List ShortID := s.sort (· ≤ ·)

/-! ## Validators (package `snow/validators`) and errors -/

/-- Go `error` values met by the trackers and by the proposer VM: the overflow error of the
checked `uint64` addition used by the validator set, the sentinels `database.ErrNotFound`
and `block.ErrStateSyncableVMNotImplemented`, an error wrapped by `fmt.Errorf` with `%w`
(the text before the wrapped error and the wrapped error), and any other error value (such
as a sampler's or a database's), identified by a code. Go compares errors with `==`, so a
wrapped sentinel is not equal to the sentinel. -/
inductive Error where
  | errOverflow
  | other (code : Nat)
  | ErrNotFound
  | ErrStateSyncableVMNotImplemented
  | wrapped (text : String) (err : Error)
deriving DecidableEq, Repr

/-- Modelled from the spec: `validators.Validator` is missing from the sources; a validator
exposes its identifier and its stake weight (a `uint64`). -/
structure Validator where
  ID : ShortID
  Weight : Nat
deriving DecidableEq, Repr

/-- The largest `uint64`. -/
def maxUint64 : Nat := 2 ^ 64 - 1

/-- Modelled from the spec: the set implementation returned by `validators.NewSet()` is
missing from the sources; the spec describes a validator set as a mapping from ValidatorID
to stake weight whose total weight is queryable as a `uint64`. `vdrs` lists the members
(one entry per identifier, in insertion order) and `totalWeight` is their accumulated
weight. -/
structure validators.Set where
  vdrs : List Validator
  totalWeight : Nat
deriving DecidableEq, Repr

/-- Modelled from the spec: `validators.NewSet()`, the empty validator set. -/
def validators.NewSet : validators.Set := { vdrs := [], totalWeight := 0 }

/-- Modelled from the spec: `Set.Weight()`, the total stake weight of the set. -/
def validators.Set.Weight (s : validators.Set) : Nat := s.totalWeight

/-- Modelled from the spec: the loop of `Set.Set(vdrs)`. A validator whose identifier is
already a member is skipped (the set is a mapping); otherwise it becomes a member and its
weight is added to the total with a checked `uint64` addition, whose overflow stops the
loop with an error, leaving the set as it is at that point. -/
def validators.Set.setLoop (s : validators.Set) : List Validator → validators.Set × Option Error
  | [] => (s, none)
  | vdr :: rest =>
    if s.vdrs.any (fun m => m.ID == vdr.ID) then
      validators.Set.setLoop s rest
    else
      let s1 : validators.Set := { s with vdrs := s.vdrs ++ [vdr] }
      if s1.totalWeight + vdr.Weight > maxUint64 then
        (s1, some Error.errOverflow)
      else
        validators.Set.setLoop { s1 with totalWeight := s1.totalWeight + vdr.Weight } rest

/-- Modelled from the spec: `Set.Set(vdrs)`, replaces the members of the set by the given
validators; the only failure is the overflow of the total weight. Returns the set after
the call and the Go error (`none` for nil). -/
def validators.Set.Set (_s : validators.Set) (vdrs : List Validator) :
    validators.Set × Option Error :=
  validators.Set.setLoop { vdrs := [], totalWeight := 0 } vdrs

/-- Modelled from the spec: `Set.List()`, the members of the set. -/
def validators.Set.List (s : validators.Set) : List Validator := s.vdrs

/-- Modelled from the spec: the interface `validators.Set` is missing from the sources; this
is the validator set handed to `sampleSeeders`. The spec describes a validator set as a
mapping from ValidatorID to stake weight whose total weight is a `uint64`, and its sampler
as returning a weighted-random subset of it. `vdrs` lists the members, one per identifier
(`distinct`), and their total weight fits a `uint64` (`fits`). `Sample size` is the outcome
of `fullStateBeaconsList.Sample(size)`: the sampler's error, or the sampled validators,
which are members of the set, no member being drawn twice (`drawn`: up to their order, they
form a sublist of the members). The sampler draws at random (weighted by stake), so which
members it returns is data of the call rather than a function of the members. -/
structure BeaconSampler where
  vdrs : List Validator
  Sample : Int → Except Error (List Validator)
  distinct : (vdrs.map Validator.ID).Nodup
  fits : (vdrs.map Validator.Weight).sum ≤ maxUint64
  drawn : ∀ size beacons, Sample size = Except.ok beacons → List.Subperm beacons vdrs

/-- The validator set with the given members whose sampler returns all of them, whatever
the size asked for. -/
def BeaconSampler.returning (vdrs : List Validator)
    (distinct : (vdrs.map Validator.ID).Nodup)
    (fits : (vdrs.map Validator.Weight).sum ≤ maxUint64) : BeaconSampler :=
  { vdrs := vdrs
    Sample := fun _ => Except.ok vdrs
    distinct := distinct
    fits := fits
    drawn := fun _ beacons h => by
      cases h
      exact List.Subperm.refl _ }

/-- The empty validator set, whose sampler fails with `err`. -/
def BeaconSampler.failing (err : Error) : BeaconSampler :=
  { vdrs := []
    Sample := fun _ => Except.error err
    distinct := List.nodup_nil
    fits := Nat.zero_le _
    drawn := fun _ _ h => by cases h }

/-- The validator set of validator 1 (weight 10), whose sampler returns it. -/
def beaconsOne : BeaconSampler :=
  BeaconSampler.returning [⟨1, 10⟩] (by decide) (by decide)

/-- The validator set of validators 1 (weight 10) and 2 (weight 20), whose sampler returns
both. -/
def beaconsOneTwo : BeaconSampler :=
  BeaconSampler.returning [⟨1, 10⟩, ⟨2, 20⟩] (by decide) (by decide)

/-! ## frontierTracker -/

/-- The Go struct `frontierTracker`. The field `frontierSeeders` is an interface value: it
is `nil` (`none`) in the zero value of the struct, until `sampleSeeders` assigns it. -/
structure frontierTracker where
  /-- Holds the beacons that were sampled for the accepted frontier -/
  frontierSeeders : Option validators.Set
  /-- IDs of validators we should request state summary frontier from -/
  targetSeeders : ShortSet
  /-- IDs of validators we requested a state summary frontier from but haven't received
  a reply yet -/
  contactedSeeders : ShortSet
  /-- IDs of validators that failed to respond with their state summary frontier -/
  failedSeeders : ShortSet
deriving DecidableEq

/-- The Go method `sampleSeeders`: the tracker after the call and the returned error. -/
def frontierTracker.sampleSeeders (ft : frontierTracker) (fullStateBeaconsList : BeaconSampler)
    (sampleSize : Int) : frontierTracker × Option Error :=
  match fullStateBeaconsList.Sample sampleSize with
  | .error err => (ft, some err)
  | .ok beacons =>
    let stored := validators.Set.Set validators.NewSet beacons
    let ft1 : frontierTracker := { ft with frontierSeeders := some stored.1 }
    match stored.2 with
    | some err => (ft1, some err)
    | none =>
      (beacons.foldl
        (fun t vdr => { t with targetSeeders := ShortSet.Add t.targetSeeders [vdr.ID] }) ft1,
       none)

/-- The Go method `frontierTracker.clear`. -/
def frontierTracker.clear (ft : frontierTracker) : frontierTracker :=
  { ft with
    targetSeeders := ShortSet.Clear ft.targetSeeders
    contactedSeeders := ShortSet.Clear ft.contactedSeeders
    failedSeeders := ShortSet.Clear ft.failedSeeders }

/-- The loop shared, word for word, by `pickSeedersToContact` and `pickVotersToContact`:
`for target.Len() > 0 && res.Len() < maxOutstandingStateSyncRequests
   { vdr, _ := target.Pop(); res.Add(vdr) }`.
Returns the target set and `res` when the loop exits. The constant
`maxOutstandingStateSyncRequests` is declared outside the sources and is an argument. -/
def pickLoop (maxOutstandingStateSyncRequests : Nat) (pick : ShortSet → ShortID)
    (target res : ShortSet) : ShortSet × ShortSet :=
  if h : ShortSet.Len target > 0 ∧ ShortSet.Len res < maxOutstandingStateSyncRequests then
    let popped := ShortSet.Pop pick target
    pickLoop maxOutstandingStateSyncRequests pick popped.2 (ShortSet.Add res [popped.1.1])
  else
    (target, res)
termination_by target.card
decreasing_by
  have hne : target.Nonempty := Finset.card_pos.mp h.1
  simp only [ShortSet.Pop, hne, dif_pos]
  rw [Finset.card_erase_of_mem]
  · exact Nat.sub_lt (Finset.card_pos.mpr hne) Nat.one_pos
  · split
    · assumption
    · exact Finset.min'_mem _ _

/-- The Go method `pickSeedersToContact`: the tracker after the call and the returned set. -/
def frontierTracker.pickSeedersToContact (maxOutstandingStateSyncRequests : Nat)
    (pick : ShortSet → ShortID) (ft : frontierTracker) : frontierTracker × ShortSet :=
  let res := ids.NewShortSet 1
  let out := pickLoop maxOutstandingStateSyncRequests pick ft.targetSeeders res
  ({ ft with targetSeeders := out.1 }, out.2)

/-- The Go method `hasSeedersToContact`. -/
def frontierTracker.hasSeedersToContact (ft : frontierTracker) : Bool :=
  decide (ShortSet.Len ft.targetSeeders > 0)

/-- The Go method `sampledSeedersWeight`: the weight of `frontierSeeders`, or `none` when
`frontierSeeders` is nil, where the method call on the nil interface panics. -/
def frontierTracker.sampledSeedersWeight (ft : frontierTracker) : Option Nat :=
  ft.frontierSeeders.map validators.Set.Weight

/-- The Go method `markSeederContacted`. -/
def frontierTracker.markSeederContacted (ft : frontierTracker) (vdrIDs : ShortSet) :
    frontierTracker :=
  { ft with contactedSeeders := ShortSet.Add ft.contactedSeeders (ShortSet.List vdrIDs) }

/-- The Go method `hasSeederBeenContacted`. -/
def frontierTracker.hasSeederBeenContacted (ft : frontierTracker) (vdrID : ShortID) : Bool :=
  ShortSet.Contains ft.contactedSeeders vdrID

/-- The Go method `markSeederResponded`. -/
def frontierTracker.markSeederResponded (ft : frontierTracker) (vdrID : ShortID) :
    frontierTracker :=
  { ft with contactedSeeders := ShortSet.Remove ft.contactedSeeders [vdrID] }

/-- The Go method `anyPendingSeederResponse`. -/
def frontierTracker.anyPendingSeederResponse (ft : frontierTracker) : Bool :=
  decide (ShortSet.Len ft.contactedSeeders ≠ 0)

/-- The Go method `markSeederFailed`. It does not remove `vdrID` from `contactedSeeders`;
that is left to a later `markSeederResponded`. -/
def frontierTracker.markSeederFailed (ft : frontierTracker) (vdrID : ShortID) :
    frontierTracker :=
  { ft with failedSeeders := ShortSet.Add ft.failedSeeders [vdrID] }

/-! ## voteTracker -/

/-- The Go struct `voteTracker`. -/
structure voteTracker where
  /-- IDs of validators we should request filtering the accepted state summaries from -/
  targetVoters : ShortSet
  /-- IDs of validators we requested filtering the accepted state summaries from but
  haven't received a reply yet -/
  contactedVoters : ShortSet
  /-- IDs of validators that failed to respond with their filtered accepted state
  summaries -/
  failedVoters : ShortSet
deriving DecidableEq

/-- The Go method `voteTracker.clear`. -/
def voteTracker.clear (vt : voteTracker) : voteTracker :=
  { vt with
    targetVoters := ShortSet.Clear vt.targetVoters
    contactedVoters := ShortSet.Clear vt.contactedVoters
    failedVoters := ShortSet.Clear vt.failedVoters }

/-- The Go method `storeVoters`. -/
def voteTracker.storeVoters (vt : voteTracker) (vdrs : validators.Set) : voteTracker :=
  vdrs.List.foldl
    (fun t vdr => { t with targetVoters := ShortSet.Add t.targetVoters [vdr.ID] }) vt

/-- The Go method `pickVotersToContact`: the tracker after the call and the returned set. -/
def voteTracker.pickVotersToContact (maxOutstandingStateSyncRequests : Nat)
    (pick : ShortSet → ShortID) (vt : voteTracker) : voteTracker × ShortSet :=
  let res := ids.NewShortSet 1
  let out := pickLoop maxOutstandingStateSyncRequests pick vt.targetVoters res
  ({ vt with targetVoters := out.1 }, out.2)

/-- The Go method `markVoterContacted`. -/
def voteTracker.markVoterContacted (vt : voteTracker) (vdrIDs : ShortSet) : voteTracker :=
  { vt with contactedVoters := ShortSet.Add vt.contactedVoters (ShortSet.List vdrIDs) }

/-- The Go method `hasVoterBeenContacted`. -/
def voteTracker.hasVoterBeenContacted (vt : voteTracker) (vdrID : ShortID) : Bool :=
  ShortSet.Contains vt.contactedVoters vdrID

/-- The Go method `markVoterResponded`. -/
def voteTracker.markVoterResponded (vt : voteTracker) (vdrID : ShortID) : voteTracker :=
  { vt with contactedVoters := ShortSet.Remove vt.contactedVoters [vdrID] }

/-- The Go method `anyPendingVoterResponse`. -/
def voteTracker.anyPendingVoterResponse (vt : voteTracker) : Bool :=
  decide (ShortSet.Len vt.contactedVoters ≠ 0)

/-- The Go method `markVoterFailed`. -/
def voteTracker.markVoterFailed (vt : voteTracker) (vdrID : ShortID) : voteTracker :=
  { vt with failedVoters := ShortSet.Add vt.failedVoters [vdrID] }

/-! ## Calls and call sequences

The properties below that speak of "every tracker operation" or of "every sequence of
calls" are stated over the following description of one call of a tracker method and of
what the call returns. -/

/-- What a call of a tracker method returns to its caller: nothing, a Go `error` (`none`
for nil), a set of identifiers, a boolean, or a weight; `panicked` stands for a call that
does not return because it panics. -/
inductive Returned where
  | nothing
  | error (err : Option Error)
  | ids (s : ShortSet)
  | bool (b : Bool)
  | weight (w : Nat)
  | panicked

/-- What a call returning a weight hands back: the weight, or a panic when there is none. -/
def Returned.ofWeight : Option Nat → Returned
  | some w => Returned.weight w
  | none => Returned.panicked

/-- The set carried by a returned value, when it is a set of identifiers. -/
def Returned.picked : Returned → Option ShortSet
  | Returned.ids s => some s
  | _ => none

/-- Performs a sequence of calls, first call first, threading the state through `step`:
the state after the last call and what each call returned, in order. -/
def runCalls {σ κ : Type} (step : σ → κ → σ × Returned) : σ → List κ → σ × List Returned
  | st, [] => (st, [])
  | st, c :: cs =>
    let out := step st c
    let rest := runCalls step out.1 cs
    (rest.1, out.2 :: rest.2)

/-- One call of a method of `frontierTracker`, with its arguments (for
`pickSeedersToContact`, the choices made by `Pop` during that call). -/
inductive FrontierCall where
  | sampleSeeders (fullStateBeaconsList : BeaconSampler) (sampleSize : Int)
  | clear
  | pickSeedersToContact (pick : ShortSet → ShortID)
  | hasSeedersToContact
  | sampledSeedersWeight
  | markSeederContacted (vdrIDs : ShortSet)
  | hasSeederBeenContacted (vdrID : ShortID)
  | markSeederResponded (vdrID : ShortID)
  | anyPendingSeederResponse
  | markSeederFailed (vdrID : ShortID)

/-- Whether the call is `sampleSeeders` or `clear`. -/
def FrontierCall.isSampleOrClear : FrontierCall → Bool
  | FrontierCall.sampleSeeders _ _ => true
  | FrontierCall.clear => true
  | _ => false

/-- Whether the call is `sampleSeeders`. -/
def FrontierCall.isSample : FrontierCall → Bool
  | FrontierCall.sampleSeeders _ _ => true
  | _ => false

/-- Performs one call on a frontier tracker: the tracker after the call and what the call
returned. -/
def frontierTracker.call (maxOutstandingStateSyncRequests : Nat) (ft : frontierTracker) :
    FrontierCall → frontierTracker × Returned
  | FrontierCall.sampleSeeders fullStateBeaconsList sampleSize =>
    let out := ft.sampleSeeders fullStateBeaconsList sampleSize
    (out.1, Returned.error out.2)
  | FrontierCall.clear => (ft.clear, Returned.nothing)
  | FrontierCall.pickSeedersToContact pick =>
    let out := ft.pickSeedersToContact maxOutstandingStateSyncRequests pick
    (out.1, Returned.ids out.2)
  | FrontierCall.hasSeedersToContact => (ft, Returned.bool ft.hasSeedersToContact)
  | FrontierCall.sampledSeedersWeight => (ft, Returned.ofWeight ft.sampledSeedersWeight)
  | FrontierCall.markSeederContacted vdrIDs => (ft.markSeederContacted vdrIDs, Returned.nothing)
  | FrontierCall.hasSeederBeenContacted vdrID =>
    (ft, Returned.bool (ft.hasSeederBeenContacted vdrID))
  | FrontierCall.markSeederResponded vdrID => (ft.markSeederResponded vdrID, Returned.nothing)
  | FrontierCall.anyPendingSeederResponse => (ft, Returned.bool ft.anyPendingSeederResponse)
  | FrontierCall.markSeederFailed vdrID => (ft.markSeederFailed vdrID, Returned.nothing)

/-- Performs a sequence of calls on a frontier tracker, first call first: the tracker after
the last call and what each call returned, in order. -/
def frontierTracker.run (maxOutstandingStateSyncRequests : Nat) (ft : frontierTracker)
    (calls : List FrontierCall) : frontierTracker × List Returned :=
  runCalls (frontierTracker.call maxOutstandingStateSyncRequests) ft calls

/-- One call of a method of `voteTracker`, with its arguments (for `pickVotersToContact`,
the choices made by `Pop` during that call). -/
inductive VoteCall where
  | clear
  | storeVoters (vdrs : validators.Set)
  | pickVotersToContact (pick : ShortSet → ShortID)
  | markVoterContacted (vdrIDs : ShortSet)
  | hasVoterBeenContacted (vdrID : ShortID)
  | markVoterResponded (vdrID : ShortID)
  | anyPendingVoterResponse
  | markVoterFailed (vdrID : ShortID)

/-- Whether the call is `storeVoters` or `clear`. -/
def VoteCall.isStoreOrClear : VoteCall → Bool
  | VoteCall.storeVoters _ => true
  | VoteCall.clear => true
  | _ => false

/-- Performs one call on a vote tracker: the tracker after the call and what the call
returned. -/
def voteTracker.call (maxOutstandingStateSyncRequests : Nat) (vt : voteTracker) :
    VoteCall → voteTracker × Returned
  | VoteCall.clear => (vt.clear, Returned.nothing)
  | VoteCall.storeVoters vdrs => (vt.storeVoters vdrs, Returned.nothing)
  | VoteCall.pickVotersToContact pick =>
    let out := vt.pickVotersToContact maxOutstandingStateSyncRequests pick
    (out.1, Returned.ids out.2)
  | VoteCall.markVoterContacted vdrIDs => (vt.markVoterContacted vdrIDs, Returned.nothing)
  | VoteCall.hasVoterBeenContacted vdrID => (vt, Returned.bool (vt.hasVoterBeenContacted vdrID))
  | VoteCall.markVoterResponded vdrID => (vt.markVoterResponded vdrID, Returned.nothing)
  | VoteCall.anyPendingVoterResponse => (vt, Returned.bool vt.anyPendingVoterResponse)
  | VoteCall.markVoterFailed vdrID => (vt.markVoterFailed vdrID, Returned.nothing)

/-- Performs a sequence of calls on a vote tracker, first call first: the tracker after the
last call and what each call returned, in order. -/
def voteTracker.run (maxOutstandingStateSyncRequests : Nat) (vt : voteTracker)
    (calls : List VoteCall) : voteTracker × List Returned :=
  runCalls (voteTracker.call maxOutstandingStateSyncRequests) vt calls

/-- The sets of identifiers among the returned values, in order: what the
`pickSeedersToContact` / `pickVotersToContact` calls of a sequence returned. -/
def pickedSets (rs : List Returned) : List ShortSet := rs.filterMap Returned.picked

/-- The sum of the stake weights of the listed validators. -/
def sumWeights (vdrs : List Validator) : Nat := (vdrs.map Validator.Weight).sum

/-- The identifiers of the listed validators, as a set. -/
def idsOf (vdrs : List Validator) : ShortSet := (vdrs.map Validator.ID).toFinset

/-- The stake weight that a list of validators gives to an identifier: the weight of the
first listed validator with that identifier (`0` when there is none). -/
def stakeOf (vdrs : List Validator) (id : ShortID) : Nat :=
  match vdrs.find? (fun v => v.ID == id) with
  | some v => v.Weight
  | none => 0

/-- The total stake weight of the validators of a list, each validator (identifier) counted
once however many times it is listed. -/
def distinctWeight (vdrs : List Validator) : Nat := ∑ id ∈ idsOf vdrs, stakeOf vdrs id

/-! ## Byte strings, identifiers and the summary codec (packages `ids`, `hashing`, `summary`)

The package `vms/proposervm/summary` is missing from the sources. Its two functions used by
the proposer VM, `summary.Build` and `summary.Parse`, are modelled from the wire format the
specification describes: a version tag, the fork height as a `uint64`, then the proposer
block bytes and the inner summary bytes as length-prefixed byte sequences. -/

/-- A Go `[]byte`: the list of its bytes, each a number below 256. -/
abbrev GoBytes := List Nat

/-- Modelled from the spec: `ids.ID` is missing from the sources; an opaque fixed-size
identifier (of a summary or of a block), represented by the number its bytes encode. -/
abbrev ids.ID := Nat

/-- The largest `uint32`. -/
def maxUint32 : Nat := 2 ^ 32 - 1

/-- The `k` big-endian bytes of `n` (of `n` modulo `256 ^ k`). -/
def packBE : Nat → Nat → GoBytes
  | 0, _ => []
  | k + 1, n => (n / 256 ^ k % 256) :: packBE k n

/-- The number whose big-endian bytes are `b`. -/
def unpackBE (b : GoBytes) : Nat := b.foldl (fun acc x => acc * 256 + x) 0

/-- Reads a `k`-byte big-endian number from the front of `p`: the number and the bytes left,
or nothing when fewer than `k` bytes are left. -/
def unpackFixed (k : Nat) (p : GoBytes) : Option (Nat × GoBytes) :=
  if p.length < k then none else some (unpackBE (p.take k), p.drop k)

/-- Reads a length-prefixed byte sequence (a `uint32` length, then that many bytes) from the
front of `p`: the sequence and the bytes left, or nothing when `p` is too short. -/
def unpackBytes (p : GoBytes) : Option (GoBytes × GoBytes) :=
  match unpackFixed 4 p with
  | none => none
  | some (n, rest) => if rest.length < n then none else some (rest.take n, rest.drop n)

/-- Modelled from the spec: the version tag of the wrapped summary format. -/
def summary.codecVersion : Nat := 0

/-- Modelled from the spec: the error of a byte sequence too long for its length prefix. -/
def summary.errSliceTooLarge : Error := Error.other 101

/-- Modelled from the spec: the error of a byte string too short for the wrapped format. -/
def summary.errInsufficientLength : Error := Error.other 102

/-- Modelled from the spec: the error of a byte string carrying another version tag. -/
def summary.errWrongStateSyncVersion : Error := Error.other 103

/-- Modelled from the spec: the stateless wrapped summary of package `summary` (the
interface `summary.StateSummary`): the fork height, the proposer block bytes and the inner
summary bytes it carries, and its derived identifier and bytes. -/
structure summary.StateSummary where
  ForkHeight : Nat
  BlockBytes : GoBytes
  InnerSummaryBytes : GoBytes
  ID : ids.ID
  Bytes : GoBytes
deriving DecidableEq, Repr

/-- Modelled from the spec: the deterministic, version-tagged binary layout of a wrapped
summary: the version on 2 bytes, the fork height on 8 bytes, then the block bytes and the
inner summary bytes, each behind its length on 4 bytes. Fails when a byte sequence is too
long for its length prefix. -/
def summary.Marshal (forkHeight : Nat) (block coreSummary : GoBytes) : Except Error GoBytes :=
  if block.length > maxUint32 ∨ coreSummary.length > maxUint32 then
    Except.error summary.errSliceTooLarge
  else
    Except.ok (packBE 2 summary.codecVersion ++ (packBE 8 forkHeight ++
      ((packBE 4 block.length ++ block) ++ (packBE 4 coreSummary.length ++ coreSummary))))

/-- Modelled from the spec: the decoder of the layout of `summary.Marshal`: the fork
height, the block bytes and the inner summary bytes, or an error when the bytes are too
short or carry another version tag. -/
def summary.Unmarshal (bytes : GoBytes) : Except Error (Nat × GoBytes × GoBytes) :=
  match unpackFixed 2 bytes with
  | none => Except.error summary.errInsufficientLength
  | some (version, p1) =>
    if version ≠ summary.codecVersion then Except.error summary.errWrongStateSyncVersion
    else
      match unpackFixed 8 p1 with
      | none => Except.error summary.errInsufficientLength
      | some (forkHeight, p2) =>
        match unpackBytes p2 with
        | none => Except.error summary.errInsufficientLength
        | some (block, p3) =>
          match unpackBytes p3 with
          | none => Except.error summary.errInsufficientLength
          | some (coreSummary, _) => Except.ok (forkHeight, block, coreSummary)

/-- Modelled from the spec: `summary.Build(forkHeight, block, coreSummary)`, the wrapped
summary carrying the three values; its bytes are their encoding and its identifier is the
hash of its bytes. The hash function `hashing.ComputeHash256Array` is missing from the
sources and is an argument. Returns `(nil, err)` when the encoding fails. -/
def summary.Build (ComputeHash256Array : GoBytes → ids.ID) (forkHeight : Nat)
    (block coreSummary : GoBytes) : Except Error summary.StateSummary :=
  match summary.Marshal forkHeight block coreSummary with
  | Except.error err => Except.error (Error.wrapped "cannot marshal proposer summary due to: " err)
  | Except.ok bytes =>
    Except.ok
      { ForkHeight := forkHeight
        BlockBytes := block
        InnerSummaryBytes := coreSummary
        ID := ComputeHash256Array bytes
        Bytes := bytes }

/-- Modelled from the spec: `summary.Parse(bytes)`, the decoder of the wrapped format: the
wrapped summary carrying the decoded values, whose bytes are the given bytes and whose
identifier is their hash. Returns `(nil, err)` when the bytes do not decode. -/
def summary.Parse (ComputeHash256Array : GoBytes → ids.ID) (bytes : GoBytes) :
    Except Error summary.StateSummary :=
  match summary.Unmarshal bytes with
  | Except.error err => Except.error (Error.wrapped "could not unmarshal summary due to: " err)
  | Except.ok (forkHeight, block, coreSummary) =>
    Except.ok
      { ForkHeight := forkHeight
        BlockBytes := block
        InnerSummaryBytes := coreSummary
        ID := ComputeHash256Array bytes
        Bytes := bytes }

/-! ## The proposer VM and its collaborators (package `vms/proposervm`)

`state_syncable_vm.go` is in the sources; the `VM` struct, the persisted state, the inner
VM and the `stateSummary` struct are declared in files that are not. -/

/-- Modelled from the spec: a state summary of the inner VM (an implementation of the
interface `block.StateSummary` by the inner VM), the opaque tuple of its identifier, its
height and its bytes, with the outcome of its `Accept()`. -/
structure InnerSummary where
  ID : ids.ID
  Height : Nat
  Bytes : GoBytes
  Accept : Bool × Option Error
deriving DecidableEq, Repr

/-- Modelled from the spec: a proposer block (`PostForkBlock`), seen through its identifier
and its bytes. -/
structure PostForkBlock where
  ID : ids.ID
  Bytes : GoBytes
deriving DecidableEq, Repr

/-- Modelled from the spec: the inner VM's state-sync capability (the interface
`block.StateSyncableVM` behind `vm.ssVM`), given by the outcome of each of its methods. A
Go pair `(summary, error)` is represented by `Except`: a nil error comes with a summary. -/
structure StateSyncableVM where
  StateSyncEnabled : Bool × Option Error
  GetOngoingSyncStateSummary : Except Error InnerSummary
  GetLastStateSummary : Except Error InnerSummary
  ParseStateSummary : GoBytes → Except Error InnerSummary
  GetStateSummary : Nat → Except Error InnerSummary

/-- Modelled from the spec: the persisted state of the proposer VM as read by the state-sync
methods: the fork height (`database.ErrNotFound` when it is absent), the height index and
the block store; and, for the acceptance of a wrapped summary, the outcome of the three
writes that record the fork height and persist a proposer block and its height linkage
(`none` for a nil error; they succeed unless stated otherwise). -/
structure State where
  GetForkHeight : Except Error Nat
  GetBlockIDAtHeight : Nat → Except Error ids.ID
  getPostForkBlock : ids.ID → Except Error PostForkBlock
  SetForkHeight : Nat → Option Error := fun _ => none
  PutBlock : PostForkBlock → Option Error := fun _ => none
  SetBlockIDAtHeight : Nat → ids.ID → Option Error := fun _ _ => none

/-- Modelled from the spec: the declaration of the Go struct `VM` is missing from the
sources; this is the struct reduced to what the state-sync methods use: the inner VM's
state-sync capability (`none` for a nil `vm.ssVM`), the persisted state, the outcome of
`VerifyHeightIndex()` (`none` for nil), and the two stateless steps of decoding proposer
block bytes: `statelessblockParse` decodes the bytes into a block (`statelessblock.Parse`,
failing when they are malformed) and `ChainVMParseBlock` is the inner VM's verdict on the
inner block that a decoded block carries (`ChainVM.ParseBlock`, `none` for a nil error). -/
structure VM where
  ssVM : Option StateSyncableVM
  State : State
  VerifyHeightIndex : Option Error
  statelessblockParse : GoBytes → Except Error PostForkBlock
  ChainVMParseBlock : PostForkBlock → Option Error := fun _ => none

/-- Modelled from the spec: the method `parsePostForkBlock` is declared in a file that is
missing from the sources. It decodes the bytes into a block object, failing when they are
malformed. It is a method of `VM` and reaches the persisted state: before the inner VM is
asked to parse the inner block, the decoded identifier is looked up in the block store; a
block that is already stored is returned as it is stored, a lookup that fails with an error
other than `database.ErrNotFound` ends the call with that error, and only a block that is
not found is taken from the bytes. -/
def VM.parsePostForkBlock (vm : VM) (b : GoBytes) : Except Error PostForkBlock :=
  match vm.statelessblockParse b with
  | Except.error err => Except.error err
  | Except.ok statelessBlock =>
    match vm.State.getPostForkBlock statelessBlock.ID with
    | Except.ok blk => Except.ok blk
    | Except.error err =>
      if err = Error.ErrNotFound then
        match vm.ChainVMParseBlock statelessBlock with
        | some err => Except.error err
        | none => Except.ok statelessBlock
      else Except.error err

/-- Modelled from the spec: the declaration of the Go struct `stateSummary` of package
`proposervm` is missing from the sources; its fields are those of the literals of
`state_syncable_vm.go`: the embedded stateless summary (`none` for a nil interface), the
inner summary, the proposer block and the persisted state. -/
structure stateSummary where
  StateSummary : Option summary.StateSummary
  innerSummary : InnerSummary
  block : PostForkBlock
  state : State

/-- Modelled from the spec: the interface `block.StateSummary` is missing from the sources;
these are its values that the proposer VM returns: a summary of the inner VM itself, or a
`*stateSummary`. -/
inductive block.StateSummary where
  | inner (s : InnerSummary)
  | proposer (s : stateSummary)

/-- Modelled from the spec: the method `ID()` of a returned summary; for a `*stateSummary`
it is the identifier of the embedded stateless summary (`none` when that is nil, where Go
panics). -/
def block.StateSummary.ID : block.StateSummary → Option ids.ID
  | block.StateSummary.inner s => some s.ID
  | block.StateSummary.proposer s => s.StateSummary.map (fun w => w.ID)

/-- Modelled from the spec: the method `Height()` of a returned summary; for a
`*stateSummary` it is the height of its inner summary. -/
def block.StateSummary.Height : block.StateSummary → Nat
  | block.StateSummary.inner s => s.Height
  | block.StateSummary.proposer s => s.innerSummary.Height

/-- Modelled from the spec: the method `Bytes()` of a returned summary; for a
`*stateSummary` it is the bytes of the embedded stateless summary (`none` when that is nil,
where Go panics). -/
def block.StateSummary.Bytes : block.StateSummary → Option GoBytes
  | block.StateSummary.inner s => some s.Bytes
  | block.StateSummary.proposer s => s.StateSummary.map (fun w => w.Bytes)

/-- The error of a Go pair `(value, error)` represented by `Except`: `none` (nil) when the
call succeeded. -/
def errOf {α : Type} : Except Error α → Option Error
  | Except.error err => some err
  | Except.ok _ => none

/-- A call made by a state-sync method of the proposer VM itself to one of its
collaborators: the persisted state, the height index, the block store, the block decoder,
the summary codec or the inner VM. What a collaborator calls in turn is not listed. -/
inductive Consulted where
  | GetForkHeight
  | VerifyHeightIndex
  | GetBlockIDAtHeight (height : Nat)
  | getPostForkBlock (blkID : ids.ID)
  | parsePostForkBlock (b : GoBytes)
  | summaryParse (bytes : GoBytes)
  | summaryBuild (forkHeight : Nat) (block coreSummary : GoBytes)
  | ssVMStateSyncEnabled
  | ssVMGetOngoingSyncStateSummary
  | ssVMGetLastStateSummary
  | ssVMGetStateSummary (height : Nat)
  | ssVMParseStateSummary (summaryBytes : GoBytes)
deriving DecidableEq, Repr

/-- What a method returning `(block.StateSummary, error)` hands back: the summary (`none`
for nil), the error (`none` for nil), and the calls it made to its collaborators, in
order. -/
structure SummaryResult where
  summary : Option block.StateSummary
  err : Option Error
  consulted : List Consulted

/-- What `StateSyncEnabled` hands back: the boolean, the error (`none` for nil), and the
calls it made to its collaborators, in order. -/
structure EnabledResult where
  enabled : Bool
  err : Option Error
  consulted : List Consulted

/-- The Go method `StateSyncEnabled`. -/
def VM.StateSyncEnabled (vm : VM) : EnabledResult :=
  match vm.ssVM with
  | none => { enabled := false, err := none, consulted := [] }
  | some ssVM =>
    if vm.VerifyHeightIndex ≠ none then
      { enabled := false, err := none, consulted := [Consulted.VerifyHeightIndex] }
    else
      { enabled := ssVM.StateSyncEnabled.1, err := ssVM.StateSyncEnabled.2,
        consulted := [Consulted.VerifyHeightIndex, Consulted.ssVMStateSyncEnabled] }

/-- The Go method `buildStateSummary`. -/
def VM.buildStateSummary (ComputeHash256Array : GoBytes → ids.ID) (vm : VM)
    (innerSummary : InnerSummary) : SummaryResult :=
  match vm.State.GetForkHeight with
  | Except.error err =>
    if err = Error.ErrNotFound then
      { summary := some (block.StateSummary.inner innerSummary), err := none,
        consulted := [Consulted.GetForkHeight] }
    else
      { summary := none, err := some err, consulted := [Consulted.GetForkHeight] }
  | Except.ok forkHeight =>
    if innerSummary.Height < forkHeight then
      { summary := some (block.StateSummary.inner innerSummary), err := none,
        consulted := [Consulted.GetForkHeight] }
    else
      let height := innerSummary.Height
      match vm.State.GetBlockIDAtHeight height with
      | Except.error err =>
        { summary := none, err := some err,
          consulted := [Consulted.GetForkHeight, Consulted.GetBlockIDAtHeight height] }
      | Except.ok blkID =>
        match vm.State.getPostForkBlock blkID with
        | Except.error err =>
          { summary := none, err := some err,
            consulted := [Consulted.GetForkHeight, Consulted.GetBlockIDAtHeight height,
              Consulted.getPostForkBlock blkID] }
        | Except.ok blk =>
          let built := summary.Build ComputeHash256Array forkHeight blk.Bytes innerSummary.Bytes
          { summary := some (block.StateSummary.proposer
              { StateSummary := built.toOption
                innerSummary := innerSummary
                block := blk
                state := vm.State }),
            err := errOf built,
            consulted := [Consulted.GetForkHeight, Consulted.GetBlockIDAtHeight height,
              Consulted.getPostForkBlock blkID,
              Consulted.summaryBuild forkHeight blk.Bytes innerSummary.Bytes] }

/-- The Go method `GetOngoingSyncStateSummary`. -/
def VM.GetOngoingSyncStateSummary (ComputeHash256Array : GoBytes → ids.ID) (vm : VM) :
    SummaryResult :=
  match vm.ssVM with
  | none => { summary := none, err := some Error.ErrStateSyncableVMNotImplemented, consulted := [] }
  | some ssVM =>
    match ssVM.GetOngoingSyncStateSummary with
    | Except.error err =>
      { summary := none, err := some err,
        consulted := [Consulted.ssVMGetOngoingSyncStateSummary] }
    | Except.ok innerSummary =>
      let out := vm.buildStateSummary ComputeHash256Array innerSummary
      { out with consulted := Consulted.ssVMGetOngoingSyncStateSummary :: out.consulted }

/-- The Go method `GetLastStateSummary`. -/
def VM.GetLastStateSummary (ComputeHash256Array : GoBytes → ids.ID) (vm : VM) :
    SummaryResult :=
  match vm.ssVM with
  | none => { summary := none, err := some Error.ErrStateSyncableVMNotImplemented, consulted := [] }
  | some ssVM =>
    match ssVM.GetLastStateSummary with
    | Except.error err =>
      { summary := none, err := some err, consulted := [Consulted.ssVMGetLastStateSummary] }
    | Except.ok innerSummary =>
      let out := vm.buildStateSummary ComputeHash256Array innerSummary
      { out with consulted := Consulted.ssVMGetLastStateSummary :: out.consulted }

/-- The Go method `ParseStateSummary`. -/
def VM.ParseStateSummary (ComputeHash256Array : GoBytes → ids.ID) (vm : VM)
    (summaryBytes : GoBytes) : SummaryResult :=
  match vm.ssVM with
  | none => { summary := none, err := some Error.ErrStateSyncableVMNotImplemented, consulted := [] }
  | some ssVM =>
    match summary.Parse ComputeHash256Array summaryBytes with
    | Except.error _ =>
      match ssVM.ParseStateSummary summaryBytes with
      | Except.error err =>
        { summary := none, err := some err,
          consulted := [Consulted.summaryParse summaryBytes,
            Consulted.ssVMParseStateSummary summaryBytes] }
      | Except.ok innerSummary =>
        { summary := some (block.StateSummary.inner innerSummary), err := none,
          consulted := [Consulted.summaryParse summaryBytes,
            Consulted.ssVMParseStateSummary summaryBytes] }
    | Except.ok statelessSummary =>
      match ssVM.ParseStateSummary statelessSummary.InnerSummaryBytes with
      | Except.error err =>
        { summary := none,
          err := some (Error.wrapped "could not parse inner summary due to: " err),
          consulted := [Consulted.summaryParse summaryBytes,
            Consulted.ssVMParseStateSummary statelessSummary.InnerSummaryBytes] }
      | Except.ok innerSummary =>
        match vm.parsePostForkBlock statelessSummary.BlockBytes with
        | Except.error err =>
          { summary := none,
            err := some (Error.wrapped
              "could not parse proposervm block bytes from summary due to: " err),
            consulted := [Consulted.summaryParse summaryBytes,
              Consulted.ssVMParseStateSummary statelessSummary.InnerSummaryBytes,
              Consulted.parsePostForkBlock statelessSummary.BlockBytes] }
        | Except.ok blk =>
          { summary := some (block.StateSummary.proposer
              { StateSummary := some statelessSummary
                innerSummary := innerSummary
                block := blk
                state := vm.State }),
            err := none,
            consulted := [Consulted.summaryParse summaryBytes,
              Consulted.ssVMParseStateSummary statelessSummary.InnerSummaryBytes,
              Consulted.parsePostForkBlock statelessSummary.BlockBytes] }

/-- The Go method `GetStateSummary`. -/
def VM.GetStateSummary (ComputeHash256Array : GoBytes → ids.ID) (vm : VM) (height : Nat) :
    SummaryResult :=
  match vm.ssVM with
  | none => { summary := none, err := some Error.ErrStateSyncableVMNotImplemented, consulted := [] }
  | some ssVM =>
    match ssVM.GetStateSummary height with
    | Except.error err =>
      { summary := none, err := some err, consulted := [Consulted.ssVMGetStateSummary height] }
    | Except.ok innerSummary =>
      let out := vm.buildStateSummary ComputeHash256Array innerSummary
      { out with consulted := Consulted.ssVMGetStateSummary height :: out.consulted }

/-! ## Accepting a wrapped summary

`stateSummary.Accept` is declared in a file that is missing from the sources. -/

/-- Modelled from the spec: "persist the bound proposer block and its height linkage so
later height-indexed queries resolve consistently". The block is stored, then the height
index is pointed at it; the state after the writes that succeeded, and the error of the
first write that failed (`none` when both succeeded). -/
def State.persist (st : State) (height : Nat) (blk : PostForkBlock) : State × Option Error :=
  match st.PutBlock blk with
  | some err => (st, some err)
  | none =>
    let stored : State :=
      { st with
        getPostForkBlock := fun blkID =>
          if blkID = blk.ID then Except.ok blk else st.getPostForkBlock blkID }
    match st.SetBlockIDAtHeight height blk.ID with
    | some err => (stored, some err)
    | none =>
      ({ stored with
          GetBlockIDAtHeight := fun h =>
            if h = height then Except.ok blk.ID else stored.GetBlockIDAtHeight h },
        none)

/-- What `Accept()` hands back: the boolean, the error (`none` for nil), the persisted
state after the call, and whether the inner summary's `Accept` was called. -/
structure AcceptResult where
  accepted : Bool
  err : Option Error
  state : State
  innerAsked : Bool

/-- Modelled from the spec: `stateSummary.Accept()`, which persists the bound proposer block
and its height linkage and accepts the inner summary via the inner VM. The writes come
first: the fork height carried by the summary is recorded, the proposer block is stored and
the height index is pointed at it; a write that fails ends the call with `(false, err)`.
Only then is the inner summary's `Accept` called, and its answer is returned as it is, so
`accepted = false` without error is the inner summary's answer when a fresher state has
superseded it. The result is `none` when the embedded stateless summary is nil, where Go
panics. -/
def stateSummary.Accept (s : stateSummary) : Option AcceptResult :=
  match s.StateSummary with
  | none => none
  | some statelessSummary =>
    match s.state.SetForkHeight statelessSummary.ForkHeight with
    | some err => some { accepted := false, err := some err, state := s.state, innerAsked := false }
    | none =>
      let recorded : State :=
        { s.state with GetForkHeight := Except.ok statelessSummary.ForkHeight }
      let written := recorded.persist s.innerSummary.Height s.block
      match written.2 with
      | some err =>
        some { accepted := false, err := some err, state := written.1, innerAsked := false }
      | none =>
        some { accepted := s.innerSummary.Accept.1, err := s.innerSummary.Accept.2,
               state := written.1, innerAsked := true }

/-! ## Test objects

The objects of `state_syncable_vm_test.go`, used below to evaluate the methods on concrete
inputs: an inner summary at height 1969 with bytes `"inner"`, a proposer block indexed at
that height, an inner VM serving and parsing that summary, and a proposer VM over them
whose fork height is chosen by each test. -/

/-- The inner summary of the tests: height 1969, bytes `"inner"`. -/
def testInnerSummary : InnerSummary :=
  { ID := 1, Height := 1969, Bytes := [105, 110, 110, 101, 114], Accept := (true, none) }

/-- The proposer block stored at height 1969 in the tests. -/
def testBlock : PostForkBlock := { ID := 2, Bytes := [1, 2, 3] }

/-- An inner VM that serves the summary `s` (at the height of `s`) and parses the bytes of
`s` back to `s`, rejecting all other bytes. -/
def innerVMServing (s : InnerSummary) : StateSyncableVM :=
  { StateSyncEnabled := (true, none)
    GetOngoingSyncStateSummary := Except.ok s
    GetLastStateSummary := Except.ok s
    ParseStateSummary := fun b =>
      if b = s.Bytes then Except.ok s else Except.error (Error.other 1)
    GetStateSummary := fun h =>
      if h = s.Height then Except.ok s else Except.error Error.ErrNotFound }

/-- An inner VM that serves the summary `s` (at the height of `s`) and answers `verdict`
when asked to parse the bytes of `s`, rejecting all other bytes. -/
def innerVMParsingTo (s : InnerSummary) (verdict : Except Error InnerSummary) :
    StateSyncableVM :=
  { StateSyncEnabled := (true, none)
    GetOngoingSyncStateSummary := Except.ok s
    GetLastStateSummary := Except.ok s
    ParseStateSummary := fun b =>
      if b = s.Bytes then verdict else Except.error (Error.other 1)
    GetStateSummary := fun h =>
      if h = s.Height then Except.ok s else Except.error Error.ErrNotFound }

/-- The inner VM of the tests: it serves `testInnerSummary` and parses its bytes back to
it. -/
def testInnerVM : StateSyncableVM := innerVMServing testInnerSummary

/-- The persisted state of the tests, with the given outcome of `GetForkHeight`: the height
index maps height 1969 to `testBlock`, which is stored. -/
def testState (forkHeight : Except Error Nat) : State :=
  { GetForkHeight := forkHeight
    GetBlockIDAtHeight := fun h =>
      if h = 1969 then Except.ok testBlock.ID else Except.error Error.ErrNotFound
    getPostForkBlock := fun blkID =>
      if blkID = testBlock.ID then Except.ok testBlock else Except.error Error.ErrNotFound }

/-- A proposer VM over the inner VM `ssVM` and `testState forkHeight`; its block decoder
accepts the bytes of `testBlock` only. -/
def testVMOver (ssVM : StateSyncableVM) (forkHeight : Except Error Nat) : VM :=
  { ssVM := some ssVM
    State := testState forkHeight
    VerifyHeightIndex := none
    statelessblockParse := fun b =>
      if b = testBlock.Bytes then Except.ok testBlock else Except.error (Error.other 2) }

/-- The proposer VM of the tests, over `testInnerVM` and `testState forkHeight`. -/
def testVM (forkHeight : Except Error Nat) : VM := testVMOver testInnerVM forkHeight

/-- An inner summary at height 1969 whose bytes are 18 zero bytes: they happen to decode as
a wrapped summary (version 0, fork height 0, no block bytes, no inner summary bytes). -/
def zeroBytesSummary : InnerSummary :=
  { ID := 3, Height := 1969,
    Bytes := [0, 0, 0, 0, 0, 0, 0, 0, 0, 0, 0, 0, 0, 0, 0, 0, 0, 0],
    Accept := (true, none) }

/-- A stand-in for `hashing.ComputeHash256Array` in the tests: the sum of the bytes. -/
def testHash (b : GoBytes) : ids.ID := b.sum

/-- The bytes of the wrapped summary of the tests: version 0, fork height 1968, the three
bytes of `testBlock` and the five bytes of `testInnerSummary`, each sequence after its
4-byte length. -/
def testWrappedBytes : GoBytes :=
  [0, 0, 0, 0, 0, 0, 0, 0, 7, 176, 0, 0, 0, 3, 1, 2, 3, 0, 0, 0, 5, 105, 110, 110, 101, 114]

/-- A byte string one byte longer than a 4-byte length prefix can express. -/
def hugeBytes : GoBytes := List.replicate (maxUint32 + 1) 0

/-- A proposer block whose bytes are `hugeBytes`. -/
def hugeBlock : PostForkBlock := { ID := 4, Bytes := hugeBytes }

/-- A proposer VM over `testInnerVM` whose fork height is 1968 and whose height index and
block store hold `hugeBlock` at every height. -/
def hugeBlockVM : VM :=
  { ssVM := some testInnerVM
    State :=
      { GetForkHeight := Except.ok 1968
        GetBlockIDAtHeight := fun _ => Except.ok hugeBlock.ID
        getPostForkBlock := fun _ => Except.ok hugeBlock }
    VerifyHeightIndex := none
    statelessblockParse := fun _ => Except.error (Error.other 2) }

/-! ## The test network of package `snow/consensus/blizzard`

`network_test.go` is in the sources; the transaction type `TestTx`, the uniform sampler of
package `utils/sampler` and the identifier derivation `ids.Empty.Prefix` are declared in
files that are not. -/

/-- A Go `map[[32]byte]int`: the set of its keys and the value of each key. Reading a key
that is absent gives 0, as in Go. -/
structure GoMap where
  keys : Finset ids.ID
  vals : ids.ID → Nat

/-- The empty map, `map[[32]byte]int{}`. -/
def GoMap.empty : GoMap := { keys := ∅, vals := fun _ => 0 }

/-- The Go expression `m[k]`. -/
def GoMap.get (m : GoMap) (k : ids.ID) : Nat := if k ∈ m.keys then m.vals k else 0

/-- The Go statement `m[k] = v`. -/
def GoMap.set (m : GoMap) (k : ids.ID) (v : Nat) : GoMap :=
  { keys := insert k m.keys, vals := fun x => if x = k then v else m.vals x }

/-- The Go statement `delete(m, k)`. -/
def GoMap.delete (m : GoMap) (k : ids.ID) : GoMap :=
  { keys := m.keys.erase k, vals := m.vals }

/-- The Go expression `len(m)`. -/
def GoMap.len (m : GoMap) : Nat := m.keys.card

/-- Modelled from the spec: `choices.Status` is missing from the sources; the status of a
decidable transaction. -/
inductive choices.Status where
  | Unknown
  | Processing
  | Rejected
  | Accepted
deriving DecidableEq, Repr

/-- Modelled from the spec: the declaration of `TestTx` is missing from the sources; its
fields are those of the literal in `Network.Initialize`: the identifier and status of the
embedded `choices.TestDecidable`, and the set of input identifiers `InputIDsV`. -/
structure TestTx where
  IDV : ids.ID
  StatusV : choices.Status
  InputIDsV : Finset ids.ID
deriving DecidableEq

/-- Modelled from the spec: `snowball.Parameters` is missing from the sources; reduced to
the two fields `network_test.go` reads. -/
structure sbcon.Parameters where
  K : Int
  Alpha : Int
deriving DecidableEq, Repr

/-- The Go struct `Network`, reduced to the fields `Initialize` writes (`nodeTxs`, `nodes`
and `running` belong to the consensus instances added later). -/
structure Network where
  params : sbcon.Parameters
  consumers : List TestTx
deriving DecidableEq

/-- The local variables of `Network.Initialize` together with `n.consumers`. -/
structure InitState where
  idCount : Nat
  colorMap : GoMap
  colors : List ids.ID
  count : GoMap
  consumers : List TestTx

/-- How a run of a loop that is given `fuel` iterations ends: the loop exited with a state,
the fuel ran out in a state with the loop condition still true, or an index was out of
range (a Go panic). -/
inductive Outcome (α : Type) where
  | done (a : α)
  | outOfFuel (a : α)
  | panic
deriving DecidableEq

/-- One iteration of the first loop of `Initialize`, `for i := 0; i < numColors; i++`:
the next identifier becomes the colour of index `i`. The derivation
`ids.Empty.Prefix(idCount)` is missing from the sources and is the argument `Prefix`. -/
def Network.Initialize.addColor (Prefix : Nat → ids.ID) (st : InitState) (i : Nat) :
    InitState :=
  let idCount := st.idCount + 1
  let color := Prefix idCount
  { st with
    idCount := idCount
    colorMap := st.colorMap.set color i
    colors := st.colors ++ [color] }

/-- The state of `Initialize` when the second loop starts: the colours
`Prefix 1, ..., Prefix numColors` in `colors`, each mapped to its index by `colorMap`, and
an empty `count`. -/
def Network.Initialize.start (Prefix : Nat → ids.ID) (n : Network) (numColors : Int) :
    InitState :=
  (List.range numColors.toNat).foldl (Network.Initialize.addColor Prefix)
    { idCount := 0, colorMap := GoMap.empty, colors := [], count := GoMap.empty,
      consumers := n.consumers }

/-- The loop `for _, index := range indices { selected = append(selected, colors[index]) }`:
the selected colours, or nothing when an index is out of range. -/
def Network.Initialize.select (colors : List ids.ID) : List Nat → Option (List ids.ID)
  | [] => some []
  | index :: indices =>
    match colors[index]?, Network.Initialize.select colors indices with
    | some color, some selected => some (color :: selected)
    | _, _ => none

/-- The body of `for _, sID := range selected`: the count of the colour is incremented and,
when it reaches `maxInputConflicts`, the colour is removed from `colors` by moving the last
colour into its place, `colorMap` being updated accordingly. Nothing is returned when an
index is out of range. -/
def Network.Initialize.visit (maxInputConflicts : Int) (st : InitState) (sID : ids.ID) :
    Option InitState :=
  let sKey := sID
  let newCount := st.count.get sKey + 1
  let count := st.count.set sKey newCount
  if (newCount : Int) ≥ maxInputConflicts then
    let i := st.colorMap.get sKey
    match st.colorMap.len with
    | 0 => none
    | e + 1 =>
      match st.colors[e]? with
      | none => none
      | some eID =>
        let eKey := eID
        let colorMap := st.colorMap.set eKey i
        if i < st.colors.length then
          some { st with
            count := count
            colorMap := colorMap.delete sKey
            colors := (st.colors.set i eID).take e }
        else none
  else
    some { st with count := count }

/-- The loop `for _, sID := range selected`. -/
def Network.Initialize.visitAll (maxInputConflicts : Int) :
    InitState → List ids.ID → Option InitState
  | st, [] => some st
  | st, sID :: selected =>
    match Network.Initialize.visit maxInputConflicts st sID with
    | none => none
    | some st1 => Network.Initialize.visitAll maxInputConflicts st1 selected

/-- The body of the second loop of `Initialize`, `for len(colors) > 0`: up to
`colorsPerConsumer` colours are sampled, counted (and removed when they reach
`maxInputConflicts`), and a transaction consuming them is appended to `n.consumers`. The
uniform sampler is missing from the sources: `Sample idCount length size` stands for the
indices returned by `s.Sample(size)` after `s.Initialize(length)` in the iteration that
starts with this `idCount`. -/
def Network.Initialize.step (Sample : Nat → Nat → Int → List Nat) (Prefix : Nat → ids.ID)
    (colorsPerConsumer maxInputConflicts : Int) (st : InitState) : Option InitState :=
  let size : Int :=
    if (st.colors.length : Int) > colorsPerConsumer then colorsPerConsumer
    else st.colors.length
  let indices := Sample st.idCount st.colors.length size
  match Network.Initialize.select st.colors indices with
  | none => none
  | some selected =>
    match Network.Initialize.visitAll maxInputConflicts st selected with
    | none => none
    | some st1 =>
      let idCount := st1.idCount + 1
      let tx : TestTx :=
        { IDV := Prefix idCount
          StatusV := choices.Status.Processing
          InputIDsV := selected.toFinset }
      some { st1 with idCount := idCount, consumers := st1.consumers ++ [tx] }

/-- The second loop of `Initialize`, `for len(colors) > 0 { ... }`, given `fuel`
iterations. -/
def Network.Initialize.loop (Sample : Nat → Nat → Int → List Nat) (Prefix : Nat → ids.ID)
    (colorsPerConsumer maxInputConflicts : Int) : Nat → InitState → Outcome InitState
  | 0, st => if st.colors.length > 0 then Outcome.outOfFuel st else Outcome.done st
  | fuel + 1, st =>
    if st.colors.length > 0 then
      match Network.Initialize.step Sample Prefix colorsPerConsumer maxInputConflicts st with
      | none => Outcome.panic
      | some st1 =>
        Network.Initialize.loop Sample Prefix colorsPerConsumer maxInputConflicts fuel st1
    else Outcome.done st

/-- The Go method `Network.Initialize`, its second loop being given `fuel` iterations. -/
def Network.Initialize (Sample : Nat → Nat → Int → List Nat) (Prefix : Nat → ids.ID)
    (fuel : Nat) (n : Network) (params : sbcon.Parameters)
    (numColors colorsPerConsumer maxInputConflicts : Int) : Outcome Network :=
  let n : Network := { n with params := params }
  match Network.Initialize.loop Sample Prefix colorsPerConsumer maxInputConflicts fuel
      (Network.Initialize.start Prefix n numColors) with
  | Outcome.done st => Outcome.done { n with consumers := st.consumers }
  | Outcome.outOfFuel st => Outcome.outOfFuel { n with consumers := st.consumers }
  | Outcome.panic => Outcome.panic

/-- The number of transactions of `txs` that have `color` among their inputs. -/
def consumersOf (txs : List TestTx) (color : ids.ID) : Nat :=
  txs.countP (fun tx => decide (color ∈ tx.InputIDsV))

/-- The sampler returns distinct in-range indices: asked for `size` indices out of
`length`, with `0 ≤ size ≤ length`, it returns `size` pairwise distinct indices below
`length`. -/
def SamplesDistinctInRange (Sample : Nat → Nat → Int → List Nat) : Prop :=
  ∀ (idCount length : Nat) (size : Int), 0 ≤ size → size ≤ (length : Int) →
    ((Sample idCount length size).length : Int) = size ∧
    (Sample idCount length size).Nodup ∧
    ∀ index ∈ Sample idCount length size, index < length

/-- `colorMap` is the index of each colour still in `colors`: its keys are exactly the
colours of `colors`, and it maps the colour at each position to that position. -/
def colorMapIsIndex (st : InitState) : Prop :=
  st.colorMap.len = st.colors.length ∧
  (∀ c, c ∈ st.colorMap.keys ↔ c ∈ st.colors) ∧
  ∀ j c, st.colors[j]? = some c → st.colorMap.get c = j

/-- A concrete sampler: the first `size` indices. -/
def firstIndices (_idCount _length : Nat) (size : Int) : List Nat := List.range size.toNat

/-- The invariant of the second loop of `Initialize`, for the colours
`Prefix 1, ..., Prefix n`, the conflict bound `M` and the consumers `consumers0` the network
had before the call: `colorMap` indexes `colors`, which holds distinct colours; the
transactions produced so far have between 1 and `colorsPerConsumer` colours as inputs;
`count` of a colour is the number of produced transactions consuming it; it is below `M`
for the colours still in `colors` and equal to `M` for the colours removed. -/
def InitInvariant (Prefix : Nat → ids.ID) (n M : Nat) (colorsPerConsumer : Int)
    (consumers0 : List TestTx) (st : InitState) : Prop :=
  colorMapIsIndex st ∧ st.colors.Nodup ∧
  (∀ c ∈ st.colors, ∃ k, 1 ≤ k ∧ k ≤ n ∧ c = Prefix k) ∧
  (∃ produced, st.consumers = consumers0 ++ produced ∧
    (∀ c, st.count.get c = consumersOf produced c) ∧
    (∀ tx ∈ produced, 1 ≤ tx.InputIDsV.card ∧ (tx.InputIDsV.card : Int) ≤ colorsPerConsumer ∧
      ∀ c ∈ tx.InputIDsV, ∃ k, 1 ≤ k ∧ k ≤ n ∧ c = Prefix k)) ∧
  (∀ c ∈ st.colors, st.count.get c < M) ∧
  (∀ k, 1 ≤ k → k ≤ n → Prefix k ∉ st.colors → st.count.get (Prefix k) = M)

/-- The number of selections still to come: for each colour still in `colors`, how many
more transactions must consume it. -/
def selectionsLeft (M : Nat) (st : InitState) : Nat :=
  ∑ c ∈ st.colors.toFinset, (M - st.count.get c)

/-! ## Properties of the identifier sets -/

theorem ShortSet_Add_eq_union (s : ShortSet) (idList : List ShortID) :
    ShortSet.Add s idList = s ∪ idList.toFinset := by
  unfold ShortSet.Add
  induction idList generalizing s with
  | nil => simp
  | cons a l ih =>
    rw [List.foldl_cons, ih]
    ext x
    simp only [Finset.mem_union, Finset.mem_insert, List.toFinset_cons]
    tauto

theorem ShortSet_Remove_eq_sdiff (s : ShortSet) (idList : List ShortID) :
    ShortSet.Remove s idList = s \ idList.toFinset := by
  unfold ShortSet.Remove
  induction idList generalizing s with
  | nil => simp
  | cons a l ih =>
    rw [List.foldl_cons, ih]
    ext x
    simp only [Finset.mem_sdiff, Finset.mem_erase, List.toFinset_cons, Finset.mem_insert]
    tauto

theorem ShortSet_List_toFinset (s : ShortSet) : (ShortSet.List s).toFinset = s := by
  unfold ShortSet.List
  simp

theorem ShortSet_Pop_mem (pick : ShortSet → ShortID) (s : ShortSet) (h : s.Nonempty) :
    (ShortSet.Pop pick s).1.1 ∈ s ∧ (ShortSet.Pop pick s).2 = s.erase (ShortSet.Pop pick s).1.1 := by
  simp only [ShortSet.Pop, h, dif_pos]
  refine ⟨?_, trivial⟩
  split
  · assumption
  · exact Finset.min'_mem _ _

theorem pickLoop_spec (m : Nat) (pick : ShortSet → ShortID) (target res : ShortSet)
    (hd : Disjoint target res) :
    (pickLoop m pick target res).1 ⊆ target ∧
    (pickLoop m pick target res).2 = res ∪ (target \ (pickLoop m pick target res).1) ∧
    (pickLoop m pick target res).2.card = res.card + min (m - res.card) target.card := by
  induction target, res using pickLoop.induct m pick with
  | case1 target res hc popped ih =>
    have hp : popped = ShortSet.Pop pick target := rfl
    clear_value popped
    have hne : target.Nonempty := Finset.card_pos.mp hc.1
    obtain ⟨hmem, herase⟩ := ShortSet_Pop_mem pick target hne
    rw [pickLoop, dif_pos hc]
    simp only
    rw [← hp] at hmem herase ⊢
    clear hp
    obtain ⟨⟨x, b⟩, t⟩ := popped
    simp only at hmem herase ih ⊢
    subst herase
    have hx : x ∉ res := fun hx => (Finset.disjoint_left.mp hd hmem) hx
    have hadd : ShortSet.Add res [x] = insert x res := by
      rw [ShortSet_Add_eq_union]; ext a; simp [or_comm]
    rw [hadd] at ih ⊢
    have hd2 : Disjoint (target.erase x) (insert x res) := by
      rw [Finset.disjoint_left]
      intro a ha
      simp only [Finset.mem_erase] at ha
      simp only [Finset.mem_insert, not_or]
      exact ⟨ha.1, fun h => Finset.disjoint_left.mp hd ha.2 h⟩
    obtain ⟨h1, h2, h3⟩ := ih hd2
    refine ⟨h1.trans (Finset.erase_subset _ _), ?_, ?_⟩
    · rw [h2]
      have hnot : x ∉ (pickLoop m pick (target.erase x) (insert x res)).1 :=
        fun hin => (Finset.not_mem_erase _ _) (h1 hin)
      ext a
      simp only [Finset.mem_union, Finset.mem_sdiff, Finset.mem_insert, Finset.mem_erase]
      constructor
      · rintro ((h | h) | h)
        · subst h; exact Or.inr ⟨hmem, hnot⟩
        · exact Or.inl h
        · exact Or.inr ⟨h.1.2, h.2⟩
      · rintro (h | h)
        · exact Or.inl (Or.inr h)
        · by_cases hap : a = x
          · exact Or.inl (Or.inl hap)
          · exact Or.inr ⟨⟨hap, h.1⟩, h.2⟩
    · rw [h3, Finset.card_insert_of_not_mem hx, Finset.card_erase_of_mem hmem]
      have hpos : 0 < target.card := hc.1
      have hlt : res.card < m := hc.2
      omega
  | case2 target res hc =>
    rw [pickLoop, dif_neg hc]
    refine ⟨Finset.Subset.refl _, by simp, ?_⟩
    have hc2 : ¬ (0 < target.card ∧ res.card < m) := hc
    show res.card = _
    omega

theorem ShortSet_Add_singleton (s : ShortSet) (id : ShortID) :
    ShortSet.Add s [id] = insert id s := rfl

theorem ShortSet_Remove_singleton (s : ShortSet) (id : ShortID) :
    ShortSet.Remove s [id] = s.erase id := rfl

/-! ## pickSeedersToContact / pickVotersToContact -/

theorem pickLoop_from_empty (m : Nat) (pick : ShortSet → ShortID)
    (t1 t2 : ShortSet) :
    ((pickLoop m pick t1 ∅).2 ⊆ t1 ∧
      (pickLoop m pick t1 ∅).2.card = min m t1.card ∧
      (pickLoop m pick t1 ∅).1 = t1 \ (pickLoop m pick t1 ∅).2) ∧
    ((pickLoop m pick t2 ∅).2 ⊆ t2 ∧
      (pickLoop m pick t2 ∅).2.card = min m t2.card ∧
      (pickLoop m pick t2 ∅).1 = t2 \ (pickLoop m pick t2 ∅).2) := by
  have key : ∀ target : ShortSet,
      (pickLoop m pick target ∅).2 ⊆ target ∧
      (pickLoop m pick target ∅).2.card = min m target.card ∧
      (pickLoop m pick target ∅).1 = target \ (pickLoop m pick target ∅).2 := by
    intro target
    obtain ⟨h1, h2, h3⟩ := pickLoop_spec m pick target ∅ (Finset.disjoint_empty_right _)
    refine ⟨?_, by simpa using h3, ?_⟩
    · rw [h2]; simp
    · rw [h2, Finset.empty_union, Finset.sdiff_sdiff_eq_self h1]
  exact ⟨key t1, key t2⟩

/-- C1: for every frontier tracker and every vote tracker, whatever members `Pop` chooses,
the set returned by `pickSeedersToContact` / `pickVotersToContact` is a subset of the
target set before the call, has exactly `min maxOutstandingStateSyncRequests |target|`
members, and the target set after the call is the target set before minus the returned
set. -/
theorem pickToContact_subset_card_remainder (maxOutstandingStateSyncRequests : Nat)
    (pick : ShortSet → ShortID) (ft : frontierTracker) (vt : voteTracker) :
    ((ft.pickSeedersToContact maxOutstandingStateSyncRequests pick).2 ⊆ ft.targetSeeders ∧
      (ft.pickSeedersToContact maxOutstandingStateSyncRequests pick).2.card =
        min maxOutstandingStateSyncRequests ft.targetSeeders.card ∧
      (ft.pickSeedersToContact maxOutstandingStateSyncRequests pick).1.targetSeeders =
        ft.targetSeeders \ (ft.pickSeedersToContact maxOutstandingStateSyncRequests pick).2) ∧
    ((vt.pickVotersToContact maxOutstandingStateSyncRequests pick).2 ⊆ vt.targetVoters ∧
      (vt.pickVotersToContact maxOutstandingStateSyncRequests pick).2.card =
        min maxOutstandingStateSyncRequests vt.targetVoters.card ∧
      (vt.pickVotersToContact maxOutstandingStateSyncRequests pick).1.targetVoters =
        vt.targetVoters \ (vt.pickVotersToContact maxOutstandingStateSyncRequests pick).2) :=
  pickLoop_from_empty maxOutstandingStateSyncRequests pick
    ft.targetSeeders vt.targetVoters

/-- A step "only drains" the set `tgt` of the state when it never adds to it and every set
it returns was taken out of it. Sequences of such steps return pairwise disjoint sets, none
of which meets the final `tgt`. -/
theorem runCalls_drain {σ κ : Type} (step : σ → κ → σ × Returned) (tgt : σ → ShortSet)
    (ok : κ → Prop)
    (hstep : ∀ st c, ok c → tgt (step st c).1 ⊆ tgt st ∧
      ∀ R, (step st c).2.picked = some R → R ⊆ tgt st ∧ Disjoint R (tgt (step st c).1))
    (calls : List κ) :
    ∀ st, (∀ c ∈ calls, ok c) →
      tgt (runCalls step st calls).1 ⊆ tgt st ∧
      (∀ R ∈ pickedSets (runCalls step st calls).2,
        R ⊆ tgt st ∧ Disjoint R (tgt (runCalls step st calls).1)) ∧
      (pickedSets (runCalls step st calls).2).Pairwise Disjoint := by
  induction calls with
  | nil =>
    intro st _
    simp [runCalls, pickedSets]
  | cons c cs ih =>
    intro st hok
    obtain ⟨hsub, hpick⟩ := hstep st c (hok c (List.mem_cons_self _ _))
    obtain ⟨ih1, ih2, ih3⟩ := ih (step st c).1 (fun d hd => hok d (List.mem_cons_of_mem _ hd))
    have hfinal : tgt (runCalls step st (c :: cs)).1 ⊆ tgt st := ih1.trans hsub
    refine ⟨hfinal, ?_, ?_⟩
    · intro R hR
      simp only [runCalls, pickedSets, List.filterMap_cons] at hR
      cases hp : (step st c).2.picked with
      | none =>
        rw [hp] at hR
        obtain ⟨h1, h2⟩ := ih2 R hR
        exact ⟨h1.trans hsub, h2⟩
      | some R0 =>
        rw [hp] at hR
        rcases List.mem_cons.mp hR with h | h
        · subst h
          obtain ⟨h1, h2⟩ := hpick R hp
          exact ⟨h1, Finset.disjoint_of_subset_right ih1 h2⟩
        · obtain ⟨h1, h2⟩ := ih2 R h
          exact ⟨h1.trans hsub, h2⟩
    · simp only [runCalls, pickedSets, List.filterMap_cons]
      cases hp : (step st c).2.picked with
      | none => exact ih3
      | some R0 =>
        refine List.Pairwise.cons ?_ ih3
        intro R hR
        obtain ⟨_, h2⟩ := hpick R0 hp
        exact Finset.disjoint_of_subset_right (ih2 R hR).1 h2

theorem frontierTracker_call_drains (m : Nat) (ft : frontierTracker) (c : FrontierCall)
    (hc : c.isSampleOrClear = false) :
    (ft.call m c).1.targetSeeders ⊆ ft.targetSeeders ∧
    ∀ R, (ft.call m c).2.picked = some R →
      R ⊆ ft.targetSeeders ∧ Disjoint R (ft.call m c).1.targetSeeders := by
  cases c with
  | sampleSeeders src n => simp [FrontierCall.isSampleOrClear] at hc
  | clear => simp [FrontierCall.isSampleOrClear] at hc
  | pickSeedersToContact pick =>
    obtain ⟨⟨h1, _, h3⟩, _⟩ := pickLoop_from_empty m pick ft.targetSeeders
      ft.targetSeeders
    simp only [frontierTracker.call, frontierTracker.pickSeedersToContact, ids.NewShortSet,
      Returned.picked, Option.some.injEq]
    refine ⟨?_, ?_⟩
    · rw [h3]; exact Finset.sdiff_subset
    · intro R hR
      subst hR
      refine ⟨h1, ?_⟩
      rw [h3]
      exact Finset.disjoint_sdiff
  | hasSeedersToContact => simp [frontierTracker.call, Returned.picked]
  | sampledSeedersWeight =>
    cases hw : ft.sampledSeedersWeight <;>
      simp [frontierTracker.call, Returned.picked, Returned.ofWeight, hw]
  | markSeederContacted s =>
    simp [frontierTracker.call, Returned.picked, frontierTracker.markSeederContacted]
  | hasSeederBeenContacted x => simp [frontierTracker.call, Returned.picked]
  | markSeederResponded x =>
    simp [frontierTracker.call, Returned.picked, frontierTracker.markSeederResponded]
  | anyPendingSeederResponse => simp [frontierTracker.call, Returned.picked]
  | markSeederFailed x =>
    simp [frontierTracker.call, Returned.picked, frontierTracker.markSeederFailed]

theorem voteTracker_call_drains (m : Nat) (vt : voteTracker) (c : VoteCall)
    (hc : c.isStoreOrClear = false) :
    (vt.call m c).1.targetVoters ⊆ vt.targetVoters ∧
    ∀ R, (vt.call m c).2.picked = some R →
      R ⊆ vt.targetVoters ∧ Disjoint R (vt.call m c).1.targetVoters := by
  cases c with
  | clear => simp [VoteCall.isStoreOrClear] at hc
  | storeVoters vdrs => simp [VoteCall.isStoreOrClear] at hc
  | pickVotersToContact pick =>
    obtain ⟨⟨h1, _, h3⟩, _⟩ := pickLoop_from_empty m pick vt.targetVoters
      vt.targetVoters
    simp only [voteTracker.call, voteTracker.pickVotersToContact, ids.NewShortSet,
      Returned.picked, Option.some.injEq]
    refine ⟨?_, ?_⟩
    · rw [h3]; exact Finset.sdiff_subset
    · intro R hR
      subst hR
      refine ⟨h1, ?_⟩
      rw [h3]
      exact Finset.disjoint_sdiff
  | markVoterContacted s =>
    simp [voteTracker.call, Returned.picked, voteTracker.markVoterContacted]
  | hasVoterBeenContacted x => simp [voteTracker.call, Returned.picked]
  | markVoterResponded x =>
    simp [voteTracker.call, Returned.picked, voteTracker.markVoterResponded]
  | anyPendingVoterResponse => simp [voteTracker.call, Returned.picked]
  | markVoterFailed x =>
    simp [voteTracker.call, Returned.picked, voteTracker.markVoterFailed]

/-- C2: for every frontier tracker and every vote tracker, and every sequence of calls that
contains no `sampleSeeders` / `storeVoters` / `clear` (the pick calls may be interleaved
with `markContacted`, `markResponded`, `markFailed` and the queries, and `Pop` may choose
any member each time), the sets returned by the `pickSeedersToContact` /
`pickVotersToContact` calls of the sequence are pairwise disjoint, and no peer of any
returned set is a member of the target set after the sequence. -/
theorem pickToContact_sequence_disjoint (maxOutstandingStateSyncRequests : Nat)
    (ft : frontierTracker) (fcalls : List FrontierCall)
    (vt : voteTracker) (vcalls : List VoteCall)
    (hf : ∀ c ∈ fcalls, c.isSampleOrClear = false)
    (hv : ∀ c ∈ vcalls, c.isStoreOrClear = false) :
    ((pickedSets (ft.run maxOutstandingStateSyncRequests fcalls).2).Pairwise Disjoint ∧
      ∀ R ∈ pickedSets (ft.run maxOutstandingStateSyncRequests fcalls).2,
        ∀ x ∈ R, x ∉ (ft.run maxOutstandingStateSyncRequests fcalls).1.targetSeeders) ∧
    ((pickedSets (vt.run maxOutstandingStateSyncRequests vcalls).2).Pairwise Disjoint ∧
      ∀ R ∈ pickedSets (vt.run maxOutstandingStateSyncRequests vcalls).2,
        ∀ x ∈ R, x ∉ (vt.run maxOutstandingStateSyncRequests vcalls).1.targetVoters) := by
  obtain ⟨_, f2, f3⟩ := runCalls_drain (frontierTracker.call maxOutstandingStateSyncRequests)
    frontierTracker.targetSeeders (fun c => c.isSampleOrClear = false)
    (fun st c hc => frontierTracker_call_drains maxOutstandingStateSyncRequests st c hc)
    fcalls ft hf
  obtain ⟨_, v2, v3⟩ := runCalls_drain (voteTracker.call maxOutstandingStateSyncRequests)
    voteTracker.targetVoters (fun c => c.isStoreOrClear = false)
    (fun st c hc => voteTracker_call_drains maxOutstandingStateSyncRequests st c hc)
    vcalls vt hv
  exact ⟨⟨f3, fun R hR x hx => Finset.disjoint_left.mp (f2 R hR).2 hx⟩,
    ⟨v3, fun R hR x hx => Finset.disjoint_left.mp (v2 R hR).2 hx⟩⟩

/-- Witness for C2: a frontier tracker with targets 1, 2, 3 and a vote tracker with targets
4, 5, at most two outstanding requests, and two pick calls interleaved with other calls. -/
theorem pickToContact_sequence_disjoint_witness :
    (∀ c ∈ [FrontierCall.pickSeedersToContact (fun _ => 2),
            FrontierCall.markSeederContacted {2}, FrontierCall.markSeederFailed 2,
            FrontierCall.pickSeedersToContact (fun _ => 3)], c.isSampleOrClear = false) ∧
    (∀ c ∈ [VoteCall.pickVotersToContact (fun _ => 5), VoteCall.markVoterResponded 5,
            VoteCall.pickVotersToContact (fun _ => 4)], c.isStoreOrClear = false) ∧
    (((pickedSets ((frontierTracker.mk none {1, 2, 3} ∅ ∅).run 2
        [FrontierCall.pickSeedersToContact (fun _ => 2),
         FrontierCall.markSeederContacted {2}, FrontierCall.markSeederFailed 2,
         FrontierCall.pickSeedersToContact (fun _ => 3)]).2).Pairwise Disjoint ∧
      ∀ R ∈ pickedSets ((frontierTracker.mk none {1, 2, 3} ∅ ∅).run 2
        [FrontierCall.pickSeedersToContact (fun _ => 2),
         FrontierCall.markSeederContacted {2}, FrontierCall.markSeederFailed 2,
         FrontierCall.pickSeedersToContact (fun _ => 3)]).2,
        ∀ x ∈ R, x ∉ ((frontierTracker.mk none {1, 2, 3} ∅ ∅).run 2
          [FrontierCall.pickSeedersToContact (fun _ => 2),
           FrontierCall.markSeederContacted {2}, FrontierCall.markSeederFailed 2,
           FrontierCall.pickSeedersToContact (fun _ => 3)]).1.targetSeeders) ∧
     ((pickedSets ((voteTracker.mk {4, 5} ∅ ∅).run 2
        [VoteCall.pickVotersToContact (fun _ => 5), VoteCall.markVoterResponded 5,
         VoteCall.pickVotersToContact (fun _ => 4)]).2).Pairwise Disjoint ∧
      ∀ R ∈ pickedSets ((voteTracker.mk {4, 5} ∅ ∅).run 2
        [VoteCall.pickVotersToContact (fun _ => 5), VoteCall.markVoterResponded 5,
         VoteCall.pickVotersToContact (fun _ => 4)]).2,
        ∀ x ∈ R, x ∉ ((voteTracker.mk {4, 5} ∅ ∅).run 2
          [VoteCall.pickVotersToContact (fun _ => 5), VoteCall.markVoterResponded 5,
           VoteCall.pickVotersToContact (fun _ => 4)]).1.targetVoters)) :=
  ⟨by decide, by decide,
    pickToContact_sequence_disjoint 2 (frontierTracker.mk none {1, 2, 3} ∅ ∅)
      [FrontierCall.pickSeedersToContact (fun _ => 2),
       FrontierCall.markSeederContacted {2}, FrontierCall.markSeederFailed 2,
       FrontierCall.pickSeedersToContact (fun _ => 3)]
      (voteTracker.mk {4, 5} ∅ ∅)
      [VoteCall.pickVotersToContact (fun _ => 5), VoteCall.markVoterResponded 5,
       VoteCall.pickVotersToContact (fun _ => 4)]
      (by decide) (by decide)⟩

/-! ## markFailed, clear, markResponded, markContacted -/

theorem ShortSet_Contains_iff (s : ShortSet) (id : ShortID) :
    ShortSet.Contains s id = true ↔ id ∈ s := by
  simp [ShortSet.Contains]

/-- C3: for every frontier tracker, every vote tracker and every peer `x`, after
`markSeederFailed x` / `markVoterFailed x` the peer is a member of the failed set (which is
the previous failed set with `x` added), the contacted set and the target set are exactly
what they were before the call, and `hasSeederBeenContacted y` / `hasVoterBeenContacted y`
returns the same value as before for every peer `y`. -/
theorem markFailed_adds_to_failed_only (ft : frontierTracker) (vt : voteTracker) (x : ShortID) :
    (x ∈ (ft.markSeederFailed x).failedSeeders ∧
      (ft.markSeederFailed x).failedSeeders = insert x ft.failedSeeders ∧
      (ft.markSeederFailed x).contactedSeeders = ft.contactedSeeders ∧
      (ft.markSeederFailed x).targetSeeders = ft.targetSeeders ∧
      ∀ y, (ft.markSeederFailed x).hasSeederBeenContacted y = ft.hasSeederBeenContacted y) ∧
    (x ∈ (vt.markVoterFailed x).failedVoters ∧
      (vt.markVoterFailed x).failedVoters = insert x vt.failedVoters ∧
      (vt.markVoterFailed x).contactedVoters = vt.contactedVoters ∧
      (vt.markVoterFailed x).targetVoters = vt.targetVoters ∧
      ∀ y, (vt.markVoterFailed x).hasVoterBeenContacted y = vt.hasVoterBeenContacted y) := by
  refine ⟨⟨?_, rfl, rfl, rfl, fun y => rfl⟩, ⟨?_, rfl, rfl, rfl, fun y => rfl⟩⟩
  · simp [frontierTracker.markSeederFailed, ShortSet_Add_singleton]
  · simp [voteTracker.markVoterFailed, ShortSet_Add_singleton]

/-- C5: for every frontier tracker and every vote tracker, after `clear` the target,
contacted and failed sets are all empty, `anyPendingSeederResponse` /
`anyPendingVoterResponse` returns false, and `hasSeedersToContact` returns false. -/
theorem clear_empties_all_sets (ft : frontierTracker) (vt : voteTracker) :
    (ft.clear.targetSeeders = ∅ ∧ ft.clear.contactedSeeders = ∅ ∧ ft.clear.failedSeeders = ∅ ∧
      ft.clear.anyPendingSeederResponse = false ∧ ft.clear.hasSeedersToContact = false) ∧
    (vt.clear.targetVoters = ∅ ∧ vt.clear.contactedVoters = ∅ ∧ vt.clear.failedVoters = ∅ ∧
      vt.clear.anyPendingVoterResponse = false) := by
  refine ⟨⟨rfl, rfl, rfl, ?_, ?_⟩, ⟨rfl, rfl, rfl, ?_⟩⟩
  · simp [frontierTracker.anyPendingSeederResponse, frontierTracker.clear, ShortSet.Clear,
      ShortSet.Len]
  · simp [frontierTracker.hasSeedersToContact, frontierTracker.clear, ShortSet.Clear,
      ShortSet.Len]
  · simp [voteTracker.anyPendingVoterResponse, voteTracker.clear, ShortSet.Clear, ShortSet.Len]

/-- C9: for every frontier tracker, every vote tracker and every peer `id`, after
`markSeederResponded id` / `markVoterResponded id` the peer is no longer contacted, the
answer of `hasSeederBeenContacted y` / `hasVoterBeenContacted y` is unchanged for every
`y` different from `id`, the target and failed sets are unchanged, and the call changes
nothing at all when `id` was not contacted. -/
theorem markResponded_removes_only_that_peer (ft : frontierTracker) (vt : voteTracker)
    (id : ShortID) :
    ((ft.markSeederResponded id).hasSeederBeenContacted id = false ∧
      (∀ y, y ≠ id →
        (ft.markSeederResponded id).hasSeederBeenContacted y = ft.hasSeederBeenContacted y) ∧
      (ft.markSeederResponded id).targetSeeders = ft.targetSeeders ∧
      (ft.markSeederResponded id).failedSeeders = ft.failedSeeders ∧
      (ft.hasSeederBeenContacted id = false → ft.markSeederResponded id = ft)) ∧
    ((vt.markVoterResponded id).hasVoterBeenContacted id = false ∧
      (∀ y, y ≠ id →
        (vt.markVoterResponded id).hasVoterBeenContacted y = vt.hasVoterBeenContacted y) ∧
      (vt.markVoterResponded id).targetVoters = vt.targetVoters ∧
      (vt.markVoterResponded id).failedVoters = vt.failedVoters ∧
      (vt.hasVoterBeenContacted id = false → vt.markVoterResponded id = vt)) := by
  refine ⟨⟨?_, ?_, rfl, rfl, ?_⟩, ⟨?_, ?_, rfl, rfl, ?_⟩⟩
  · simp [frontierTracker.markSeederResponded, frontierTracker.hasSeederBeenContacted,
      ShortSet_Remove_singleton, ShortSet.Contains]
  · intro y hy
    simp [frontierTracker.markSeederResponded, frontierTracker.hasSeederBeenContacted,
      ShortSet_Remove_singleton, ShortSet.Contains, hy]
  · intro h
    have hnot : id ∉ ft.contactedSeeders := by
      simpa [frontierTracker.hasSeederBeenContacted, ShortSet.Contains] using h
    cases ft
    simp only [frontierTracker.markSeederResponded, ShortSet_Remove_singleton] at hnot ⊢
    rw [Finset.erase_eq_of_not_mem hnot]
  · simp [voteTracker.markVoterResponded, voteTracker.hasVoterBeenContacted,
      ShortSet_Remove_singleton, ShortSet.Contains]
  · intro y hy
    simp [voteTracker.markVoterResponded, voteTracker.hasVoterBeenContacted,
      ShortSet_Remove_singleton, ShortSet.Contains, hy]
  · intro h
    have hnot : id ∉ vt.contactedVoters := by
      simpa [voteTracker.hasVoterBeenContacted, ShortSet.Contains] using h
    cases vt
    simp only [voteTracker.markVoterResponded, ShortSet_Remove_singleton] at hnot ⊢
    rw [Finset.erase_eq_of_not_mem hnot]

theorem ShortSet_Add_List (s vdrIDs : ShortSet) :
    ShortSet.Add s (ShortSet.List vdrIDs) = s ∪ vdrIDs := by
  rw [ShortSet_Add_eq_union, ShortSet_List_toFinset]

/-- C10: for every frontier tracker, every vote tracker and every set of identifiers `S`,
after `markSeederContacted S` / `markVoterContacted S` the contacted set is the previous
contacted set united with `S`: `hasSeederBeenContacted x` / `hasVoterBeenContacted x` is
true iff `x` is in `S` or was contacted before, `anyPendingSeederResponse` /
`anyPendingVoterResponse` is true iff that union is non-empty, and the target and failed
sets are unchanged. -/
theorem markContacted_unites_with_contacted (ft : frontierTracker) (vt : voteTracker)
    (S : ShortSet) :
    ((ft.markSeederContacted S).contactedSeeders = ft.contactedSeeders ∪ S ∧
      (∀ x, (ft.markSeederContacted S).hasSeederBeenContacted x = true ↔
        (x ∈ S ∨ ft.hasSeederBeenContacted x = true)) ∧
      ((ft.markSeederContacted S).anyPendingSeederResponse = true ↔
        (ft.contactedSeeders ∪ S).Nonempty) ∧
      (ft.markSeederContacted S).targetSeeders = ft.targetSeeders ∧
      (ft.markSeederContacted S).failedSeeders = ft.failedSeeders) ∧
    ((vt.markVoterContacted S).contactedVoters = vt.contactedVoters ∪ S ∧
      (∀ x, (vt.markVoterContacted S).hasVoterBeenContacted x = true ↔
        (x ∈ S ∨ vt.hasVoterBeenContacted x = true)) ∧
      ((vt.markVoterContacted S).anyPendingVoterResponse = true ↔
        (vt.contactedVoters ∪ S).Nonempty) ∧
      (vt.markVoterContacted S).targetVoters = vt.targetVoters ∧
      (vt.markVoterContacted S).failedVoters = vt.failedVoters) := by
  have hf : (ft.markSeederContacted S).contactedSeeders = ft.contactedSeeders ∪ S :=
    ShortSet_Add_List _ _
  have hv : (vt.markVoterContacted S).contactedVoters = vt.contactedVoters ∪ S :=
    ShortSet_Add_List _ _
  refine ⟨⟨hf, ?_, ?_, rfl, rfl⟩, ⟨hv, ?_, ?_, rfl, rfl⟩⟩
  · intro x
    simp only [frontierTracker.hasSeederBeenContacted, ShortSet_Contains_iff, hf,
      Finset.mem_union]
    exact or_comm
  · simp only [frontierTracker.anyPendingSeederResponse, ShortSet.Len, hf, decide_eq_true_eq,
      ne_eq, Finset.card_eq_zero, Finset.nonempty_iff_ne_empty]
  · intro x
    simp only [voteTracker.hasVoterBeenContacted, ShortSet_Contains_iff, hv, Finset.mem_union]
    exact or_comm
  · simp only [voteTracker.anyPendingVoterResponse, ShortSet.Len, hv, decide_eq_true_eq,
      ne_eq, Finset.card_eq_zero, Finset.nonempty_iff_ne_empty]

/-! ## sampleSeeders and storeVoters -/

theorem foldl_Add_targetSeeders (vdrs : List Validator) (ft : frontierTracker) :
    (vdrs.foldl
      (fun t vdr => { t with targetSeeders := ShortSet.Add t.targetSeeders [vdr.ID] }) ft) =
    { ft with targetSeeders := ft.targetSeeders ∪ idsOf vdrs } := by
  induction vdrs generalizing ft with
  | nil => simp [idsOf]
  | cons v vs ih =>
    rw [List.foldl_cons, ih]
    simp only [ShortSet_Add_singleton, idsOf, List.map_cons, List.toFinset_cons]
    congr 1
    ext a
    simp only [Finset.mem_union, Finset.mem_insert]
    tauto

theorem foldl_Add_targetVoters (vdrs : List Validator) (vt : voteTracker) :
    (vdrs.foldl
      (fun t vdr => { t with targetVoters := ShortSet.Add t.targetVoters [vdr.ID] }) vt) =
    { vt with targetVoters := vt.targetVoters ∪ idsOf vdrs } := by
  induction vdrs generalizing vt with
  | nil => simp [idsOf]
  | cons v vs ih =>
    rw [List.foldl_cons, ih]
    simp only [ShortSet_Add_singleton, idsOf, List.map_cons, List.toFinset_cons]
    congr 1
    ext a
    simp only [Finset.mem_union, Finset.mem_insert]
    tauto

theorem idsOf_cons (v : Validator) (vs : List Validator) :
    idsOf (v :: vs) = insert v.ID (idsOf vs) := by
  simp [idsOf]

theorem stakeOf_cons_self (v : Validator) (vs : List Validator) :
    stakeOf (v :: vs) v.ID = v.Weight := by
  simp [stakeOf]

theorem stakeOf_cons_ne (v : Validator) (vs : List Validator) (id : ShortID) (h : id ≠ v.ID) :
    stakeOf (v :: vs) id = stakeOf vs id := by
  have hb : (v.ID == id) = false := by
    simpa using fun e => h e.symm
  simp [stakeOf, List.find?_cons, hb]

theorem any_ID_iff (vdrs : List Validator) (id : ShortID) :
    vdrs.any (fun m => m.ID == id) = true ↔ id ∈ idsOf vdrs := by
  simp only [idsOf, List.any_eq_true, beq_iff_eq, List.mem_toFinset, List.mem_map]

/-- When the loop of `Set.Set` ends without error, it has added to the total weight the
weight of every listed validator that was not yet a member, once per identifier, and the
total still fits a `uint64`. -/
theorem setLoop_totalWeight (l : List Validator) :
    ∀ s : validators.Set, (validators.Set.setLoop s l).2 = none →
      (validators.Set.setLoop s l).1.totalWeight =
        s.totalWeight + ∑ id ∈ idsOf l \ idsOf s.vdrs, stakeOf l id ∧
      (s.totalWeight ≤ maxUint64 → (validators.Set.setLoop s l).1.totalWeight ≤ maxUint64) := by
  induction l with
  | nil =>
    intro s _
    simp [validators.Set.setLoop, idsOf]
  | cons v rest ih =>
    intro s hok
    by_cases hmem : s.vdrs.any (fun m => m.ID == v.ID) = true
    · have hin : v.ID ∈ idsOf s.vdrs := (any_ID_iff _ _).mp hmem
      simp only [validators.Set.setLoop, hmem, if_true] at hok ⊢
      obtain ⟨h1, h2⟩ := ih s hok
      refine ⟨?_, h2⟩
      rw [h1, idsOf_cons, Finset.insert_sdiff_of_mem _ hin]
      congr 1
      refine Finset.sum_congr rfl ?_
      intro id hid
      have hne : id ≠ v.ID := by
        rintro rfl
        exact (Finset.mem_sdiff.mp hid).2 hin
      rw [stakeOf_cons_ne v rest id hne]
    · have hnin : v.ID ∉ idsOf s.vdrs := fun h => hmem ((any_ID_iff _ _).mpr h)
      by_cases hov : s.totalWeight + v.Weight > maxUint64
      · simp [validators.Set.setLoop, hmem, hov] at hok
      · simp only [validators.Set.setLoop, hmem, hov, if_false, Bool.false_eq_true] at hok ⊢
        obtain ⟨h1, h2⟩ := ih _ hok
        refine ⟨?_, fun _ => h2 (by simpa using Nat.le_of_not_lt hov)⟩
        rw [h1]
        have hids : idsOf (s.vdrs ++ [v]) = insert v.ID (idsOf s.vdrs) := by
          ext a
          simp [idsOf, or_comm, eq_comm]
        have hset : idsOf (v :: rest) \ idsOf s.vdrs =
            insert v.ID (idsOf rest \ insert v.ID (idsOf s.vdrs)) := by
          ext a
          simp only [idsOf_cons, Finset.mem_sdiff, Finset.mem_insert, not_or]
          constructor
          · rintro ⟨h | h, hn⟩
            · exact Or.inl h
            · by_cases ha : a = v.ID
              · exact Or.inl ha
              · exact Or.inr ⟨h, ha, hn⟩
          · rintro (h | ⟨h, _, hn⟩)
            · subst h; exact ⟨Or.inl rfl, hnin⟩
            · exact ⟨Or.inr h, hn⟩
        have hnot : v.ID ∉ idsOf rest \ insert v.ID (idsOf s.vdrs) := by
          simp
        rw [hset, Finset.sum_insert hnot, stakeOf_cons_self, hids]
        have hcongr : ∑ id ∈ idsOf rest \ insert v.ID (idsOf s.vdrs), stakeOf (v :: rest) id =
            ∑ id ∈ idsOf rest \ insert v.ID (idsOf s.vdrs), stakeOf rest id := by
          refine Finset.sum_congr rfl ?_
          intro id hid
          have hne : id ≠ v.ID := by
            rintro rfl
            exact hnot hid
          rw [stakeOf_cons_ne v rest id hne]
        rw [hcongr]
        simp only [Nat.add_assoc]

theorem distinctWeight_of_nodup (l : List Validator) (hnd : (l.map Validator.ID).Nodup) :
    distinctWeight l = sumWeights l := by
  induction l with
  | nil => simp [distinctWeight, sumWeights, idsOf]
  | cons v vs ih =>
    have hnd2 : v.ID ∉ vs.map Validator.ID ∧ (vs.map Validator.ID).Nodup :=
      List.nodup_cons.mp hnd
    have hnin : v.ID ∉ idsOf vs := by
      simpa [idsOf] using hnd2.1
    have hcongr : ∑ id ∈ idsOf vs, stakeOf (v :: vs) id = ∑ id ∈ idsOf vs, stakeOf vs id := by
      refine Finset.sum_congr rfl ?_
      intro id hid
      have hne : id ≠ v.ID := by
        rintro rfl
        exact hnin hid
      rw [stakeOf_cons_ne v vs id hne]
    unfold distinctWeight at ih ⊢
    rw [idsOf_cons, Finset.sum_insert hnin, stakeOf_cons_self, hcongr, ih hnd2.2]
    simp [sumWeights]

/-- After a successful `Set.Set(vdrs)` on a new set, `Weight()` is the total stake weight of
the distinct validators of `vdrs`, and it fits a `uint64`. -/
theorem Set_Weight (vdrs : List Validator)
    (hok : (validators.Set.Set validators.NewSet vdrs).2 = none) :
    (validators.Set.Set validators.NewSet vdrs).1.Weight = distinctWeight vdrs ∧
    (validators.Set.Set validators.NewSet vdrs).1.Weight ≤ maxUint64 := by
  obtain ⟨h1, h2⟩ := setLoop_totalWeight vdrs { vdrs := [], totalWeight := 0 } hok
  refine ⟨?_, h2 (Nat.zero_le _)⟩
  simp only [validators.Set.Weight, validators.Set.Set, h1, distinctWeight]
  simp [idsOf]

/-- The loop of `Set.Set` does not fail on validators with pairwise distinct identifiers,
none of them a member yet, whose weights added to the total fit a `uint64`. -/
theorem setLoop_ok (l : List Validator) :
    ∀ s : validators.Set, (l.map Validator.ID).Nodup →
      (∀ v ∈ l, v.ID ∉ idsOf s.vdrs) →
      s.totalWeight + sumWeights l ≤ maxUint64 →
      (validators.Set.setLoop s l).2 = none := by
  induction l with
  | nil =>
    intro s _ _ _
    rfl
  | cons v rest ih =>
    intro s hnd hnew hfit
    have hnd2 : v.ID ∉ rest.map Validator.ID ∧ (rest.map Validator.ID).Nodup :=
      List.nodup_cons.mp hnd
    have hnin : v.ID ∉ idsOf s.vdrs := hnew v (List.mem_cons_self _ _)
    have hmem : ¬ (s.vdrs.any (fun m => m.ID == v.ID) = true) :=
      fun h => hnin ((any_ID_iff _ _).mp h)
    have hsum : sumWeights (v :: rest) = v.Weight + sumWeights rest := by
      simp [sumWeights]
    rw [hsum] at hfit
    have hov : ¬ (s.totalWeight + v.Weight > maxUint64) := by omega
    simp only [validators.Set.setLoop, hmem, hov, if_false, Bool.false_eq_true]
    apply ih
    · exact hnd2.2
    · intro u hu hin
      have hids : idsOf (s.vdrs ++ [v]) = insert v.ID (idsOf s.vdrs) := by
        ext a
        simp [idsOf, or_comm, eq_comm]
      rw [hids, Finset.mem_insert] at hin
      rcases hin with h | h
      · exact hnd2.1 (h ▸ List.mem_map_of_mem Validator.ID hu)
      · exact hnew u (List.mem_cons_of_mem _ hu) h
    · show s.totalWeight + v.Weight + sumWeights rest ≤ maxUint64
      omega

/-- Storing a sample of a validator set in a new set does not fail: the sampled validators
are distinct members of a set whose total weight fits a `uint64`. -/
theorem Set_sample_ok (src : BeaconSampler) (n : Int) (beacons : List Validator)
    (hs : src.Sample n = Except.ok beacons) :
    (validators.Set.Set validators.NewSet beacons).2 = none ∧
    (beacons.map Validator.ID).Nodup := by
  obtain ⟨l, hperm, hsub⟩ := src.drawn n beacons hs
  have hnd : (beacons.map Validator.ID).Nodup :=
    (List.Perm.nodup_iff (hperm.map Validator.ID)).mp
      (List.Nodup.sublist (hsub.map Validator.ID) src.distinct)
  have hle : sumWeights beacons ≤ maxUint64 := by
    have h1 : sumWeights beacons = (l.map Validator.Weight).sum :=
      ((hperm.map Validator.Weight).sum_eq).symm
    have h2 : (l.map Validator.Weight).sum ≤ (src.vdrs.map Validator.Weight).sum :=
      List.Sublist.sum_le_sum (hsub.map Validator.Weight) (fun _ _ => Nat.zero_le _)
    exact h1 ▸ Nat.le_trans h2 src.fits
  refine ⟨?_, hnd⟩
  apply setLoop_ok beacons { vdrs := [], totalWeight := 0 } hnd
  · intro v _
    simp [idsOf]
  · simpa using hle

/-- The two outcomes of `sampleSeeders`: the sampler failed and the tracker is untouched, or
it succeeded and the sample was stored and added to the target set. The second return
statement of the Go method, for a failure of `Set`, is not reached. -/
theorem sampleSeeders_cases (ft : frontierTracker) (src : BeaconSampler) (n : Int) :
    (∃ err, src.Sample n = .error err ∧ ft.sampleSeeders src n = (ft, some err)) ∨
    (∃ beacons, src.Sample n = .ok beacons ∧
      (validators.Set.Set validators.NewSet beacons).2 = none ∧
      ft.sampleSeeders src n =
        ({ ft with
            frontierSeeders := some (validators.Set.Set validators.NewSet beacons).1
            targetSeeders := ft.targetSeeders ∪ idsOf beacons }, none)) := by
  unfold frontierTracker.sampleSeeders
  cases hs : src.Sample n with
  | error err => exact Or.inl ⟨err, rfl, rfl⟩
  | ok beacons =>
    have hset := (Set_sample_ok src n beacons hs).1
    refine Or.inr ⟨beacons, rfl, hset, ?_⟩
    simp only [hset, foldl_Add_targetSeeders]

/-- C6: for every frontier tracker, validator set and sample size for which `sampleSeeders`
returns no error, the sampler returned some validators and the target set after the call
is the target set before the call united with the identifiers of those validators; it is
exactly the set of sampled identifiers when the target set was empty before the call (as it
is after `clear`). -/
theorem sampleSeeders_adds_sample_to_target (ft : frontierTracker) (src : BeaconSampler)
    (n : Int) (hok : (ft.sampleSeeders src n).2 = none) :
    ∃ beacons, src.Sample n = Except.ok beacons ∧
      (ft.sampleSeeders src n).1.targetSeeders = ft.targetSeeders ∪ idsOf beacons ∧
      (ft.targetSeeders = ∅ → (ft.sampleSeeders src n).1.targetSeeders = idsOf beacons) ∧
      (ft.clear.sampleSeeders src n).1.targetSeeders = idsOf beacons := by
  rcases sampleSeeders_cases ft src n with ⟨err, _, h⟩ | ⟨beacons, hs, hset, h⟩
  · rw [h] at hok; cases hok
  · refine ⟨beacons, hs, by rw [h], ?_, ?_⟩
    · intro hempty
      rw [h]
      simp [hempty]
    · rcases sampleSeeders_cases ft.clear src n with ⟨err, hs2, _⟩ | ⟨b2, hs2, _, h2⟩
      · rw [hs] at hs2; cases hs2
      · rw [hs] at hs2
        cases hs2
        rw [h2]
        simp [frontierTracker.clear, ShortSet.Clear]

/-- Witness for C6: sampling validators 1 and 2 into a tracker whose target set holds 7. -/
theorem sampleSeeders_adds_sample_to_target_witness :
    ((frontierTracker.mk none {7} ∅ ∅).sampleSeeders
        beaconsOneTwo 2).2 = none ∧
    ∃ beacons, beaconsOneTwo.Sample 2 =
        Except.ok beacons ∧
      ((frontierTracker.mk none {7} ∅ ∅).sampleSeeders
        beaconsOneTwo 2).1.targetSeeders =
          {7} ∪ idsOf beacons ∧
      (({7} : ShortSet) = ∅ →
        ((frontierTracker.mk none {7} ∅ ∅).sampleSeeders
          beaconsOneTwo 2).1.targetSeeders =
            idsOf beacons) ∧
      ((frontierTracker.mk none {7} ∅ ∅).clear.sampleSeeders
        beaconsOneTwo 2).1.targetSeeders =
          idsOf beacons :=
  ⟨by decide,
    sampleSeeders_adds_sample_to_target (frontierTracker.mk none {7} ∅ ∅)
      beaconsOneTwo 2 (by decide)⟩

/-- Counterexample to C6 as stated: the target set holds peer 7 and the sampler returns the
single validator 1; `sampleSeeders` returns no error, and the target set afterwards is
`{1, 7}`, not the set `{1}` of sampled identifiers. -/
theorem sampleSeeders_keeps_previous_targets :
    ((frontierTracker.mk none {7} ∅ ∅).sampleSeeders
        beaconsOne 1).2 = none ∧
    ((frontierTracker.mk none {7} ∅ ∅).sampleSeeders
        beaconsOne 1).1.targetSeeders = {1, 7} ∧
    ((frontierTracker.mk none {7} ∅ ∅).sampleSeeders
        beaconsOne 1).1.targetSeeders ≠
      idsOf [⟨1, 10⟩] := by
  decide

theorem runCalls_preserves {σ κ α : Type} (step : σ → κ → σ × Returned) (f : σ → α)
    (ok : κ → Prop) (hstep : ∀ st c, ok c → f (step st c).1 = f st) (calls : List κ) :
    ∀ st, (∀ c ∈ calls, ok c) → f (runCalls step st calls).1 = f st := by
  induction calls with
  | nil => intro st _; rfl
  | cons c cs ih =>
    intro st hok
    simp only [runCalls]
    rw [ih (step st c).1 (fun d hd => hok d (List.mem_cons_of_mem _ hd)),
      hstep st c (hok c (List.mem_cons_self _ _))]

theorem frontierTracker_call_frontierSeeders (m : Nat) (ft : frontierTracker)
    (c : FrontierCall) (hc : c.isSample = false) :
    (ft.call m c).1.frontierSeeders = ft.frontierSeeders := by
  cases c with
  | sampleSeeders src n => simp [FrontierCall.isSample] at hc
  | _ => rfl

/-- C7: after a successful `sampleSeeders` call, `sampledSeedersWeight()` equals the total
stake weight of the validators returned by the sampler in that call, each validator counted
once (the plain sum of the returned weights when the sampler returned no validator twice);
it fits a `uint64`, and it is still returned after any later sequence of calls other than
`sampleSeeders` (`clear`, `pickSeedersToContact`, `markSeederContacted`,
`markSeederResponded`, `markSeederFailed` and the queries). -/
theorem sampledSeedersWeight_is_sample_weight (maxOutstandingStateSyncRequests : Nat)
    (ft : frontierTracker) (src : BeaconSampler) (n : Int) (beacons : List Validator)
    (later : List FrontierCall)
    (hs : src.Sample n = Except.ok beacons)
    (hok : (ft.sampleSeeders src n).2 = none)
    (hl : ∀ c ∈ later, c.isSample = false) :
    (ft.sampleSeeders src n).1.sampledSeedersWeight = some (distinctWeight beacons) ∧
    ((ft.sampleSeeders src n).1.run maxOutstandingStateSyncRequests later).1.sampledSeedersWeight =
      some (distinctWeight beacons) ∧
    ((beacons.map Validator.ID).Nodup → distinctWeight beacons = sumWeights beacons) ∧
    distinctWeight beacons ≤ maxUint64 := by
  have hw : (ft.sampleSeeders src n).1.sampledSeedersWeight = some (distinctWeight beacons) ∧
      distinctWeight beacons ≤ maxUint64 := by
    rcases sampleSeeders_cases ft src n with ⟨err, _, h⟩ | ⟨b, hs2, hset, h⟩
    · rw [h] at hok; cases hok
    · rw [hs] at hs2
      cases hs2
      obtain ⟨w1, w2⟩ := Set_Weight beacons hset
      rw [h]
      simp only [frontierTracker.sampledSeedersWeight, Option.map_some']
      exact ⟨congrArg some w1, w1 ▸ w2⟩
  refine ⟨hw.1, ?_, distinctWeight_of_nodup beacons, hw.2⟩
  have hkeep := runCalls_preserves (frontierTracker.call maxOutstandingStateSyncRequests)
    frontierTracker.frontierSeeders (fun c => c.isSample = false)
    (fun st c hc => frontierTracker_call_frontierSeeders maxOutstandingStateSyncRequests st c hc)
    later (ft.sampleSeeders src n).1 hl
  have : ((ft.sampleSeeders src n).1.run maxOutstandingStateSyncRequests later).1.frontierSeeders =
      (ft.sampleSeeders src n).1.frontierSeeders := hkeep
  simp only [frontierTracker.sampledSeedersWeight] at hw ⊢
  rw [this]
  exact hw.1

/-- Witness for C7: validators 1 and 2 with weights 10 and 20 are sampled, then the tracker
is cleared, picked from and marked. -/
theorem sampledSeedersWeight_is_sample_weight_witness :
    beaconsOneTwo.Sample 2 =
      Except.ok [⟨1, 10⟩, ⟨2, 20⟩] ∧
    ((frontierTracker.mk none ∅ ∅ ∅).sampleSeeders
      beaconsOneTwo 2).2 = none ∧
    (∀ c ∈ [FrontierCall.pickSeedersToContact (fun _ => 1), FrontierCall.markSeederContacted {1},
            FrontierCall.markSeederFailed 1, FrontierCall.markSeederResponded 1,
            FrontierCall.clear], c.isSample = false) ∧
    (((frontierTracker.mk none ∅ ∅ ∅).sampleSeeders
        beaconsOneTwo 2).1.sampledSeedersWeight =
        some (distinctWeight [⟨1, 10⟩, ⟨2, 20⟩]) ∧
      (((frontierTracker.mk none ∅ ∅ ∅).sampleSeeders
        beaconsOneTwo 2).1.run 1
          [FrontierCall.pickSeedersToContact (fun _ => 1), FrontierCall.markSeederContacted {1},
           FrontierCall.markSeederFailed 1, FrontierCall.markSeederResponded 1,
           FrontierCall.clear]).1.sampledSeedersWeight =
        some (distinctWeight [⟨1, 10⟩, ⟨2, 20⟩]) ∧
      ((([⟨1, 10⟩, ⟨2, 20⟩] : List Validator).map Validator.ID).Nodup →
        distinctWeight [⟨1, 10⟩, ⟨2, 20⟩] = sumWeights [⟨1, 10⟩, ⟨2, 20⟩]) ∧
      distinctWeight [⟨1, 10⟩, ⟨2, 20⟩] ≤ maxUint64) :=
  ⟨rfl, by decide, by decide,
    sampledSeedersWeight_is_sample_weight 1 (frontierTracker.mk none ∅ ∅ ∅)
      beaconsOneTwo 2 [⟨1, 10⟩, ⟨2, 20⟩]
      [FrontierCall.pickSeedersToContact (fun _ => 1), FrontierCall.markSeederContacted {1},
       FrontierCall.markSeederFailed 1, FrontierCall.markSeederResponded 1,
       FrontierCall.clear]
      rfl (by decide) (by decide)⟩

theorem frontierTracker_call_contacted (m : Nat) (ft : frontierTracker) (c : FrontierCall)
    (x : ShortID) (hx : x ∈ ft.contactedSeeders)
    (hc1 : c ≠ FrontierCall.markSeederResponded x) (hc2 : c ≠ FrontierCall.clear) :
    x ∈ (ft.call m c).1.contactedSeeders := by
  cases c with
  | sampleSeeders src n =>
    simp only [frontierTracker.call]
    rcases sampleSeeders_cases ft src n with ⟨err, _, h⟩ | ⟨b, _, _, h⟩ <;>
      (rw [h]; exact hx)
  | clear => exact absurd rfl hc2
  | pickSeedersToContact pick => exact hx
  | hasSeedersToContact => exact hx
  | sampledSeedersWeight => exact hx
  | markSeederContacted s =>
    simp only [frontierTracker.call, frontierTracker.markSeederContacted, ShortSet_Add_List]
    exact Finset.mem_union_left _ hx
  | hasSeederBeenContacted y => exact hx
  | markSeederResponded y =>
    have hy : x ≠ y := by
      rintro rfl
      exact hc1 rfl
    simp only [frontierTracker.call, frontierTracker.markSeederResponded,
      ShortSet_Remove_singleton]
    exact Finset.mem_erase.mpr ⟨hy, hx⟩
  | anyPendingSeederResponse => exact hx
  | markSeederFailed y => exact hx

theorem voteTracker_call_contacted (m : Nat) (vt : voteTracker) (d : VoteCall)
    (x : ShortID) (hx : x ∈ vt.contactedVoters)
    (hd1 : d ≠ VoteCall.markVoterResponded x) (hd2 : d ≠ VoteCall.clear) :
    x ∈ (vt.call m d).1.contactedVoters := by
  cases d with
  | clear => exact absurd rfl hd2
  | storeVoters vdrs =>
    simp only [voteTracker.call, voteTracker.storeVoters, foldl_Add_targetVoters]
    exact hx
  | pickVotersToContact pick => exact hx
  | markVoterContacted s =>
    simp only [voteTracker.call, voteTracker.markVoterContacted, ShortSet_Add_List]
    exact Finset.mem_union_left _ hx
  | hasVoterBeenContacted y => exact hx
  | markVoterResponded y =>
    have hy : x ≠ y := by
      rintro rfl
      exact hd1 rfl
    simp only [voteTracker.call, voteTracker.markVoterResponded, ShortSet_Remove_singleton]
    exact Finset.mem_erase.mpr ⟨hy, hx⟩
  | anyPendingVoterResponse => exact hx
  | markVoterFailed y => exact hx

/-- C4: `markResponded` and `clear` are the only ways a peer leaves the contacted set: for
every frontier tracker and every vote tracker, every peer `x` that has been contacted, and
every call other than `markSeederResponded x` / `markVoterResponded x` and `clear`
(`sampleSeeders`, `storeVoters`, the pick calls, `markContacted`, `markFailed`,
`markResponded` of another peer and the queries), `hasSeederBeenContacted x` /
`hasVoterBeenContacted x` is still true after the call; after `clear` it is false. -/
theorem contacted_left_only_by_markResponded_or_clear (maxOutstandingStateSyncRequests : Nat)
    (ft : frontierTracker) (c : FrontierCall) (vt : voteTracker) (d : VoteCall) (x : ShortID)
    (hft : ft.hasSeederBeenContacted x = true)
    (hc1 : c ≠ FrontierCall.markSeederResponded x) (hc2 : c ≠ FrontierCall.clear)
    (hvt : vt.hasVoterBeenContacted x = true)
    (hd1 : d ≠ VoteCall.markVoterResponded x) (hd2 : d ≠ VoteCall.clear) :
    ((ft.call maxOutstandingStateSyncRequests c).1.hasSeederBeenContacted x = true ∧
      (ft.call maxOutstandingStateSyncRequests FrontierCall.clear).1.hasSeederBeenContacted x =
        false) ∧
    ((vt.call maxOutstandingStateSyncRequests d).1.hasVoterBeenContacted x = true ∧
      (vt.call maxOutstandingStateSyncRequests VoteCall.clear).1.hasVoterBeenContacted x =
        false) := by
  refine ⟨⟨?_, ?_⟩, ⟨?_, ?_⟩⟩
  · exact (ShortSet_Contains_iff _ _).mpr
      (frontierTracker_call_contacted maxOutstandingStateSyncRequests ft c x
        ((ShortSet_Contains_iff _ _).mp hft) hc1 hc2)
  · simp [frontierTracker.call, frontierTracker.clear, frontierTracker.hasSeederBeenContacted,
      ShortSet.Clear, ShortSet.Contains]
  · exact (ShortSet_Contains_iff _ _).mpr
      (voteTracker_call_contacted maxOutstandingStateSyncRequests vt d x
        ((ShortSet_Contains_iff _ _).mp hvt) hd1 hd2)
  · simp [voteTracker.call, voteTracker.clear, voteTracker.hasVoterBeenContacted,
      ShortSet.Clear, ShortSet.Contains]

/-- Witness for C4: peer 1 is contacted in both trackers; marking it failed, or marking
peer 2 responded, leaves it contacted. -/
theorem contacted_left_only_by_markResponded_or_clear_witness :
    (frontierTracker.mk none {3} {1, 2} ∅).hasSeederBeenContacted 1 = true ∧
    FrontierCall.markSeederFailed 1 ≠ FrontierCall.markSeederResponded 1 ∧
    FrontierCall.markSeederFailed 1 ≠ FrontierCall.clear ∧
    (voteTracker.mk {3} {1, 2} ∅).hasVoterBeenContacted 1 = true ∧
    VoteCall.markVoterResponded 2 ≠ VoteCall.markVoterResponded 1 ∧
    VoteCall.markVoterResponded 2 ≠ VoteCall.clear ∧
    ((((frontierTracker.mk none {3} {1, 2} ∅).call 50
          (FrontierCall.markSeederFailed 1)).1.hasSeederBeenContacted 1 = true ∧
        ((frontierTracker.mk none {3} {1, 2} ∅).call 50
          FrontierCall.clear).1.hasSeederBeenContacted 1 = false) ∧
      (((voteTracker.mk {3} {1, 2} ∅).call 50
          (VoteCall.markVoterResponded 2)).1.hasVoterBeenContacted 1 = true ∧
        ((voteTracker.mk {3} {1, 2} ∅).call 50
          VoteCall.clear).1.hasVoterBeenContacted 1 = false)) :=
  ⟨by decide, by simp, by simp, by decide, by simp, by simp,
    contacted_left_only_by_markResponded_or_clear 50
      (frontierTracker.mk none {3} {1, 2} ∅) (FrontierCall.markSeederFailed 1)
      (voteTracker.mk {3} {1, 2} ∅) (VoteCall.markVoterResponded 2) 1
      (by decide) (by simp) (by simp) (by decide) (by simp) (by simp)⟩

/-- Counterexample to C4 as stated: peer 1 has been contacted, `clear` is an operation
other than `markSeederResponded 1` / `markVoterResponded 1`, and after `clear` the peer is
no longer contacted, in the frontier tracker and in the vote tracker alike. -/
theorem clear_removes_contacted_peer :
    ((frontierTracker.mk none ∅ {1} ∅).hasSeederBeenContacted 1 = true ∧
      FrontierCall.clear ≠ FrontierCall.markSeederResponded 1 ∧
      ((frontierTracker.mk none ∅ {1} ∅).call 50
        FrontierCall.clear).1.hasSeederBeenContacted 1 = false) ∧
    ((voteTracker.mk ∅ {1} ∅).hasVoterBeenContacted 1 = true ∧
      VoteCall.clear ≠ VoteCall.markVoterResponded 1 ∧
      ((voteTracker.mk ∅ {1} ∅).call 50 VoteCall.clear).1.hasVoterBeenContacted 1 = false) :=
  ⟨⟨by decide, by simp, by decide⟩, ⟨by decide, by simp, by decide⟩⟩

/-! ## The summary codec -/

theorem packBE_length (k n : Nat) : (packBE k n).length = k := by
  induction k with
  | zero => rfl
  | succ k ih => simp [packBE, ih]

theorem foldl_packBE (k n acc : Nat) :
    (packBE k n).foldl (fun acc x => acc * 256 + x) acc = acc * 256 ^ k + n % 256 ^ k := by
  induction k generalizing acc with
  | zero => simp [packBE, Nat.mod_one]
  | succ k ih =>
    simp only [packBE, List.foldl_cons, ih]
    rw [Nat.mod_pow_succ]
    ring

theorem unpackFixed_packBE (k n : Nat) (rest : GoBytes) :
    unpackFixed k (packBE k n ++ rest) = some (n % 256 ^ k, rest) := by
  have hlen : (packBE k n).length = k := packBE_length k n
  have htake : (packBE k n ++ rest).take k = packBE k n := List.take_left' hlen
  have hdrop : (packBE k n ++ rest).drop k = rest := List.drop_left' hlen
  have hnot : ¬ (packBE k n ++ rest).length < k := by
    simp [hlen]
  simp only [unpackFixed, hnot, if_false, htake, hdrop, unpackBE, foldl_packBE]
  simp

theorem unpackBytes_packBE (b rest : GoBytes) (hb : b.length ≤ maxUint32) :
    unpackBytes (packBE 4 b.length ++ (b ++ rest)) = some (b, rest) := by
  have hmod : b.length % 256 ^ 4 = b.length := by
    apply Nat.mod_eq_of_lt
    have : maxUint32 < 256 ^ 4 := by decide
    omega
  simp only [unpackBytes, unpackFixed_packBE, hmod]
  have hnot : ¬ (b ++ rest).length < b.length := by simp
  simp [hnot]

/-- Decoding what `summary.Marshal` encoded gives back the fork height (as a `uint64`), the
block bytes and the inner summary bytes. -/
theorem Unmarshal_Marshal (forkHeight : Nat) (blk coreSummary bytes : GoBytes)
    (h : summary.Marshal forkHeight blk coreSummary = Except.ok bytes) :
    summary.Unmarshal bytes = Except.ok (forkHeight % 2 ^ 64, blk, coreSummary) := by
  unfold summary.Marshal at h
  by_cases hlen : blk.length > maxUint32 ∨ coreSummary.length > maxUint32
  · rw [if_pos hlen] at h
    cases h
  · rw [if_neg hlen] at h
    have hb : blk.length ≤ maxUint32 := by omega
    have hc : coreSummary.length ≤ maxUint32 := by omega
    cases h
    have h3 : unpackBytes (packBE 4 coreSummary.length ++ coreSummary) =
        some (coreSummary, []) := by
      have := unpackBytes_packBE coreSummary [] hc
      simpa using this
    simp only [summary.Unmarshal, unpackFixed_packBE, List.append_assoc, unpackBytes_packBE _ _ hb,
      h3]
    simp [summary.codecVersion]

/-- Parsing the bytes of a summary that `summary.Build` built succeeds, and the parsed
summary carries the same block bytes, inner summary bytes, identifier and bytes. -/
theorem Parse_Build (H : GoBytes → ids.ID) (forkHeight : Nat) (blk coreSummary : GoBytes)
    (w : summary.StateSummary) (h : summary.Build H forkHeight blk coreSummary = Except.ok w) :
    summary.Parse H w.Bytes = Except.ok { w with ForkHeight := forkHeight % 2 ^ 64 } ∧
    w.BlockBytes = blk ∧ w.InnerSummaryBytes = coreSummary := by
  unfold summary.Build at h
  cases hm : summary.Marshal forkHeight blk coreSummary with
  | error err => rw [hm] at h; cases h
  | ok bytes =>
    rw [hm] at h
    cases h
    refine ⟨?_, rfl, rfl⟩
    simp only [summary.Parse, Unmarshal_Marshal forkHeight blk coreSummary bytes hm]

/-- Test of the codec on concrete bytes: the wrapped summary of fork height 5, block bytes
`[1]` and inner summary bytes `[7, 8]`. -/
theorem Build_example :
    summary.Build (fun b => b.sum) 5 [1] [7, 8] = Except.ok
      { ForkHeight := 5, BlockBytes := [1], InnerSummaryBytes := [7, 8], ID := 24,
        Bytes := [0, 0, 0, 0, 0, 0, 0, 0, 0, 5, 0, 0, 0, 1, 1, 0, 0, 0, 2, 7, 8] } ∧
    summary.Parse (fun b => b.sum) [0, 0, 0, 0, 0, 0, 0, 0, 0, 5, 0, 0, 0, 1, 1, 0, 0, 0, 2, 7, 8] =
      Except.ok
        { ForkHeight := 5, BlockBytes := [1], InnerSummaryBytes := [7, 8], ID := 24,
          Bytes := [0, 0, 0, 0, 0, 0, 0, 0, 0, 5, 0, 0, 0, 1, 1, 0, 0, 0, 2, 7, 8] } ∧
    summary.Parse (fun b => b.sum) [105, 110, 110, 101, 114] =
      Except.error (Error.wrapped "could not unmarshal summary due to: "
        summary.errWrongStateSyncVersion) :=
  ⟨rfl, rfl, rfl⟩

/-! ## buildStateSummary -/

/-- C11: `buildStateSummary` passes pre-fork summaries through verbatim: for every inner
summary, if the persisted fork height is absent (`GetForkHeight` returns
`database.ErrNotFound`), or it is present and the height of the inner summary is below it,
the result is the inner summary itself (hence the same identifier, height and bytes) with a
nil error, and the only collaborator consulted is the fork height: neither the height index
nor the block store is. -/
theorem buildStateSummary_passes_prefork_through (ComputeHash256Array : GoBytes → ids.ID)
    (vm : VM) (innerSummary : InnerSummary)
    (hpre : vm.State.GetForkHeight = Except.error Error.ErrNotFound ∨
      ∃ forkHeight, vm.State.GetForkHeight = Except.ok forkHeight ∧
        innerSummary.Height < forkHeight) :
    (vm.buildStateSummary ComputeHash256Array innerSummary).summary =
      some (block.StateSummary.inner innerSummary) ∧
    (block.StateSummary.inner innerSummary).ID = some innerSummary.ID ∧
    (block.StateSummary.inner innerSummary).Height = innerSummary.Height ∧
    (block.StateSummary.inner innerSummary).Bytes = some innerSummary.Bytes ∧
    (vm.buildStateSummary ComputeHash256Array innerSummary).err = none ∧
    (vm.buildStateSummary ComputeHash256Array innerSummary).consulted =
      [Consulted.GetForkHeight] := by
  rcases hpre with h | ⟨forkHeight, h, hlt⟩
  · simp [VM.buildStateSummary, h, block.StateSummary.ID, block.StateSummary.Height,
      block.StateSummary.Bytes]
  · simp [VM.buildStateSummary, h, hlt, block.StateSummary.ID, block.StateSummary.Height,
      block.StateSummary.Bytes]

/-- C12: for every inner summary whose height is at or above the known fork height, if the
height index has no block identifier at that height, or the block with that identifier
cannot be fetched, `buildStateSummary` returns that lookup error unchanged together with a
nil summary (so never the inner summary passed through). -/
theorem buildStateSummary_propagates_lookup_error (ComputeHash256Array : GoBytes → ids.ID)
    (vm : VM) (innerSummary : InnerSummary) (forkHeight : Nat) (err : Error)
    (hfork : vm.State.GetForkHeight = Except.ok forkHeight)
    (hpost : forkHeight ≤ innerSummary.Height)
    (hfail : vm.State.GetBlockIDAtHeight innerSummary.Height = Except.error err ∨
      ∃ blkID, vm.State.GetBlockIDAtHeight innerSummary.Height = Except.ok blkID ∧
        vm.State.getPostForkBlock blkID = Except.error err) :
    (vm.buildStateSummary ComputeHash256Array innerSummary).summary = none ∧
    (vm.buildStateSummary ComputeHash256Array innerSummary).err = some err := by
  have hnot : ¬ innerSummary.Height < forkHeight := Nat.not_lt.mpr hpost
  rcases hfail with h | ⟨blkID, h1, h2⟩
  · simp [VM.buildStateSummary, hfork, hnot, h]
  · simp [VM.buildStateSummary, hfork, hnot, h1, h2]

/-- C13: for every inner summary whose height `h` is at or above the fork height, when the
height index yields a block identifier at exactly `h` and the block with that identifier
is stored, `buildStateSummary` returns a `stateSummary` whose stateless part is what
`summary.Build(forkHeight, block.Bytes(), innerSummary.Bytes())` returned for that block,
which references that inner summary and that block, and whose `Height()` is the height of
the inner summary; the error returned is that of `summary.Build`. -/
theorem buildStateSummary_wraps_postfork (ComputeHash256Array : GoBytes → ids.ID)
    (vm : VM) (innerSummary : InnerSummary) (forkHeight : Nat) (blkID : ids.ID)
    (blk : PostForkBlock)
    (hfork : vm.State.GetForkHeight = Except.ok forkHeight)
    (hpost : forkHeight ≤ innerSummary.Height)
    (hindex : vm.State.GetBlockIDAtHeight innerSummary.Height = Except.ok blkID)
    (hstored : vm.State.getPostForkBlock blkID = Except.ok blk) :
    (vm.buildStateSummary ComputeHash256Array innerSummary).summary =
      some (block.StateSummary.proposer
        { StateSummary :=
            (summary.Build ComputeHash256Array forkHeight blk.Bytes innerSummary.Bytes).toOption
          innerSummary := innerSummary
          block := blk
          state := vm.State }) ∧
    (∀ r, (vm.buildStateSummary ComputeHash256Array innerSummary).summary = some r →
      r.Height = innerSummary.Height) ∧
    (vm.buildStateSummary ComputeHash256Array innerSummary).err =
      errOf (summary.Build ComputeHash256Array forkHeight blk.Bytes innerSummary.Bytes) ∧
    (vm.buildStateSummary ComputeHash256Array innerSummary).consulted =
      [Consulted.GetForkHeight, Consulted.GetBlockIDAtHeight innerSummary.Height,
        Consulted.getPostForkBlock blkID,
        Consulted.summaryBuild forkHeight blk.Bytes innerSummary.Bytes] := by
  have hnot : ¬ innerSummary.Height < forkHeight := Nat.not_lt.mpr hpost
  have hsum : (vm.buildStateSummary ComputeHash256Array innerSummary).summary =
      some (block.StateSummary.proposer
        { StateSummary :=
            (summary.Build ComputeHash256Array forkHeight blk.Bytes innerSummary.Bytes).toOption
          innerSummary := innerSummary
          block := blk
          state := vm.State }) := by
    simp [VM.buildStateSummary, hfork, hnot, hindex, hstored]
  refine ⟨hsum, ?_, ?_, ?_⟩
  · intro r hr
    rw [hsum] at hr
    cases hr
    rfl
  · simp [VM.buildStateSummary, hfork, hnot, hindex, hstored]
  · simp [VM.buildStateSummary, hfork, hnot, hindex, hstored]

/-- Witness for C11: the test summary at height 1969 with the fork height set to 1970. -/
theorem buildStateSummary_passes_prefork_through_witness :
    ((testVM (Except.ok 1970)).State.GetForkHeight = Except.error Error.ErrNotFound ∨
      ∃ forkHeight, (testVM (Except.ok 1970)).State.GetForkHeight = Except.ok forkHeight ∧
        testInnerSummary.Height < forkHeight) ∧
    ((testVM (Except.ok 1970)).buildStateSummary testHash testInnerSummary).summary =
      some (block.StateSummary.inner testInnerSummary) ∧
    (block.StateSummary.inner testInnerSummary).ID = some testInnerSummary.ID ∧
    (block.StateSummary.inner testInnerSummary).Height = testInnerSummary.Height ∧
    (block.StateSummary.inner testInnerSummary).Bytes = some testInnerSummary.Bytes ∧
    ((testVM (Except.ok 1970)).buildStateSummary testHash testInnerSummary).err = none ∧
    ((testVM (Except.ok 1970)).buildStateSummary testHash testInnerSummary).consulted =
      [Consulted.GetForkHeight] :=
  ⟨Or.inr ⟨1970, rfl, by decide⟩,
    buildStateSummary_passes_prefork_through testHash (testVM (Except.ok 1970)) testInnerSummary
      (Or.inr ⟨1970, rfl, by decide⟩)⟩

/-- Witness for C12: the test summary at height 1969, past the fork height 1968, over a
height index that has no block at that height. -/
theorem buildStateSummary_propagates_lookup_error_witness :
    (VM.mk (some testInnerVM)
        { GetForkHeight := Except.ok 1968
          GetBlockIDAtHeight := fun _ => Except.error Error.ErrNotFound
          getPostForkBlock := fun _ => Except.error Error.ErrNotFound }
        none (fun _ => Except.error (Error.other 2)) (fun _ => none)).State.GetForkHeight = Except.ok 1968 ∧
    1968 ≤ testInnerSummary.Height ∧
    ((VM.mk (some testInnerVM)
        { GetForkHeight := Except.ok 1968
          GetBlockIDAtHeight := fun _ => Except.error Error.ErrNotFound
          getPostForkBlock := fun _ => Except.error Error.ErrNotFound }
        none (fun _ => Except.error (Error.other 2)) (fun _ => none)).buildStateSummary testHash
          testInnerSummary).summary = none ∧
    ((VM.mk (some testInnerVM)
        { GetForkHeight := Except.ok 1968
          GetBlockIDAtHeight := fun _ => Except.error Error.ErrNotFound
          getPostForkBlock := fun _ => Except.error Error.ErrNotFound }
        none (fun _ => Except.error (Error.other 2)) (fun _ => none)).buildStateSummary testHash
          testInnerSummary).err = some Error.ErrNotFound :=
  ⟨rfl, by decide,
    buildStateSummary_propagates_lookup_error testHash
      (VM.mk (some testInnerVM)
        { GetForkHeight := Except.ok 1968
          GetBlockIDAtHeight := fun _ => Except.error Error.ErrNotFound
          getPostForkBlock := fun _ => Except.error Error.ErrNotFound }
        none (fun _ => Except.error (Error.other 2)) (fun _ => none))
      testInnerSummary 1968 Error.ErrNotFound rfl (by decide) (Or.inl rfl)⟩

/-- Witness for C13: the test summary at height 1969, past the fork height 1968, with
`testBlock` indexed and stored at that height. -/
theorem buildStateSummary_wraps_postfork_witness :
    (testVM (Except.ok 1968)).State.GetForkHeight = Except.ok 1968 ∧
    1968 ≤ testInnerSummary.Height ∧
    (testVM (Except.ok 1968)).State.GetBlockIDAtHeight testInnerSummary.Height =
      Except.ok testBlock.ID ∧
    (testVM (Except.ok 1968)).State.getPostForkBlock testBlock.ID = Except.ok testBlock ∧
    ((testVM (Except.ok 1968)).buildStateSummary testHash testInnerSummary).summary =
      some (block.StateSummary.proposer
        { StateSummary :=
            (summary.Build testHash 1968 testBlock.Bytes testInnerSummary.Bytes).toOption
          innerSummary := testInnerSummary
          block := testBlock
          state := (testVM (Except.ok 1968)).State }) ∧
    (∀ r, ((testVM (Except.ok 1968)).buildStateSummary testHash testInnerSummary).summary =
        some r → r.Height = testInnerSummary.Height) ∧
    ((testVM (Except.ok 1968)).buildStateSummary testHash testInnerSummary).err =
      errOf (summary.Build testHash 1968 testBlock.Bytes testInnerSummary.Bytes) ∧
    ((testVM (Except.ok 1968)).buildStateSummary testHash testInnerSummary).consulted =
      [Consulted.GetForkHeight, Consulted.GetBlockIDAtHeight testInnerSummary.Height,
        Consulted.getPostForkBlock testBlock.ID,
        Consulted.summaryBuild 1968 testBlock.Bytes testInnerSummary.Bytes] :=
  ⟨rfl, by decide, rfl, rfl,
    buildStateSummary_wraps_postfork testHash (testVM (Except.ok 1968)) testInnerSummary 1968
      testBlock.ID testBlock rfl (by decide) rfl rfl⟩

/-! ## ParseStateSummary -/

/-- The fallback path of `ParseStateSummary`: when the wrapped-format decoder fails, the
result is the inner VM's verdict on the same bytes. -/
theorem ParseStateSummary_of_Parse_error (H : GoBytes → ids.ID) (vm : VM)
    (ssVM : StateSyncableVM) (summaryBytes : GoBytes) (e : Error)
    (hss : vm.ssVM = some ssVM) (hfail : summary.Parse H summaryBytes = Except.error e) :
    (vm.ParseStateSummary H summaryBytes).summary =
      (ssVM.ParseStateSummary summaryBytes).toOption.map block.StateSummary.inner ∧
    (vm.ParseStateSummary H summaryBytes).err = errOf (ssVM.ParseStateSummary summaryBytes) ∧
    (vm.ParseStateSummary H summaryBytes).consulted =
      [Consulted.summaryParse summaryBytes, Consulted.ssVMParseStateSummary summaryBytes] := by
  unfold VM.ParseStateSummary
  rw [hss]
  simp only [hfail]
  cases ssVM.ParseStateSummary summaryBytes <;> simp [errOf, Except.toOption]

/-- The wrapped path of `ParseStateSummary`, one case per return statement. -/
theorem ParseStateSummary_of_Parse_ok (H : GoBytes → ids.ID) (vm : VM)
    (ssVM : StateSyncableVM) (summaryBytes : GoBytes) (w : summary.StateSummary)
    (hss : vm.ssVM = some ssVM) (hok : summary.Parse H summaryBytes = Except.ok w) :
    (∀ e, ssVM.ParseStateSummary w.InnerSummaryBytes = Except.error e →
      (vm.ParseStateSummary H summaryBytes).summary = none ∧
      (vm.ParseStateSummary H summaryBytes).err =
        some (Error.wrapped "could not parse inner summary due to: " e) ∧
      (vm.ParseStateSummary H summaryBytes).consulted =
        [Consulted.summaryParse summaryBytes,
          Consulted.ssVMParseStateSummary w.InnerSummaryBytes]) ∧
    (∀ innerSummary e, ssVM.ParseStateSummary w.InnerSummaryBytes = Except.ok innerSummary →
      vm.parsePostForkBlock w.BlockBytes = Except.error e →
      (vm.ParseStateSummary H summaryBytes).summary = none ∧
      (vm.ParseStateSummary H summaryBytes).err =
        some (Error.wrapped "could not parse proposervm block bytes from summary due to: " e) ∧
      (vm.ParseStateSummary H summaryBytes).consulted =
        [Consulted.summaryParse summaryBytes,
          Consulted.ssVMParseStateSummary w.InnerSummaryBytes,
          Consulted.parsePostForkBlock w.BlockBytes]) ∧
    (∀ innerSummary blk, ssVM.ParseStateSummary w.InnerSummaryBytes = Except.ok innerSummary →
      vm.parsePostForkBlock w.BlockBytes = Except.ok blk →
      (vm.ParseStateSummary H summaryBytes).summary =
        some (block.StateSummary.proposer
          { StateSummary := some w, innerSummary := innerSummary, block := blk,
            state := vm.State }) ∧
      (vm.ParseStateSummary H summaryBytes).err = none ∧
      (vm.ParseStateSummary H summaryBytes).consulted =
        [Consulted.summaryParse summaryBytes,
          Consulted.ssVMParseStateSummary w.InnerSummaryBytes,
          Consulted.parsePostForkBlock w.BlockBytes]) := by
  unfold VM.ParseStateSummary
  rw [hss]
  simp only [hok]
  refine ⟨?_, ?_, ?_⟩
  · intro e h1
    simp [h1]
  · intro innerSummary e h1 h2
    simp [h1, h2]
  · intro innerSummary blk h1 h2
    simp [h1, h2]

/-- C16: legacy fallback. For every byte string on which the wrapped-format decoder
`summary.Parse` fails, `ParseStateSummary` returns exactly what the inner VM's
`ParseStateSummary` returns on the same bytes (same summary, same error); in particular,
when the inner VM rejects the bytes too, the result is that error and no summary; and the
block decoder is never invoked. -/
theorem ParseStateSummary_falls_back_to_inner_VM (ComputeHash256Array : GoBytes → ids.ID)
    (vm : VM) (ssVM : StateSyncableVM) (summaryBytes : GoBytes) (e : Error)
    (hss : vm.ssVM = some ssVM)
    (hfail : summary.Parse ComputeHash256Array summaryBytes = Except.error e) :
    (vm.ParseStateSummary ComputeHash256Array summaryBytes).summary =
      (ssVM.ParseStateSummary summaryBytes).toOption.map block.StateSummary.inner ∧
    (vm.ParseStateSummary ComputeHash256Array summaryBytes).err =
      errOf (ssVM.ParseStateSummary summaryBytes) ∧
    (∀ err, ssVM.ParseStateSummary summaryBytes = Except.error err →
      (vm.ParseStateSummary ComputeHash256Array summaryBytes).summary = none ∧
      (vm.ParseStateSummary ComputeHash256Array summaryBytes).err = some err) ∧
    (∀ b, Consulted.parsePostForkBlock b ∉
      (vm.ParseStateSummary ComputeHash256Array summaryBytes).consulted) := by
  obtain ⟨h1, h2, h3⟩ := ParseStateSummary_of_Parse_error ComputeHash256Array vm ssVM
    summaryBytes e hss hfail
  refine ⟨h1, h2, ?_, ?_⟩
  · intro err herr
    rw [h1, h2, herr]
    exact ⟨rfl, rfl⟩
  · intro b
    rw [h3]
    simp

/-- Witness for C16: the bytes `"inner"` do not decode as a wrapped summary. -/
theorem ParseStateSummary_falls_back_to_inner_VM_witness :
    (testVM (Except.ok 1970)).ssVM = some testInnerVM ∧
    summary.Parse testHash [105, 110, 110, 101, 114] =
      Except.error (Error.wrapped "could not unmarshal summary due to: "
        summary.errWrongStateSyncVersion) ∧
    ((testVM (Except.ok 1970)).ParseStateSummary testHash [105, 110, 110, 101, 114]).summary =
      (testInnerVM.ParseStateSummary [105, 110, 110, 101, 114]).toOption.map
        block.StateSummary.inner ∧
    ((testVM (Except.ok 1970)).ParseStateSummary testHash [105, 110, 110, 101, 114]).err =
      errOf (testInnerVM.ParseStateSummary [105, 110, 110, 101, 114]) ∧
    (∀ err, testInnerVM.ParseStateSummary [105, 110, 110, 101, 114] = Except.error err →
      ((testVM (Except.ok 1970)).ParseStateSummary testHash
        [105, 110, 110, 101, 114]).summary = none ∧
      ((testVM (Except.ok 1970)).ParseStateSummary testHash
        [105, 110, 110, 101, 114]).err = some err) ∧
    (∀ b, Consulted.parsePostForkBlock b ∉
      ((testVM (Except.ok 1970)).ParseStateSummary testHash
        [105, 110, 110, 101, 114]).consulted) :=
  ⟨rfl, rfl,
    ParseStateSummary_falls_back_to_inner_VM testHash (testVM (Except.ok 1970)) testInnerVM
      [105, 110, 110, 101, 114]
      (Error.wrapped "could not unmarshal summary due to: " summary.errWrongStateSyncVersion)
      rfl rfl⟩

/-- C17: for every byte string that decodes as the wrapped format, `ParseStateSummary` fails
hard, with a non-nil error that wraps the cause and a nil summary, whenever the inner VM
rejects the embedded inner summary bytes or the embedded block bytes do not decode as a
proposer block; the inner VM is asked about the embedded bytes only, never about the whole
byte string. When both decode, it returns a `stateSummary` that references exactly the
decoded wrapper, that inner summary and that block, with a nil error. -/
theorem ParseStateSummary_wrapped_fails_hard (ComputeHash256Array : GoBytes → ids.ID)
    (vm : VM) (ssVM : StateSyncableVM) (summaryBytes : GoBytes) (w : summary.StateSummary)
    (hss : vm.ssVM = some ssVM)
    (hok : summary.Parse ComputeHash256Array summaryBytes = Except.ok w) :
    (∀ e, ssVM.ParseStateSummary w.InnerSummaryBytes = Except.error e →
      (vm.ParseStateSummary ComputeHash256Array summaryBytes).summary = none ∧
      (vm.ParseStateSummary ComputeHash256Array summaryBytes).err =
        some (Error.wrapped "could not parse inner summary due to: " e) ∧
      (vm.ParseStateSummary ComputeHash256Array summaryBytes).consulted =
        [Consulted.summaryParse summaryBytes,
          Consulted.ssVMParseStateSummary w.InnerSummaryBytes]) ∧
    (∀ innerSummary e, ssVM.ParseStateSummary w.InnerSummaryBytes = Except.ok innerSummary →
      vm.parsePostForkBlock w.BlockBytes = Except.error e →
      (vm.ParseStateSummary ComputeHash256Array summaryBytes).summary = none ∧
      (vm.ParseStateSummary ComputeHash256Array summaryBytes).err =
        some (Error.wrapped "could not parse proposervm block bytes from summary due to: " e) ∧
      (vm.ParseStateSummary ComputeHash256Array summaryBytes).consulted =
        [Consulted.summaryParse summaryBytes,
          Consulted.ssVMParseStateSummary w.InnerSummaryBytes,
          Consulted.parsePostForkBlock w.BlockBytes]) ∧
    (∀ innerSummary blk, ssVM.ParseStateSummary w.InnerSummaryBytes = Except.ok innerSummary →
      vm.parsePostForkBlock w.BlockBytes = Except.ok blk →
      (vm.ParseStateSummary ComputeHash256Array summaryBytes).summary =
        some (block.StateSummary.proposer
          { StateSummary := some w, innerSummary := innerSummary, block := blk,
            state := vm.State }) ∧
      (vm.ParseStateSummary ComputeHash256Array summaryBytes).err = none) := by
  obtain ⟨h1, h2, h3⟩ := ParseStateSummary_of_Parse_ok ComputeHash256Array vm ssVM
    summaryBytes w hss hok
  refine ⟨h1, h2, ?_⟩
  intro innerSummary blk hi hb
  exact ⟨(h3 innerSummary blk hi hb).1, (h3 innerSummary blk hi hb).2.1⟩

/-- Witness for C17: the 18 zero bytes decode as a wrapped summary whose embedded inner
summary bytes are empty, which the inner VM of the tests rejects. -/
theorem ParseStateSummary_wrapped_fails_hard_witness :
    (testVM (Except.ok 1970)).ssVM = some testInnerVM ∧
    summary.Parse testHash zeroBytesSummary.Bytes = Except.ok
      { ForkHeight := 0, BlockBytes := [], InnerSummaryBytes := [], ID := 0,
        Bytes := zeroBytesSummary.Bytes } ∧
    testInnerVM.ParseStateSummary [] = Except.error (Error.other 1) ∧
    ((testVM (Except.ok 1970)).ParseStateSummary testHash zeroBytesSummary.Bytes).summary =
      none ∧
    ((testVM (Except.ok 1970)).ParseStateSummary testHash zeroBytesSummary.Bytes).err =
      some (Error.wrapped "could not parse inner summary due to: " (Error.other 1)) ∧
    ((testVM (Except.ok 1970)).ParseStateSummary testHash zeroBytesSummary.Bytes).consulted =
      [Consulted.summaryParse zeroBytesSummary.Bytes, Consulted.ssVMParseStateSummary []] :=
  ⟨rfl, rfl, rfl,
    (ParseStateSummary_wrapped_fails_hard testHash (testVM (Except.ok 1970)) testInnerVM
      zeroBytesSummary.Bytes
      { ForkHeight := 0, BlockBytes := [], InnerSummaryBytes := [], ID := 0,
        Bytes := zeroBytesSummary.Bytes } rfl rfl).1 (Error.other 1) rfl⟩

/-! ## Round trips -/

/-- C14: pre-fork round trip. For every inner summary whose height is below the fork height
(or when the fork height is absent), given that the inner VM's parser returns that inner
summary for its own bytes and that the wrapped-format decoder `summary.Parse` rejects those
bytes, `ParseStateSummary` applied to the bytes of the summary returned by
`buildStateSummary` (and by `GetStateSummary`, when the inner VM serves that summary)
succeeds and yields the inner summary, hence the same identifier, height and bytes. -/
theorem prefork_roundtrip_when_not_wrapped (ComputeHash256Array : GoBytes → ids.ID)
    (vm : VM) (ssVM : StateSyncableVM) (innerSummary : InnerSummary) (e : Error)
    (hss : vm.ssVM = some ssVM)
    (hpre : vm.State.GetForkHeight = Except.error Error.ErrNotFound ∨
      ∃ forkHeight, vm.State.GetForkHeight = Except.ok forkHeight ∧
        innerSummary.Height < forkHeight)
    (hinner : ssVM.ParseStateSummary innerSummary.Bytes = Except.ok innerSummary)
    (hrej : summary.Parse ComputeHash256Array innerSummary.Bytes = Except.error e) :
    (vm.buildStateSummary ComputeHash256Array innerSummary).summary.bind
      block.StateSummary.Bytes = some innerSummary.Bytes ∧
    (∀ height, ssVM.GetStateSummary height = Except.ok innerSummary →
      (vm.GetStateSummary ComputeHash256Array height).summary.bind
        block.StateSummary.Bytes = some innerSummary.Bytes) ∧
    (vm.ParseStateSummary ComputeHash256Array innerSummary.Bytes).err = none ∧
    (vm.ParseStateSummary ComputeHash256Array innerSummary.Bytes).summary =
      some (block.StateSummary.inner innerSummary) ∧
    (block.StateSummary.inner innerSummary).ID = some innerSummary.ID ∧
    (block.StateSummary.inner innerSummary).Height = innerSummary.Height ∧
    (block.StateSummary.inner innerSummary).Bytes = some innerSummary.Bytes := by
  have hbuild : (vm.buildStateSummary ComputeHash256Array innerSummary).summary =
      some (block.StateSummary.inner innerSummary) := by
    rcases hpre with h | ⟨forkHeight, h, hlt⟩
    · simp [VM.buildStateSummary, h]
    · simp [VM.buildStateSummary, h, hlt]
  obtain ⟨h1, h2, _⟩ := ParseStateSummary_of_Parse_error ComputeHash256Array vm ssVM
    innerSummary.Bytes e hss hrej
  refine ⟨?_, ?_, ?_, ?_, rfl, rfl, rfl⟩
  · rw [hbuild]
    rfl
  · intro height hget
    have : (vm.GetStateSummary ComputeHash256Array height).summary =
        (vm.buildStateSummary ComputeHash256Array innerSummary).summary := by
      simp [VM.GetStateSummary, hss, hget]
    rw [this, hbuild]
    rfl
  · rw [h2, hinner]
    rfl
  · rw [h1, hinner]
    rfl

/-- Witness for C14: the test summary (bytes `"inner"`) with the fork height at 1970. -/
theorem prefork_roundtrip_when_not_wrapped_witness :
    (testVM (Except.ok 1970)).ssVM = some testInnerVM ∧
    ((testVM (Except.ok 1970)).State.GetForkHeight = Except.error Error.ErrNotFound ∨
      ∃ forkHeight, (testVM (Except.ok 1970)).State.GetForkHeight = Except.ok forkHeight ∧
        testInnerSummary.Height < forkHeight) ∧
    testInnerVM.ParseStateSummary testInnerSummary.Bytes = Except.ok testInnerSummary ∧
    summary.Parse testHash testInnerSummary.Bytes =
      Except.error (Error.wrapped "could not unmarshal summary due to: "
        summary.errWrongStateSyncVersion) ∧
    ((testVM (Except.ok 1970)).buildStateSummary testHash testInnerSummary).summary.bind
      block.StateSummary.Bytes = some testInnerSummary.Bytes ∧
    (∀ height, testInnerVM.GetStateSummary height = Except.ok testInnerSummary →
      ((testVM (Except.ok 1970)).GetStateSummary testHash height).summary.bind
        block.StateSummary.Bytes = some testInnerSummary.Bytes) ∧
    ((testVM (Except.ok 1970)).ParseStateSummary testHash testInnerSummary.Bytes).err = none ∧
    ((testVM (Except.ok 1970)).ParseStateSummary testHash testInnerSummary.Bytes).summary =
      some (block.StateSummary.inner testInnerSummary) ∧
    (block.StateSummary.inner testInnerSummary).ID = some testInnerSummary.ID ∧
    (block.StateSummary.inner testInnerSummary).Height = testInnerSummary.Height ∧
    (block.StateSummary.inner testInnerSummary).Bytes = some testInnerSummary.Bytes :=
  ⟨rfl, Or.inr ⟨1970, rfl, by decide⟩, rfl, rfl,
    prefork_roundtrip_when_not_wrapped testHash (testVM (Except.ok 1970)) testInnerVM
      testInnerSummary
      (Error.wrapped "could not unmarshal summary due to: " summary.errWrongStateSyncVersion)
      rfl (Or.inr ⟨1970, rfl, by decide⟩) rfl rfl⟩

/-- Counterexample to C14 as stated: the inner summary `zeroBytesSummary` has height 1969,
below the fork height 1970, and the inner VM parses its bytes back to it; `buildStateSummary`
returns it unchanged, but its 18 zero bytes decode as a wrapped summary with empty inner
summary bytes, which the inner VM rejects, so `ParseStateSummary` on the bytes of the
returned summary fails and yields no summary. -/
theorem prefork_roundtrip_fails_on_wrapped_looking_bytes :
    zeroBytesSummary.Height < 1970 ∧
    (testVMOver (innerVMServing zeroBytesSummary) (Except.ok 1970)).State.GetForkHeight =
      Except.ok 1970 ∧
    (innerVMServing zeroBytesSummary).ParseStateSummary zeroBytesSummary.Bytes =
      Except.ok zeroBytesSummary ∧
    ((testVMOver (innerVMServing zeroBytesSummary) (Except.ok 1970)).buildStateSummary testHash
      zeroBytesSummary).summary.bind block.StateSummary.Bytes = some zeroBytesSummary.Bytes ∧
    ((testVMOver (innerVMServing zeroBytesSummary) (Except.ok 1970)).buildStateSummary testHash
      zeroBytesSummary).err = none ∧
    ((testVMOver (innerVMServing zeroBytesSummary) (Except.ok 1970)).ParseStateSummary testHash
      zeroBytesSummary.Bytes).summary.isNone = true ∧
    ((testVMOver (innerVMServing zeroBytesSummary) (Except.ok 1970)).ParseStateSummary testHash
      zeroBytesSummary.Bytes).err =
        some (Error.wrapped "could not parse inner summary due to: " (Error.other 1)) :=
  ⟨by decide, rfl, rfl, rfl, rfl, rfl, rfl⟩

theorem errOf_eq_none {α : Type} (x : Except Error α) (h : errOf x = none) :
    ∃ a, x = Except.ok a := by
  cases x with
  | error e => simp [errOf] at h
  | ok a => exact ⟨a, rfl⟩

/-- C15: post-fork round trip. For every inner summary at a height at or above the fork
height, with a proposer block indexed and stored at that height whose bytes decode as a
proposer block, when `buildStateSummary` returns a wrapped summary without error and the
inner VM parses the inner summary's bytes to a summary of the same height,
`ParseStateSummary` applied to the bytes of the wrapped summary succeeds and yields a
summary with the same identifier, the same height (the height of the inner summary) and
the same bytes as the wrapped summary. The same holds for the summary returned by
`GetStateSummary` when the inner VM serves that inner summary. -/
theorem postfork_roundtrip (ComputeHash256Array : GoBytes → ids.ID)
    (vm : VM) (ssVM : StateSyncableVM) (innerSummary parsedInner : InnerSummary)
    (forkHeight : Nat) (blkID : ids.ID) (blk parsedBlk : PostForkBlock)
    (hss : vm.ssVM = some ssVM)
    (hfork : vm.State.GetForkHeight = Except.ok forkHeight)
    (hpost : forkHeight ≤ innerSummary.Height)
    (hindex : vm.State.GetBlockIDAtHeight innerSummary.Height = Except.ok blkID)
    (hstored : vm.State.getPostForkBlock blkID = Except.ok blk)
    (hbuilt : (vm.buildStateSummary ComputeHash256Array innerSummary).err = none)
    (hinner : ssVM.ParseStateSummary innerSummary.Bytes = Except.ok parsedInner)
    (hheight : parsedInner.Height = innerSummary.Height)
    (hvalid : vm.parsePostForkBlock blk.Bytes = Except.ok parsedBlk) :
    ∃ built parsed bytes,
      (vm.buildStateSummary ComputeHash256Array innerSummary).summary = some built ∧
      (∀ height, ssVM.GetStateSummary height = Except.ok innerSummary →
        (vm.GetStateSummary ComputeHash256Array height).summary = some built) ∧
      built.Bytes = some bytes ∧
      built.ID = some (ComputeHash256Array bytes) ∧
      built.Height = innerSummary.Height ∧
      (vm.ParseStateSummary ComputeHash256Array bytes).err = none ∧
      (vm.ParseStateSummary ComputeHash256Array bytes).summary = some parsed ∧
      parsed.ID = built.ID ∧
      parsed.Height = built.Height ∧
      parsed.Bytes = built.Bytes := by
  have hnot : ¬ innerSummary.Height < forkHeight := Nat.not_lt.mpr hpost
  have herr : (vm.buildStateSummary ComputeHash256Array innerSummary).err =
      errOf (summary.Build ComputeHash256Array forkHeight blk.Bytes innerSummary.Bytes) := by
    simp [VM.buildStateSummary, hfork, hnot, hindex, hstored]
  rw [herr] at hbuilt
  obtain ⟨w, hw⟩ := errOf_eq_none _ hbuilt
  have hsum : (vm.buildStateSummary ComputeHash256Array innerSummary).summary =
      some (block.StateSummary.proposer
        { StateSummary := some w, innerSummary := innerSummary, block := blk,
          state := vm.State }) := by
    simp [VM.buildStateSummary, hfork, hnot, hindex, hstored, hw, Except.toOption]
  obtain ⟨hparse, hblkBytes, hinnerBytes⟩ :=
    Parse_Build ComputeHash256Array forkHeight blk.Bytes innerSummary.Bytes w hw
  have hid : w.ID = ComputeHash256Array w.Bytes := by
    unfold summary.Build at hw
    cases hm : summary.Marshal forkHeight blk.Bytes innerSummary.Bytes with
    | error err => rw [hm] at hw; cases hw
    | ok bytes =>
      rw [hm] at hw
      cases hw
      rfl
  obtain ⟨_, _, h3⟩ := ParseStateSummary_of_Parse_ok ComputeHash256Array vm ssVM w.Bytes
    { w with ForkHeight := forkHeight % 2 ^ 64 } hss hparse
  obtain ⟨p1, p2, _⟩ := h3 parsedInner parsedBlk (by simpa [hinnerBytes] using hinner)
    (by simpa [hblkBytes] using hvalid)
  refine ⟨_, _, w.Bytes, hsum, ?_, rfl, ?_, rfl, p2, p1, ?_, ?_, rfl⟩
  · intro height hget
    have : (vm.GetStateSummary ComputeHash256Array height).summary =
        (vm.buildStateSummary ComputeHash256Array innerSummary).summary := by
      simp [VM.GetStateSummary, hss, hget]
    rw [this, hsum]
  · simp [block.StateSummary.ID, hid]
  · simp [block.StateSummary.ID]
  · simp [block.StateSummary.Height, hheight]

/-- Witness for C15: the test summary at height 1969 past the fork height 1968, wrapped with
`testBlock` and parsed back. -/
theorem postfork_roundtrip_witness :
    (testVM (Except.ok 1968)).ssVM = some testInnerVM ∧
    (testVM (Except.ok 1968)).State.GetForkHeight = Except.ok 1968 ∧
    1968 ≤ testInnerSummary.Height ∧
    (testVM (Except.ok 1968)).State.GetBlockIDAtHeight testInnerSummary.Height =
      Except.ok testBlock.ID ∧
    (testVM (Except.ok 1968)).State.getPostForkBlock testBlock.ID = Except.ok testBlock ∧
    ((testVM (Except.ok 1968)).buildStateSummary testHash testInnerSummary).err = none ∧
    testInnerVM.ParseStateSummary testInnerSummary.Bytes = Except.ok testInnerSummary ∧
    testInnerSummary.Height = testInnerSummary.Height ∧
    (testVM (Except.ok 1968)).parsePostForkBlock testBlock.Bytes = Except.ok testBlock ∧
    ∃ built parsed bytes,
      ((testVM (Except.ok 1968)).buildStateSummary testHash testInnerSummary).summary =
        some built ∧
      (∀ height, testInnerVM.GetStateSummary height = Except.ok testInnerSummary →
        ((testVM (Except.ok 1968)).GetStateSummary testHash height).summary = some built) ∧
      built.Bytes = some bytes ∧
      built.ID = some (testHash bytes) ∧
      built.Height = testInnerSummary.Height ∧
      ((testVM (Except.ok 1968)).ParseStateSummary testHash bytes).err = none ∧
      ((testVM (Except.ok 1968)).ParseStateSummary testHash bytes).summary = some parsed ∧
      parsed.ID = built.ID ∧
      parsed.Height = built.Height ∧
      parsed.Bytes = built.Bytes :=
  ⟨rfl, rfl, by decide, rfl, rfl, rfl, rfl, rfl, rfl,
    postfork_roundtrip testHash (testVM (Except.ok 1968)) testInnerVM testInnerSummary
      testInnerSummary 1968 testBlock.ID testBlock testBlock
      rfl rfl (by decide) rfl rfl rfl rfl rfl rfl⟩

/-- Counterexample to C15 as stated: the inner summary of the tests is at height 1969, past
the fork height 1968, with `testBlock` indexed and stored at that height and decoding from
its bytes, and `GetStateSummary` returns the wrapped summary without error. When the inner
VM rejects the bytes of the summary it served, `ParseStateSummary` applied to the bytes of
the wrapped summary fails and yields no summary; when the inner VM parses those bytes to a
summary of height 7, `ParseStateSummary` yields a summary of height 7, not 1969. -/
theorem postfork_roundtrip_fails_when_inner_VM_disagrees :
    (1968 ≤ testInnerSummary.Height ∧
      (testState (Except.ok 1968)).GetBlockIDAtHeight testInnerSummary.Height =
        Except.ok testBlock.ID ∧
      (testState (Except.ok 1968)).getPostForkBlock testBlock.ID = Except.ok testBlock) ∧
    ((testVMOver (innerVMParsingTo testInnerSummary (Except.error (Error.other 1)))
        (Except.ok 1968)).parsePostForkBlock testBlock.Bytes = Except.ok testBlock ∧
      ((testVMOver (innerVMParsingTo testInnerSummary (Except.error (Error.other 1)))
        (Except.ok 1968)).GetStateSummary testHash 1969).err = none ∧
      ((testVMOver (innerVMParsingTo testInnerSummary (Except.error (Error.other 1)))
        (Except.ok 1968)).GetStateSummary testHash 1969).summary.bind
          block.StateSummary.Bytes = some testWrappedBytes ∧
      ((testVMOver (innerVMParsingTo testInnerSummary (Except.error (Error.other 1)))
        (Except.ok 1968)).ParseStateSummary testHash testWrappedBytes).summary.isNone = true ∧
      ((testVMOver (innerVMParsingTo testInnerSummary (Except.error (Error.other 1)))
        (Except.ok 1968)).ParseStateSummary testHash testWrappedBytes).err =
          some (Error.wrapped "could not parse inner summary due to: " (Error.other 1))) ∧
    (((testVMOver (innerVMParsingTo testInnerSummary
          (Except.ok { testInnerSummary with Height := 7 }))
        (Except.ok 1968)).GetStateSummary testHash 1969).err = none ∧
      ((testVMOver (innerVMParsingTo testInnerSummary
          (Except.ok { testInnerSummary with Height := 7 }))
        (Except.ok 1968)).GetStateSummary testHash 1969).summary.bind
          block.StateSummary.Bytes = some testWrappedBytes ∧
      ((testVMOver (innerVMParsingTo testInnerSummary
          (Except.ok { testInnerSummary with Height := 7 }))
        (Except.ok 1968)).GetStateSummary testHash 1969).summary.map
          block.StateSummary.Height = some 1969 ∧
      ((testVMOver (innerVMParsingTo testInnerSummary
          (Except.ok { testInnerSummary with Height := 7 }))
        (Except.ok 1968)).ParseStateSummary testHash testWrappedBytes).summary.map
          block.StateSummary.Height = some 7) :=
  ⟨⟨by decide, rfl, rfl⟩, ⟨rfl, rfl, rfl, rfl, rfl⟩, ⟨rfl, rfl, rfl, rfl⟩⟩

/-! ## ParseStateSummary and the persisted state -/

/-- What `ParseStateSummary` reads of the persisted state: nothing but the block store, and
that only through `parsePostForkBlock`. Two proposer VMs over the same inner VM and the same
decoders, whose persisted states answer every block lookup alike, give the same error and,
on success, summaries with the same identifier, height and bytes, whatever their fork
heights, height indexes and height index verdicts. -/
theorem ParseStateSummary_reads_only_block_store (H : GoBytes → ids.ID)
    (vm : VM) (otherState : State) (otherVerdict : Option Error) (summaryBytes : GoBytes)
    (hstore : otherState.getPostForkBlock = vm.State.getPostForkBlock) :
    (({ vm with State := otherState, VerifyHeightIndex := otherVerdict } : VM).ParseStateSummary
        H summaryBytes).err = (vm.ParseStateSummary H summaryBytes).err ∧
    (({ vm with State := otherState, VerifyHeightIndex := otherVerdict } : VM).ParseStateSummary
        H summaryBytes).summary.bind block.StateSummary.ID =
      (vm.ParseStateSummary H summaryBytes).summary.bind block.StateSummary.ID ∧
    (({ vm with State := otherState, VerifyHeightIndex := otherVerdict } : VM).ParseStateSummary
        H summaryBytes).summary.map block.StateSummary.Height =
      (vm.ParseStateSummary H summaryBytes).summary.map block.StateSummary.Height ∧
    (({ vm with State := otherState, VerifyHeightIndex := otherVerdict } : VM).ParseStateSummary
        H summaryBytes).summary.bind block.StateSummary.Bytes =
      (vm.ParseStateSummary H summaryBytes).summary.bind block.StateSummary.Bytes := by
  obtain ⟨ss, st, ver, dec, inner⟩ := vm
  have hstore2 : otherState.getPostForkBlock = st.getPostForkBlock := hstore
  cases ss with
  | none => simp [VM.ParseStateSummary]
  | some ssVM =>
    have hdec : ∀ b,
        (VM.mk (some ssVM) otherState otherVerdict dec inner).parsePostForkBlock b =
          (VM.mk (some ssVM) st ver dec inner).parsePostForkBlock b := by
      intro b
      simp only [VM.parsePostForkBlock, hstore2]
    simp only [VM.ParseStateSummary]
    cases summary.Parse H summaryBytes with
    | error e =>
      simp only
      cases ssVM.ParseStateSummary summaryBytes <;> simp
    | ok w =>
      simp only
      cases ssVM.ParseStateSummary w.InnerSummaryBytes with
      | error e => simp
      | ok innerSummary =>
        simp only [hdec]
        cases (VM.mk (some ssVM) st ver dec inner).parsePostForkBlock w.BlockBytes <;>
          simp [block.StateSummary.ID, block.StateSummary.Height, block.StateSummary.Bytes]

/-- C19: for `GetStateSummary(height)`, `GetLastStateSummary` and
`GetOngoingSyncStateSummary`, whenever the inner VM's corresponding call returns an error
(in particular `database.ErrNotFound`), the proposer VM returns a nil summary and exactly
that error value, unwrapped, and consults nothing but the inner VM (neither the fork height
nor the height index); `GetStateSummary` passes the requested height to the inner VM
unchanged, and wraps whatever summary the inner VM returns for it. -/
theorem inner_error_forwarded_verbatim (ComputeHash256Array : GoBytes → ids.ID)
    (vm : VM) (ssVM : StateSyncableVM) (height : Nat) (hss : vm.ssVM = some ssVM) :
    (∀ err, ssVM.GetStateSummary height = Except.error err →
      (vm.GetStateSummary ComputeHash256Array height).summary = none ∧
      (vm.GetStateSummary ComputeHash256Array height).err = some err ∧
      (vm.GetStateSummary ComputeHash256Array height).consulted =
        [Consulted.ssVMGetStateSummary height]) ∧
    (∀ err, ssVM.GetLastStateSummary = Except.error err →
      (vm.GetLastStateSummary ComputeHash256Array).summary = none ∧
      (vm.GetLastStateSummary ComputeHash256Array).err = some err ∧
      (vm.GetLastStateSummary ComputeHash256Array).consulted =
        [Consulted.ssVMGetLastStateSummary]) ∧
    (∀ err, ssVM.GetOngoingSyncStateSummary = Except.error err →
      (vm.GetOngoingSyncStateSummary ComputeHash256Array).summary = none ∧
      (vm.GetOngoingSyncStateSummary ComputeHash256Array).err = some err ∧
      (vm.GetOngoingSyncStateSummary ComputeHash256Array).consulted =
        [Consulted.ssVMGetOngoingSyncStateSummary]) ∧
    (∀ innerSummary, ssVM.GetStateSummary height = Except.ok innerSummary →
      (vm.GetStateSummary ComputeHash256Array height).summary =
        (vm.buildStateSummary ComputeHash256Array innerSummary).summary ∧
      (vm.GetStateSummary ComputeHash256Array height).err =
        (vm.buildStateSummary ComputeHash256Array innerSummary).err ∧
      (vm.GetStateSummary ComputeHash256Array height).consulted =
        Consulted.ssVMGetStateSummary height ::
          (vm.buildStateSummary ComputeHash256Array innerSummary).consulted) := by
  refine ⟨?_, ?_, ?_, ?_⟩
  · intro err h
    simp [VM.GetStateSummary, hss, h]
  · intro err h
    simp [VM.GetLastStateSummary, hss, h]
  · intro err h
    simp [VM.GetOngoingSyncStateSummary, hss, h]
  · intro innerSummary h
    simp [VM.GetStateSummary, hss, h]

/-- Witness for C19: the inner VM of the tests has no summary at height 7. -/
theorem inner_error_forwarded_verbatim_witness :
    (testVM (Except.ok 1968)).ssVM = some testInnerVM ∧
    testInnerVM.GetStateSummary 7 = Except.error Error.ErrNotFound ∧
    ((testVM (Except.ok 1968)).GetStateSummary testHash 7).summary = none ∧
    ((testVM (Except.ok 1968)).GetStateSummary testHash 7).err = some Error.ErrNotFound ∧
    ((testVM (Except.ok 1968)).GetStateSummary testHash 7).consulted =
      [Consulted.ssVMGetStateSummary 7] :=
  ⟨rfl, rfl,
    (inner_error_forwarded_verbatim testHash (testVM (Except.ok 1968)) testInnerVM 7 rfl).1
      Error.ErrNotFound rfl⟩

/-! ## StateSyncEnabled -/

/-- C20: `StateSyncEnabled` returns `(true, nil)` only if the inner VM implements state
sync, the height index verifies (`VerifyHeightIndex` returns nil) and the inner VM's
`StateSyncEnabled` returns `(true, nil)`; when the inner VM implements state sync and the
index verifies, it returns exactly the inner VM's answer (boolean and error); and when the
index does not verify it returns `(false, nil)` without asking the inner VM. -/
theorem StateSyncEnabled_follows_inner_VM (vm : VM) :
    (vm.StateSyncEnabled.enabled = true → vm.StateSyncEnabled.err = none →
      ∃ ssVM, vm.ssVM = some ssVM ∧ vm.VerifyHeightIndex = none ∧
        ssVM.StateSyncEnabled = (true, none)) ∧
    (∀ ssVM, vm.ssVM = some ssVM → vm.VerifyHeightIndex = none →
      vm.StateSyncEnabled.enabled = ssVM.StateSyncEnabled.1 ∧
      vm.StateSyncEnabled.err = ssVM.StateSyncEnabled.2 ∧
      vm.StateSyncEnabled.consulted =
        [Consulted.VerifyHeightIndex, Consulted.ssVMStateSyncEnabled]) ∧
    (vm.VerifyHeightIndex ≠ none →
      vm.StateSyncEnabled.enabled = false ∧ vm.StateSyncEnabled.err = none ∧
      Consulted.ssVMStateSyncEnabled ∉ vm.StateSyncEnabled.consulted) := by
  unfold VM.StateSyncEnabled
  cases hss : vm.ssVM with
  | none => simp
  | some ssVM =>
    by_cases hv : vm.VerifyHeightIndex = none
    · have hif : ¬ (vm.VerifyHeightIndex ≠ none) := fun h => h hv
      simp only [if_neg hif]
      refine ⟨?_, ?_, ?_⟩
      · intro h1 h2
        exact ⟨ssVM, rfl, hv, Prod.ext h1 h2⟩
      · intro s hs _
        cases hs
        simp
      · intro h
        exact absurd hv h
    · simp only [if_pos hv]
      refine ⟨?_, ?_, ?_⟩
      · intro h1
        cases h1
      · intro s _ h
        exact absurd h hv
      · intro _
        simp

/-! ## The inner VM does not implement state sync -/

/-- C21: when the inner VM does not implement state sync (`vm.ssVM` is nil), each of
`GetOngoingSyncStateSummary`, `GetLastStateSummary`, `GetStateSummary` and
`ParseStateSummary` returns a nil summary and the error
`block.ErrStateSyncableVMNotImplemented`, for every input, and `StateSyncEnabled` returns
`(false, nil)`; none of them consults any collaborator (so neither the fork height, nor the
height index, nor the summary decoder). -/
theorem capability_absent_is_reported (ComputeHash256Array : GoBytes → ids.ID) (vm : VM)
    (height : Nat) (summaryBytes : GoBytes) (hnil : vm.ssVM = none) :
    ((vm.GetOngoingSyncStateSummary ComputeHash256Array).summary = none ∧
      (vm.GetOngoingSyncStateSummary ComputeHash256Array).err =
        some Error.ErrStateSyncableVMNotImplemented ∧
      (vm.GetOngoingSyncStateSummary ComputeHash256Array).consulted = []) ∧
    ((vm.GetLastStateSummary ComputeHash256Array).summary = none ∧
      (vm.GetLastStateSummary ComputeHash256Array).err =
        some Error.ErrStateSyncableVMNotImplemented ∧
      (vm.GetLastStateSummary ComputeHash256Array).consulted = []) ∧
    ((vm.GetStateSummary ComputeHash256Array height).summary = none ∧
      (vm.GetStateSummary ComputeHash256Array height).err =
        some Error.ErrStateSyncableVMNotImplemented ∧
      (vm.GetStateSummary ComputeHash256Array height).consulted = []) ∧
    ((vm.ParseStateSummary ComputeHash256Array summaryBytes).summary = none ∧
      (vm.ParseStateSummary ComputeHash256Array summaryBytes).err =
        some Error.ErrStateSyncableVMNotImplemented ∧
      (vm.ParseStateSummary ComputeHash256Array summaryBytes).consulted = []) ∧
    (vm.StateSyncEnabled.enabled = false ∧ vm.StateSyncEnabled.err = none ∧
      vm.StateSyncEnabled.consulted = []) := by
  refine ⟨?_, ?_, ?_, ?_, ?_⟩
  · simp [VM.GetOngoingSyncStateSummary, hnil]
  · simp [VM.GetLastStateSummary, hnil]
  · simp [VM.GetStateSummary, hnil]
  · simp [VM.ParseStateSummary, hnil]
  · simp [VM.StateSyncEnabled, hnil]

/-- Witness for C21: the proposer VM of the tests with its inner VM capability removed,
asked for the summary at height 1969 and to parse the bytes `"inner"`. -/
theorem capability_absent_is_reported_witness :
    ({ testVM (Except.ok 1968) with ssVM := none } : VM).ssVM = none ∧
    ((({ testVM (Except.ok 1968) with ssVM := none } : VM).GetOngoingSyncStateSummary
        testHash).summary = none ∧
      (({ testVM (Except.ok 1968) with ssVM := none } : VM).GetOngoingSyncStateSummary
        testHash).err = some Error.ErrStateSyncableVMNotImplemented ∧
      (({ testVM (Except.ok 1968) with ssVM := none } : VM).GetOngoingSyncStateSummary
        testHash).consulted = []) ∧
    ((({ testVM (Except.ok 1968) with ssVM := none } : VM).GetLastStateSummary
        testHash).summary = none ∧
      (({ testVM (Except.ok 1968) with ssVM := none } : VM).GetLastStateSummary
        testHash).err = some Error.ErrStateSyncableVMNotImplemented ∧
      (({ testVM (Except.ok 1968) with ssVM := none } : VM).GetLastStateSummary
        testHash).consulted = []) ∧
    ((({ testVM (Except.ok 1968) with ssVM := none } : VM).GetStateSummary
        testHash 1969).summary = none ∧
      (({ testVM (Except.ok 1968) with ssVM := none } : VM).GetStateSummary
        testHash 1969).err = some Error.ErrStateSyncableVMNotImplemented ∧
      (({ testVM (Except.ok 1968) with ssVM := none } : VM).GetStateSummary
        testHash 1969).consulted = []) ∧
    ((({ testVM (Except.ok 1968) with ssVM := none } : VM).ParseStateSummary
        testHash [105, 110, 110, 101, 114]).summary = none ∧
      (({ testVM (Except.ok 1968) with ssVM := none } : VM).ParseStateSummary
        testHash [105, 110, 110, 101, 114]).err =
          some Error.ErrStateSyncableVMNotImplemented ∧
      (({ testVM (Except.ok 1968) with ssVM := none } : VM).ParseStateSummary
        testHash [105, 110, 110, 101, 114]).consulted = []) ∧
    (({ testVM (Except.ok 1968) with ssVM := none } : VM).StateSyncEnabled.enabled = false ∧
      ({ testVM (Except.ok 1968) with ssVM := none } : VM).StateSyncEnabled.err = none ∧
      ({ testVM (Except.ok 1968) with ssVM := none } : VM).StateSyncEnabled.consulted = []) :=
  ⟨rfl,
    capability_absent_is_reported testHash ({ testVM (Except.ok 1968) with ssVM := none } : VM)
      1969 [105, 110, 110, 101, 114] rfl⟩

/-! ## Accept -/

theorem persist_ok (st : State) (height : Nat) (blk : PostForkBlock)
    (hput : st.PutBlock blk = none) (hlink : st.SetBlockIDAtHeight height blk.ID = none) :
    (st.persist height blk).2 = none ∧
    (st.persist height blk).1.GetBlockIDAtHeight height = Except.ok blk.ID ∧
    (st.persist height blk).1.getPostForkBlock blk.ID = Except.ok blk ∧
    (st.persist height blk).1.GetForkHeight = st.GetForkHeight := by
  simp [State.persist, hput, hlink]

theorem hugeBytes_length : hugeBytes.length = maxUint32 + 1 := by
  unfold hugeBytes
  exact List.length_replicate _ _

theorem Marshal_too_long (forkHeight : Nat) (blk coreSummary : GoBytes)
    (h : blk.length > maxUint32) :
    summary.Marshal forkHeight blk coreSummary = Except.error summary.errSliceTooLarge := by
  unfold summary.Marshal
  rw [if_pos (Or.inl h)]

theorem Build_too_long (H : GoBytes → ids.ID) (forkHeight : Nat) (blk coreSummary : GoBytes)
    (h : blk.length > maxUint32) :
    summary.Build H forkHeight blk coreSummary =
      Except.error (Error.wrapped "cannot marshal proposer summary due to: "
        summary.errSliceTooLarge) := by
  unfold summary.Build
  rw [Marshal_too_long forkHeight blk coreSummary h]

theorem hugeBlock_too_long : hugeBlock.Bytes.length > maxUint32 := by
  show hugeBytes.length > maxUint32
  rw [hugeBytes_length]
  exact Nat.lt_succ_self _

/-- The post-fork path of `buildStateSummary`: what is returned once the block is found. -/
theorem buildStateSummary_postfork_eq (H : GoBytes → ids.ID) (vm : VM)
    (innerSummary : InnerSummary) (forkHeight : Nat) (blkID : ids.ID) (blk : PostForkBlock)
    (hfork : vm.State.GetForkHeight = Except.ok forkHeight)
    (hpost : forkHeight ≤ innerSummary.Height)
    (hindex : vm.State.GetBlockIDAtHeight innerSummary.Height = Except.ok blkID)
    (hstored : vm.State.getPostForkBlock blkID = Except.ok blk) :
    (vm.buildStateSummary H innerSummary).summary =
      some (block.StateSummary.proposer
        { StateSummary :=
            (summary.Build H forkHeight blk.Bytes innerSummary.Bytes).toOption
          innerSummary := innerSummary
          block := blk
          state := vm.State }) ∧
    (vm.buildStateSummary H innerSummary).err =
      errOf (summary.Build H forkHeight blk.Bytes innerSummary.Bytes) := by
  have hnot : ¬ innerSummary.Height < forkHeight := Nat.not_lt.mpr hpost
  constructor <;> simp [VM.buildStateSummary, hfork, hnot, hindex, hstored]

/-- The paths of `buildStateSummary` that return an error: every one of them returns a nil
summary, except the failure of `summary.Build`, which returns a `stateSummary` whose
stateless part is nil. -/
theorem buildStateSummary_error_paths (H : GoBytes → ids.ID) (vm : VM)
    (innerSummary : InnerSummary) (err : Error)
    (herr : (vm.buildStateSummary H innerSummary).err = some err) :
    (vm.buildStateSummary H innerSummary).summary = none ∨
    ∃ forkHeight blk,
      summary.Build H forkHeight blk.Bytes innerSummary.Bytes = Except.error err ∧
      (vm.buildStateSummary H innerSummary).summary =
        some (block.StateSummary.proposer
          { StateSummary := none, innerSummary := innerSummary, block := blk,
            state := vm.State }) := by
  unfold VM.buildStateSummary at herr ⊢
  cases hf : vm.State.GetForkHeight with
  | error e =>
    rw [hf] at herr
    simp only
    by_cases he : e = Error.ErrNotFound
    · simp [he] at herr
    · simp [he]
  | ok forkHeight =>
    rw [hf] at herr
    simp only
    by_cases hlt : innerSummary.Height < forkHeight
    · simp [hlt] at herr
    · simp only [hlt, if_false] at herr ⊢
      cases hi : vm.State.GetBlockIDAtHeight innerSummary.Height with
      | error e => simp
      | ok blkID =>
        simp only [hi] at herr ⊢
        cases hb : vm.State.getPostForkBlock blkID with
        | error e => simp
        | ok blk =>
          simp only [hb] at herr ⊢
          right
          cases hbuild : summary.Build H forkHeight blk.Bytes innerSummary.Bytes with
          | ok w => simp [hbuild, errOf] at herr
          | error e =>
            simp only [hbuild, errOf, Option.some.injEq] at herr
            subst herr
            exact ⟨forkHeight, blk, hbuild, by simp [Except.toOption]⟩

/-- C23, the code at the failing input: the proposer block indexed at the height of the
inner summary has bytes too long for the wrapped format, so `summary.Build` fails, and
`buildStateSummary` returns the error of `summary.Build` together with a non-nil
`stateSummary`, whose stateless part is nil (its `ID()` and `Bytes()` are undefined). -/
theorem buildStateSummary_returns_summary_with_Build_error :
    (hugeBlockVM.buildStateSummary testHash testInnerSummary).err =
      some (Error.wrapped "cannot marshal proposer summary due to: "
        summary.errSliceTooLarge) ∧
    (hugeBlockVM.buildStateSummary testHash testInnerSummary).summary =
      some (block.StateSummary.proposer
        { StateSummary := none, innerSummary := testInnerSummary, block := hugeBlock,
          state := hugeBlockVM.State }) ∧
    (hugeBlockVM.buildStateSummary testHash testInnerSummary).summary.isSome = true ∧
    (hugeBlockVM.buildStateSummary testHash testInnerSummary).summary.bind
      block.StateSummary.ID = none := by
  obtain ⟨hsum, herr⟩ := buildStateSummary_postfork_eq testHash hugeBlockVM testInnerSummary
    1968 hugeBlock.ID hugeBlock rfl (by decide) rfl rfl
  rw [Build_too_long testHash 1968 hugeBlock.Bytes testInnerSummary.Bytes hugeBlock_too_long]
    at hsum herr
  refine ⟨herr, hsum, ?_, ?_⟩
  · rw [hsum]
    rfl
  · rw [hsum]
    rfl

/-! ## sampleSeeders on failure -/

/-- C24: `sampleSeeders` is atomic on failure. For every frontier tracker, validator set and
sample size, if `sampleSeeders` returns an error then the tracker is exactly what it was
before the call: the target, contacted and failed sets and the retained sampled frontier
set, hence also what `sampledSeedersWeight()` gives. -/
theorem sampleSeeders_failure_keeps_sets (ft : frontierTracker) (src : BeaconSampler) (n : Int)
    (e : Error) (herr : (ft.sampleSeeders src n).2 = some e) :
    (ft.sampleSeeders src n).1 = ft ∧
    (ft.sampleSeeders src n).1.targetSeeders = ft.targetSeeders ∧
    (ft.sampleSeeders src n).1.contactedSeeders = ft.contactedSeeders ∧
    (ft.sampleSeeders src n).1.failedSeeders = ft.failedSeeders ∧
    (ft.sampleSeeders src n).1.frontierSeeders = ft.frontierSeeders ∧
    (ft.sampleSeeders src n).1.sampledSeedersWeight = ft.sampledSeedersWeight := by
  have h : (ft.sampleSeeders src n).1 = ft := by
    rcases sampleSeeders_cases ft src n with ⟨err, _, h⟩ | ⟨b, _, _, h⟩
    · rw [h]
    · rw [h] at herr
      cases herr
  rw [h]
  exact ⟨rfl, rfl, rfl, rfl, rfl, rfl⟩

/-- Witness for C24: a tracker that retains a sampled set of weight 7 and holds peers in
its three sets, sampled from a validator set whose sampler fails. -/
theorem sampleSeeders_failure_keeps_sets_witness :
    ((frontierTracker.mk (some { vdrs := [⟨5, 7⟩], totalWeight := 7 }) {1} {2} {3}).sampleSeeders
      (BeaconSampler.failing (Error.other 9)) 2).2 = some (Error.other 9) ∧
    ((frontierTracker.mk (some { vdrs := [⟨5, 7⟩], totalWeight := 7 }) {1} {2} {3}).sampleSeeders
        (BeaconSampler.failing (Error.other 9)) 2).1 =
      frontierTracker.mk (some { vdrs := [⟨5, 7⟩], totalWeight := 7 }) {1} {2} {3} ∧
    ((frontierTracker.mk (some { vdrs := [⟨5, 7⟩], totalWeight := 7 }) {1} {2} {3}).sampleSeeders
      (BeaconSampler.failing (Error.other 9)) 2).1.targetSeeders = {1} ∧
    ((frontierTracker.mk (some { vdrs := [⟨5, 7⟩], totalWeight := 7 }) {1} {2} {3}).sampleSeeders
      (BeaconSampler.failing (Error.other 9)) 2).1.contactedSeeders = {2} ∧
    ((frontierTracker.mk (some { vdrs := [⟨5, 7⟩], totalWeight := 7 }) {1} {2} {3}).sampleSeeders
      (BeaconSampler.failing (Error.other 9)) 2).1.failedSeeders = {3} ∧
    ((frontierTracker.mk (some { vdrs := [⟨5, 7⟩], totalWeight := 7 }) {1} {2} {3}).sampleSeeders
      (BeaconSampler.failing (Error.other 9)) 2).1.frontierSeeders =
        some { vdrs := [⟨5, 7⟩], totalWeight := 7 } ∧
    ((frontierTracker.mk (some { vdrs := [⟨5, 7⟩], totalWeight := 7 }) {1} {2} {3}).sampleSeeders
      (BeaconSampler.failing (Error.other 9)) 2).1.sampledSeedersWeight =
        (frontierTracker.mk (some { vdrs := [⟨5, 7⟩], totalWeight := 7 }) {1} {2}
          {3}).sampledSeedersWeight :=
  ⟨by decide,
    sampleSeeders_failure_keeps_sets
      (frontierTracker.mk (some { vdrs := [⟨5, 7⟩], totalWeight := 7 }) {1} {2} {3})
      (BeaconSampler.failing (Error.other 9)) 2 (Error.other 9)
      (by decide)⟩

/-! ## Properties of the test network -/

/-! ## Network.Initialize -/

theorem GoMap_get_set (m : GoMap) (k : ids.ID) (v : Nat) (x : ids.ID) :
    (m.set k v).get x = if x = k then v else m.get x := by
  unfold GoMap.get GoMap.set
  by_cases hx : x = k
  · simp [hx]
  · simp [hx]

/-- Nodup lists have injective indexing. -/
theorem nodup_index_unique {l : List ids.ID} (hnd : l.Nodup) {a b : Nat} {x : ids.ID}
    (ha : l[a]? = some x) (hb : l[b]? = some x) : a = b := by
  have hlt : a < l.length := by
    rcases List.getElem?_eq_some.mp ha with ⟨h, _⟩
    exact h
  exact List.getElem?_inj hlt hnd (ha.trans hb.symm)

/-- Removing the colour at index `i` by moving the last colour into its place: the indices
of the new slice, read through the old one. -/
theorem swapRemove_getElem? (colors : List ids.ID) (i e : Nat) (eID : ids.ID)
    (hi : i < colors.length) (he : e + 1 = colors.length) (heID : colors[e]? = some eID)
    (j : Nat) :
    ((colors.set i eID).take e)[j]? =
      if j < e then colors[if j = i then e else j]? else none := by
  rw [List.getElem?_take]
  by_cases hj : j < e
  · simp only [hj, if_true]
    rw [List.getElem?_set]
    by_cases hji : j = i
    · subst hji
      simp [hi, heID]
    · have : ¬ i = j := fun h => hji h.symm
      simp [this, hji]
  · simp [hj]

theorem swapRemove_spec (colors : List ids.ID) (i e : Nat) (s eID : ids.ID)
    (hnd : colors.Nodup) (he : e + 1 = colors.length)
    (hs : colors[i]? = some s) (heID : colors[e]? = some eID) :
    ((colors.set i eID).take e).Nodup ∧
    ((colors.set i eID).take e).length = e ∧
    (∀ x, x ∈ (colors.set i eID).take e ↔ x ∈ colors ∧ x ≠ s) ∧
    (∀ j c, ((colors.set i eID).take e)[j]? = some c →
      (j = i ∧ c = eID) ∨ (j ≠ i ∧ c ≠ eID ∧ colors[j]? = some c)) := by
  have hi : i < colors.length := by
    rcases List.getElem?_eq_some.mp hs with ⟨h, _⟩
    exact h
  have hget := swapRemove_getElem? colors i e eID hi he heID
  have hlen : ((colors.set i eID).take e).length = e := by
    simp only [List.length_take, List.length_set]
    omega
  refine ⟨?_, hlen, ?_, ?_⟩
  · rw [List.nodup_iff_getElem?_ne_getElem?]
    intro a b hab hb
    rw [hlen] at hb
    have ha : a < e := by omega
    rw [hget a, hget b]
    simp only [ha, hb, if_true]
    intro heq
    have hlt : (if a = i then e else a) < colors.length := by
      split <;> omega
    have := List.getElem?_inj hlt hnd heq
    split at this <;> split at this <;> omega
  · intro x
    rw [List.mem_iff_getElem?, List.mem_iff_getElem?]
    constructor
    · rintro ⟨j, hj⟩
      rw [hget j] at hj
      by_cases hje : j < e
      · simp only [hje, if_true] at hj
        refine ⟨⟨_, hj⟩, ?_⟩
        rintro rfl
        have := nodup_index_unique hnd hj hs
        split at this <;> omega
      · simp [hje] at hj
    · rintro ⟨⟨k, hk⟩, hne⟩
      have hklt : k < colors.length := by
        rcases List.getElem?_eq_some.mp hk with ⟨h, _⟩
        exact h
      have hki : k ≠ i := by
        rintro rfl
        rw [hs] at hk
        exact hne (Option.some.inj hk).symm
      by_cases hke : k = e
      · refine ⟨i, ?_⟩
        rw [hget i]
        have hie : i < e := by omega
        simp only [hie, if_true]
        rw [← hke]
        exact hk
      · refine ⟨k, ?_⟩
        rw [hget k]
        have hk2 : k < e := by omega
        simp only [hk2, if_true, hki, if_false]
        exact hk
  · intro j c hj
    rw [hget j] at hj
    by_cases hje : j < e
    · simp only [hje, if_true] at hj
      by_cases hji : j = i
      · left
        simp only [hji, if_true] at hj
        rw [heID] at hj
        exact ⟨hji, (Option.some.inj hj).symm⟩
      · right
        simp only [hji, if_false] at hj
        refine ⟨hji, ?_, hj⟩
        rintro rfl
        have := nodup_index_unique hnd hj heID
        omega
    · simp [hje] at hj

theorem visit_spec (M : Int) (st : InitState) (s : ids.ID)
    (hmap : colorMapIsIndex st) (hnd : st.colors.Nodup) (hs : s ∈ st.colors) :
    ∃ st1, Network.Initialize.visit M st s = some st1 ∧
      colorMapIsIndex st1 ∧ st1.colors.Nodup ∧
      (∀ x, st1.count.get x = st.count.get x + if x = s then 1 else 0) ∧
      (∀ x, x ∈ st1.colors ↔
        x ∈ st.colors ∧ ¬ (x = s ∧ ((st.count.get s + 1 : Nat) : Int) ≥ M)) ∧
      st1.idCount = st.idCount ∧ st1.consumers = st.consumers := by
  obtain ⟨hlen, hkeys, hindex⟩ := hmap
  have hcount : ∀ x, (st.count.set s (st.count.get s + 1)).get x =
      st.count.get x + if x = s then 1 else 0 := by
    intro x
    rw [GoMap_get_set]
    by_cases hx : x = s
    · simp [hx]
    · simp [hx]
  by_cases hcond : ((st.count.get s + 1 : Nat) : Int) ≥ M
  · -- the colour is removed
    obtain ⟨i, hi⟩ := List.mem_iff_getElem?.mp hs
    have hilt : i < st.colors.length := by
      rcases List.getElem?_eq_some.mp hi with ⟨h, _⟩
      exact h
    have hgeti : st.colorMap.get s = i := hindex i s hi
    obtain ⟨e, he⟩ : ∃ e, e + 1 = st.colors.length := ⟨st.colors.length - 1, by omega⟩
    have hlen2 : st.colorMap.len = e + 1 := by rw [hlen, he]
    obtain ⟨eID, heID⟩ : ∃ eID, st.colors[e]? = some eID :=
      ⟨st.colors[e], List.getElem?_eq_getElem (by omega)⟩
    obtain ⟨hnd1, hlen1, hmem1, hidx1⟩ :=
      swapRemove_spec st.colors i e s eID hnd he hi heID
    have heIDmem : eID ∈ st.colors := List.mem_iff_getElem?.mpr ⟨e, heID⟩
    refine ⟨{ st with
        count := st.count.set s (st.count.get s + 1)
        colorMap := (st.colorMap.set eID i).delete s
        colors := (st.colors.set i eID).take e }, ?_, ?_, hnd1, hcount, ?_, rfl, rfl⟩
    · have hcond2 : ((st.count.get s : Int) + 1) ≥ M := by exact_mod_cast hcond
      simp only [Network.Initialize.visit, Nat.cast_add, Nat.cast_one, hcond2, if_true, hlen2,
        heID, hgeti, hilt]
    · have hkeys1 : ∀ c, c ∈ ((st.colorMap.set eID i).delete s).keys ↔
          c ∈ (st.colors.set i eID).take e := by
        intro c
        rw [hmem1 c]
        simp only [GoMap.delete, GoMap.set, Finset.mem_erase, Finset.mem_insert, hkeys]
        constructor
        · rintro ⟨h1, h2 | h2⟩
          · exact ⟨h2 ▸ heIDmem, h1⟩
          · exact ⟨h2, h1⟩
        · rintro ⟨h1, h2⟩
          exact ⟨h2, Or.inr h1⟩
      refine ⟨?_, hkeys1, ?_⟩
      · show ((st.colorMap.set eID i).delete s).keys.card = ((st.colors.set i eID).take e).length
        rw [hlen1]
        have h1 : (st.colorMap.set eID i).keys = st.colorMap.keys := by
          simp only [GoMap.set]
          exact Finset.insert_eq_of_mem ((hkeys eID).mpr heIDmem)
        simp only [GoMap.delete, h1]
        rw [Finset.card_erase_of_mem ((hkeys s).mpr hs)]
        have : st.colorMap.keys.card = e + 1 := hlen2
        omega
      · intro j c hj
        have hcmem : c ∈ ((st.colorMap.set eID i).delete s).keys :=
          (hkeys1 c).mpr (List.mem_iff_getElem?.mpr ⟨j, hj⟩)
        unfold GoMap.get
        rw [if_pos hcmem]
        rcases hidx1 j c hj with ⟨h1, h2⟩ | ⟨h1, h2, h3⟩
        · simp [GoMap.delete, GoMap.set, h1, h2]
        · have hold := hindex j c h3
          have hcin : c ∈ st.colorMap.keys :=
            (hkeys c).mpr (List.mem_iff_getElem?.mpr ⟨j, h3⟩)
          unfold GoMap.get at hold
          rw [if_pos hcin] at hold
          simp [GoMap.delete, GoMap.set, h2, hold]
    · intro x
      rw [hmem1 x]
      constructor
      · rintro ⟨h1, h2⟩
        exact ⟨h1, fun h => h2 h.1⟩
      · rintro ⟨h1, h2⟩
        exact ⟨h1, fun h => h2 ⟨h, hcond⟩⟩
  · -- the colour stays
    refine ⟨{ st with count := st.count.set s (st.count.get s + 1) }, ?_,
      ⟨hlen, hkeys, hindex⟩, hnd, hcount, ?_, rfl, rfl⟩
    · have hcond2 : ¬ ((st.count.get s : Int) + 1) ≥ M := by
        intro h
        apply hcond
        exact_mod_cast h
      simp only [Network.Initialize.visit, Nat.cast_add, Nat.cast_one, hcond2, if_false]
    · intro x
      constructor
      · intro h
        exact ⟨h, fun h2 => hcond h2.2⟩
      · intro h
        exact h.1

theorem visitAll_spec (M : Int) (selected : List ids.ID) :
    ∀ st : InitState, colorMapIsIndex st → st.colors.Nodup → selected.Nodup →
      (∀ s ∈ selected, s ∈ st.colors) →
      ∃ st1, Network.Initialize.visitAll M st selected = some st1 ∧
        colorMapIsIndex st1 ∧ st1.colors.Nodup ∧
        (∀ x, st1.count.get x = st.count.get x + if x ∈ selected then 1 else 0) ∧
        (∀ x, x ∈ st1.colors ↔
          x ∈ st.colors ∧ ¬ (x ∈ selected ∧ ((st.count.get x + 1 : Nat) : Int) ≥ M)) ∧
        st1.idCount = st.idCount ∧ st1.consumers = st.consumers := by
  induction selected with
  | nil =>
    intro st hmap hnd _ _
    exact ⟨st, rfl, hmap, hnd, by simp, by simp, rfl, rfl⟩
  | cons s rest ih =>
    intro st hmap hnd hsel hsub
    have hsnotin : s ∉ rest := (List.nodup_cons.mp hsel).1
    have hrest : rest.Nodup := (List.nodup_cons.mp hsel).2
    obtain ⟨st1, hv, hmap1, hnd1, hcount1, hmem1, hid1, hcons1⟩ :=
      visit_spec M st s hmap hnd (hsub s (List.mem_cons_self _ _))
    have hsub1 : ∀ r ∈ rest, r ∈ st1.colors := by
      intro r hr
      rw [hmem1 r]
      refine ⟨hsub r (List.mem_cons_of_mem _ hr), ?_⟩
      rintro ⟨rfl, _⟩
      exact hsnotin hr
    obtain ⟨st2, hv2, hmap2, hnd2, hcount2, hmem2, hid2, hcons2⟩ :=
      ih st1 hmap1 hnd1 hrest hsub1
    refine ⟨st2, ?_, hmap2, hnd2, ?_, ?_, hid2.trans hid1, hcons2.trans hcons1⟩
    · simp only [Network.Initialize.visitAll, hv, hv2]
    · intro x
      rw [hcount2 x, hcount1 x]
      by_cases hxs : x = s
      · subst hxs
        simp [hsnotin]
      · by_cases hxr : x ∈ rest
        · simp [hxs, hxr]
        · simp [hxs, hxr]
    · intro x
      rw [hmem2 x, hmem1 x]
      by_cases hxs : x = s
      · subst hxs
        simp [hsnotin]
      · have hc : st1.count.get x = st.count.get x := by
          rw [hcount1 x]
          simp [hxs]
        simp only [hxs, false_and, not_false_eq_true, and_true, List.mem_cons, false_or, hc]

theorem select_spec (colors : List ids.ID) (hnd : colors.Nodup) (indices : List Nat) :
    (∀ index ∈ indices, index < colors.length) → indices.Nodup →
    ∃ selected, Network.Initialize.select colors indices = some selected ∧
      selected.length = indices.length ∧
      (∀ s, s ∈ selected ↔ ∃ index ∈ indices, colors[index]? = some s) ∧
      selected.Nodup := by
  induction indices with
  | nil =>
    intro _ _
    exact ⟨[], rfl, rfl, by simp, List.nodup_nil⟩
  | cons index rest ih =>
    intro hrange hind
    have hlt : index < colors.length := hrange index (List.mem_cons_self _ _)
    obtain ⟨sel, hsel, hlen, hmem, hselnd⟩ :=
      ih (fun i hi => hrange i (List.mem_cons_of_mem _ hi)) (List.nodup_cons.mp hind).2
    have hget : colors[index]? = some colors[index] := List.getElem?_eq_getElem hlt
    refine ⟨colors[index] :: sel, ?_, ?_, ?_, ?_⟩
    · simp only [Network.Initialize.select, hget, hsel]
    · simp [hlen]
    · intro s
      simp only [List.mem_cons, hmem]
      constructor
      · rintro (rfl | ⟨i, hi, his⟩)
        · exact ⟨index, Or.inl rfl, hget⟩
        · exact ⟨i, Or.inr hi, his⟩
      · rintro ⟨i, rfl | hi, his⟩
        · left
          rw [hget] at his
          exact (Option.some.inj his).symm
        · exact Or.inr ⟨i, hi, his⟩
    · refine List.nodup_cons.mpr ⟨?_, hselnd⟩
      intro hin
      obtain ⟨i, hi, his⟩ := (hmem _).mp hin
      have := nodup_index_unique hnd his hget
      subst this
      exact (List.nodup_cons.mp hind).1 hi

theorem consumersOf_append_singleton (produced : List TestTx) (tx : TestTx) (c : ids.ID) :
    consumersOf (produced ++ [tx]) c =
      consumersOf produced c + if c ∈ tx.InputIDsV then 1 else 0 := by
  unfold consumersOf
  rw [List.countP_append, List.countP_cons]
  simp

theorem step_spec (Sample : Nat → Nat → Int → List Nat) (Prefix : Nat → ids.ID)
    (n M : Nat) (colorsPerConsumer : Int) (consumers0 : List TestTx) (st : InitState)
    (hS : SamplesDistinctInRange Sample) (hcpc : 1 ≤ colorsPerConsumer)
    (hinv : InitInvariant Prefix n M colorsPerConsumer consumers0 st)
    (hne : st.colors.length > 0) :
    ∃ st1, Network.Initialize.step Sample Prefix colorsPerConsumer (M : Int) st = some st1 ∧
      InitInvariant Prefix n M colorsPerConsumer consumers0 st1 ∧
      selectionsLeft M st1 < selectionsLeft M st := by
  obtain ⟨hmap, hnd, hcol, ⟨produced, hcons, hcnt, htx⟩, hlive, hdead⟩ := hinv
  -- the sample
  have hsize0 : (0 : Int) ≤
      (if (st.colors.length : Int) > colorsPerConsumer then colorsPerConsumer
        else st.colors.length) := by
    split <;> omega
  have hsize1 : (1 : Int) ≤
      (if (st.colors.length : Int) > colorsPerConsumer then colorsPerConsumer
        else st.colors.length) := by
    split <;> omega
  have hsizele : (if (st.colors.length : Int) > colorsPerConsumer then colorsPerConsumer
        else st.colors.length) ≤ (st.colors.length : Int) := by
    split <;> omega
  have hsizecpc : (if (st.colors.length : Int) > colorsPerConsumer then colorsPerConsumer
        else st.colors.length) ≤ colorsPerConsumer := by
    split <;> omega
  obtain ⟨hslen, hsnd, hsrange⟩ := hS st.idCount st.colors.length _ hsize0 hsizele
  obtain ⟨selected, hselect, hsellen, hselmem, hselnd⟩ :=
    select_spec st.colors hnd _ hsrange hsnd
  have hselsub : ∀ s ∈ selected, s ∈ st.colors := by
    intro s hs
    obtain ⟨index, _, hidx⟩ := (hselmem s).mp hs
    exact List.mem_iff_getElem?.mpr ⟨index, hidx⟩
  have hselcard : ((selected.toFinset.card : Nat) : Int) =
      (if (st.colors.length : Int) > colorsPerConsumer then colorsPerConsumer
        else st.colors.length) := by
    rw [List.toFinset_card_of_nodup hselnd, hsellen]
    exact hslen
  obtain ⟨st1, hvisit, hmap1, hnd1, hcount1, hmem1, hid1, hcons1⟩ :=
    visitAll_spec (M : Int) selected st hmap hnd hselnd hselsub
  have hmem1' : ∀ x, x ∈ st1.colors ↔
      x ∈ st.colors ∧ ¬ (x ∈ selected ∧ st.count.get x + 1 ≥ M) := by
    intro x
    rw [hmem1 x]
    constructor
    · rintro ⟨h1, h2⟩
      exact ⟨h1, fun h => h2 ⟨h.1, by exact_mod_cast h.2⟩⟩
    · rintro ⟨h1, h2⟩
      exact ⟨h1, fun h => h2 ⟨h.1, by exact_mod_cast h.2⟩⟩
  refine ⟨{ st1 with
      idCount := st1.idCount + 1
      consumers := st1.consumers ++
        [{ IDV := Prefix (st1.idCount + 1), StatusV := choices.Status.Processing,
           InputIDsV := selected.toFinset }] }, ?_, ?_, ?_⟩
  · simp only [Network.Initialize.step, hselect, hvisit]
  · refine ⟨hmap1, hnd1, ?_, ?_, ?_, ?_⟩
    · intro c hc
      exact hcol c ((hmem1' c).mp hc).1
    · refine ⟨produced ++
        [{ IDV := Prefix (st1.idCount + 1), StatusV := choices.Status.Processing,
           InputIDsV := selected.toFinset }], ?_, ?_, ?_⟩
      · show st1.consumers ++ _ = consumers0 ++ (produced ++ _)
        rw [hcons1, hcons, List.append_assoc]
      · intro c
        show st1.count.get c = _
        rw [consumersOf_append_singleton, hcount1 c, hcnt c]
        simp
      · intro tx htxmem
        rcases List.mem_append.mp htxmem with h | h
        · exact htx tx h
        · rw [List.mem_singleton.mp h]
          refine ⟨?_, ?_, ?_⟩
          · show 1 ≤ selected.toFinset.card
            omega
          · show ((selected.toFinset.card : Nat) : Int) ≤ colorsPerConsumer
            omega
          · intro c hc
            exact hcol c (hselsub c (List.mem_toFinset.mp hc))
    · intro c hc
      show st1.count.get c < M
      obtain ⟨h1, h2⟩ := (hmem1' c).mp hc
      rw [hcount1 c]
      have := hlive c h1
      by_cases hsel : c ∈ selected
      · simp only [hsel, if_true]
        by_contra hcon
        exact h2 ⟨hsel, by omega⟩
      · simp only [hsel, if_false]
        omega
    · intro k hk1 hk2 hnot
      show st1.count.get (Prefix k) = M
      rw [hcount1 (Prefix k)]
      by_cases hin : Prefix k ∈ st.colors
      · have hrem : Prefix k ∈ selected ∧ st.count.get (Prefix k) + 1 ≥ M := by
          by_contra hcon
          exact hnot ((hmem1' _).mpr ⟨hin, hcon⟩)
        have := hlive _ hin
        simp only [hrem.1, if_true]
        omega
      · have hnsel : Prefix k ∉ selected := fun h => hin (hselsub _ h)
        simp only [hnsel, if_false]
        exact hdead k hk1 hk2 hin
  · -- the number of selections left decreases
    show ∑ c ∈ st1.colors.toFinset, (M - st1.count.get c) <
      ∑ c ∈ st.colors.toFinset, (M - st.count.get c)
    have hsub : st1.colors.toFinset ⊆ st.colors.toFinset := by
      intro c hc
      exact List.mem_toFinset.mpr ((hmem1' c).mp (List.mem_toFinset.mp hc)).1
    have hle : ∀ c ∈ st1.colors.toFinset, M - st1.count.get c ≤ M - st.count.get c := by
      intro c _
      rw [hcount1 c]
      omega
    obtain ⟨s, hs⟩ : ∃ s, s ∈ selected := by
      apply List.exists_mem_of_length_pos
      have : ((selected.length : Nat) : Int) ≥ 1 := by
        rw [hsellen, hslen]
        exact hsize1
      omega
    have hsin : s ∈ st.colors := hselsub s hs
    have hslive := hlive s hsin
    by_cases hs1 : s ∈ st1.colors
    · have hstrict : M - st1.count.get s < M - st.count.get s := by
        rw [hcount1 s]
        simp only [hs, if_true]
        omega
      calc ∑ c ∈ st1.colors.toFinset, (M - st1.count.get c)
          < ∑ c ∈ st1.colors.toFinset, (M - st.count.get c) :=
            Finset.sum_lt_sum hle ⟨s, List.mem_toFinset.mpr hs1, hstrict⟩
        _ ≤ ∑ c ∈ st.colors.toFinset, (M - st.count.get c) :=
            Finset.sum_le_sum_of_subset hsub
    · calc ∑ c ∈ st1.colors.toFinset, (M - st1.count.get c)
          ≤ ∑ c ∈ st1.colors.toFinset, (M - st.count.get c) := Finset.sum_le_sum hle
        _ < ∑ c ∈ st.colors.toFinset, (M - st.count.get c) :=
            Finset.sum_lt_sum_of_subset hsub (List.mem_toFinset.mpr hsin)
              (fun h => hs1 (List.mem_toFinset.mp h)) (by omega) (fun _ _ _ => Nat.zero_le _)

theorem start_fold (Prefix : Nat → ids.ID) (hPrefix : Function.Injective Prefix)
    (consumers0 : List TestTx) (k : Nat) :
    ((List.range k).foldl (Network.Initialize.addColor Prefix)
      { idCount := 0, colorMap := GoMap.empty, colors := [], count := GoMap.empty,
        consumers := consumers0 }).idCount = k ∧
    ((List.range k).foldl (Network.Initialize.addColor Prefix)
      { idCount := 0, colorMap := GoMap.empty, colors := [], count := GoMap.empty,
        consumers := consumers0 }).colors = (List.range k).map (fun i => Prefix (i + 1)) ∧
    (∀ c, c ∈ ((List.range k).foldl (Network.Initialize.addColor Prefix)
      { idCount := 0, colorMap := GoMap.empty, colors := [], count := GoMap.empty,
        consumers := consumers0 }).colorMap.keys ↔ ∃ i, i < k ∧ c = Prefix (i + 1)) ∧
    (∀ i, i < k → ((List.range k).foldl (Network.Initialize.addColor Prefix)
      { idCount := 0, colorMap := GoMap.empty, colors := [], count := GoMap.empty,
        consumers := consumers0 }).colorMap.vals (Prefix (i + 1)) = i) ∧
    ((List.range k).foldl (Network.Initialize.addColor Prefix)
      { idCount := 0, colorMap := GoMap.empty, colors := [], count := GoMap.empty,
        consumers := consumers0 }).count = GoMap.empty ∧
    ((List.range k).foldl (Network.Initialize.addColor Prefix)
      { idCount := 0, colorMap := GoMap.empty, colors := [], count := GoMap.empty,
        consumers := consumers0 }).consumers = consumers0 := by
  induction k with
  | zero =>
    refine ⟨rfl, rfl, ?_, ?_, rfl, rfl⟩
    · intro c
      simp [GoMap.empty]
    · intro i hi
      omega
  | succ k ih =>
    obtain ⟨h1, h2, h3, h4, h5, h6⟩ := ih
    rw [List.range_succ, List.foldl_append]
    simp only [List.foldl_cons, List.foldl_nil, Network.Initialize.addColor, h1, h2, h5, h6,
      List.map_append, List.map_cons, List.map_nil, true_and, and_true]
    refine ⟨?_, ?_⟩
    · intro c
      simp only [GoMap.set, Finset.mem_insert, h3]
      constructor
      · rintro (rfl | ⟨i, hi, rfl⟩)
        · exact ⟨k, by omega, rfl⟩
        · exact ⟨i, by omega, rfl⟩
      · rintro ⟨i, hi, rfl⟩
        by_cases hik : i = k
        · left
          rw [hik]
        · right
          exact ⟨i, by omega, rfl⟩
    · intro i hi
      simp only [GoMap.set]
      by_cases hik : i = k
      · subst hik
        simp
      · have hne : Prefix (i + 1) ≠ Prefix (k + 1) := by
          intro h
          have := hPrefix h
          omega
        simp only [hne, if_false]
        exact h4 i (by omega)

theorem start_invariant (Prefix : Nat → ids.ID) (hPrefix : Function.Injective Prefix)
    (net : Network) (numColors : Int) (M : Nat) (hM : 1 ≤ M) (colorsPerConsumer : Int) :
    InitInvariant Prefix numColors.toNat M colorsPerConsumer net.consumers
      (Network.Initialize.start Prefix net numColors) := by
  obtain ⟨_, h2, h3, h4, h5, h6⟩ :=
    start_fold Prefix hPrefix net.consumers numColors.toNat
  have hmemcol : ∀ c, c ∈ (Network.Initialize.start Prefix net numColors).colors ↔
      ∃ i, i < numColors.toNat ∧ c = Prefix (i + 1) := by
    intro c
    unfold Network.Initialize.start
    rw [h2]
    simp only [List.mem_map, List.mem_range]
    constructor
    · rintro ⟨i, hi, rfl⟩
      exact ⟨i, hi, rfl⟩
    · rintro ⟨i, hi, rfl⟩
      exact ⟨i, hi, rfl⟩
  have hnd : (Network.Initialize.start Prefix net numColors).colors.Nodup := by
    unfold Network.Initialize.start
    rw [h2]
    refine List.Nodup.map ?_ (List.nodup_range _)
    intro a b hab
    have := hPrefix hab
    omega
  have hkeys : ∀ c, c ∈ (Network.Initialize.start Prefix net numColors).colorMap.keys ↔
      c ∈ (Network.Initialize.start Prefix net numColors).colors := by
    intro c
    rw [hmemcol c]
    exact h3 c
  have hcount : ∀ c, (Network.Initialize.start Prefix net numColors).count.get c = 0 := by
    intro c
    unfold Network.Initialize.start
    rw [h5]
    simp [GoMap.get, GoMap.empty]
  refine ⟨⟨?_, hkeys, ?_⟩, hnd, ?_, ⟨[], ?_, ?_, ?_⟩, ?_, ?_⟩
  · show (Network.Initialize.start Prefix net numColors).colorMap.keys.card = _
    rw [← List.toFinset_card_of_nodup hnd]
    congr 1
    ext c
    rw [List.mem_toFinset]
    exact hkeys c
  · intro j c hj
    have hcmem : c ∈ (Network.Initialize.start Prefix net numColors).colors :=
      List.mem_iff_getElem?.mpr ⟨j, hj⟩
    unfold GoMap.get
    rw [if_pos ((hkeys c).mpr hcmem)]
    have hj2 := hj
    unfold Network.Initialize.start at hj2
    rw [h2] at hj2
    rw [List.getElem?_map] at hj2
    cases hr : (List.range numColors.toNat)[j]? with
    | none => simp [hr] at hj2
    | some i =>
      rw [hr] at hj2
      simp only [Option.map_some', Option.some.injEq] at hj2
      rcases List.getElem?_eq_some.mp hr with ⟨hlt, hval⟩
      rw [List.getElem_range] at hval
      rw [List.length_range] at hlt
      subst hval
      rw [← hj2]
      exact h4 j hlt
  · intro c hc
    obtain ⟨i, hi, rfl⟩ := (hmemcol c).mp hc
    exact ⟨i + 1, by omega, by omega, rfl⟩
  · unfold Network.Initialize.start
    rw [h6]
    simp
  · intro c
    rw [hcount c]
    rfl
  · intro tx htx
    cases htx
  · intro c _
    rw [hcount c]
    omega
  · intro k hk1 hk2 hnot
    exfalso
    apply hnot
    rw [hmemcol]
    exact ⟨k - 1, by omega, by congr 1; omega⟩

theorem loop_terminates (Sample : Nat → Nat → Int → List Nat) (Prefix : Nat → ids.ID)
    (n M : Nat) (colorsPerConsumer : Int) (consumers0 : List TestTx)
    (hS : SamplesDistinctInRange Sample) (hcpc : 1 ≤ colorsPerConsumer) (fuel : Nat) :
    ∀ st, InitInvariant Prefix n M colorsPerConsumer consumers0 st →
      selectionsLeft M st < fuel →
      ∃ st1, Network.Initialize.loop Sample Prefix colorsPerConsumer (M : Int) fuel st =
          Outcome.done st1 ∧
        InitInvariant Prefix n M colorsPerConsumer consumers0 st1 ∧ st1.colors = [] := by
  induction fuel with
  | zero =>
    intro st _ h
    omega
  | succ fuel ih =>
    intro st hinv hlt
    by_cases hne : st.colors.length > 0
    · obtain ⟨st1, hstep, hinv1, hdec⟩ :=
        step_spec Sample Prefix n M colorsPerConsumer consumers0 st hS hcpc hinv hne
      obtain ⟨st2, hloop, hinv2, hempty⟩ := ih st1 hinv1 (by omega)
      refine ⟨st2, ?_, hinv2, hempty⟩
      simp only [Network.Initialize.loop, hne, if_true, hstep, hloop]
    · refine ⟨st, ?_, hinv, ?_⟩
      · simp only [Network.Initialize.loop, hne, if_false]
      · exact List.length_eq_zero.mp (by omega)

theorem loop_keeps_invariant (Sample : Nat → Nat → Int → List Nat) (Prefix : Nat → ids.ID)
    (n M : Nat) (colorsPerConsumer : Int) (consumers0 : List TestTx)
    (hS : SamplesDistinctInRange Sample) (hcpc : 1 ≤ colorsPerConsumer) (fuel : Nat) :
    ∀ st, InitInvariant Prefix n M colorsPerConsumer consumers0 st →
      ∃ st1, (Network.Initialize.loop Sample Prefix colorsPerConsumer (M : Int) fuel st =
            Outcome.done st1 ∨
          Network.Initialize.loop Sample Prefix colorsPerConsumer (M : Int) fuel st =
            Outcome.outOfFuel st1) ∧
        InitInvariant Prefix n M colorsPerConsumer consumers0 st1 := by
  induction fuel with
  | zero =>
    intro st hinv
    refine ⟨st, ?_, hinv⟩
    by_cases hne : st.colors.length > 0
    · right
      simp only [Network.Initialize.loop, hne, if_true]
    · left
      simp only [Network.Initialize.loop, hne, if_false]
  | succ fuel ih =>
    intro st hinv
    by_cases hne : st.colors.length > 0
    · obtain ⟨st1, hstep, hinv1, _⟩ :=
        step_spec Sample Prefix n M colorsPerConsumer consumers0 st hS hcpc hinv hne
      obtain ⟨st2, hloop, hinv2⟩ := ih st1 hinv1
      refine ⟨st2, ?_, hinv2⟩
      simp only [Network.Initialize.loop, hne, if_true, hstep]
      exact hloop
    · refine ⟨st, Or.inl ?_, hinv⟩
      simp only [Network.Initialize.loop, hne, if_false]

theorem loop_done_mono (Sample : Nat → Nat → Int → List Nat) (Prefix : Nat → ids.ID)
    (colorsPerConsumer maxInputConflicts : Int) (fuel : Nat) :
    ∀ st st1, Network.Initialize.loop Sample Prefix colorsPerConsumer maxInputConflicts fuel st =
        Outcome.done st1 →
      ∀ more, fuel ≤ more →
        Network.Initialize.loop Sample Prefix colorsPerConsumer maxInputConflicts more st =
          Outcome.done st1 := by
  induction fuel with
  | zero =>
    intro st st1 h more _
    by_cases hne : st.colors.length > 0
    · simp [Network.Initialize.loop, hne] at h
    · cases more with
      | zero => exact h
      | succ more =>
        simp only [Network.Initialize.loop, hne, if_false] at h ⊢
        exact h
  | succ fuel ih =>
    intro st st1 h more hle
    obtain ⟨more, rfl⟩ : ∃ m, more = m + 1 := ⟨more - 1, by omega⟩
    by_cases hne : st.colors.length > 0
    · simp only [Network.Initialize.loop, hne, if_true] at h ⊢
      cases hstep : Network.Initialize.step Sample Prefix colorsPerConsumer
          maxInputConflicts st with
      | none => simp [hstep] at h
      | some st2 =>
        simp only [hstep] at h ⊢
        exact ih st2 st1 h more (by omega)
    · simp only [Network.Initialize.loop, hne, if_false] at h ⊢
      exact h

theorem firstIndices_distinct : SamplesDistinctInRange firstIndices := by
  intro idCount length size h0 hle
  unfold firstIndices
  refine ⟨?_, List.nodup_range _, ?_⟩
  · rw [List.length_range]
    exact Int.toNat_of_nonneg h0
  · intro index hi
    rw [List.mem_range] at hi
    have h1 : ((size.toNat : Nat) : Int) = size := Int.toNat_of_nonneg h0
    omega

theorem Initialize_three_colours :
    Network.Initialize firstIndices (fun k : Nat => (k : ids.ID)) 4
        { params := { K := 1, Alpha := 1 }, consumers := [] } { K := 20, Alpha := 15 } 3 2 2 =
      Outcome.done
        { params := { K := 20, Alpha := 15 }
          consumers :=
            [ { IDV := 4, StatusV := choices.Status.Processing, InputIDsV := {1, 2} },
              { IDV := 5, StatusV := choices.Status.Processing, InputIDsV := {1, 2} },
              { IDV := 6, StatusV := choices.Status.Processing, InputIDsV := {3} },
              { IDV := 7, StatusV := choices.Status.Processing, InputIDsV := {3} } ] } := by
  decide

/-- C25: with `numColors ≥ 0`, `colorsPerConsumer ≥ 1`, `maxInputConflicts ≥ 1`, a sampler
that returns distinct in-range indices and colour identifiers `Prefix 1, Prefix 2, ...` that
are pairwise distinct, `Network.Initialize` terminates: some number `N` of iterations of its
second loop is enough, and with them or more it returns the network with the given
parameters and the transactions `produced` appended to its consumers. Each of the
`numColors` colours is an input of exactly `maxInputConflicts` of the produced transactions,
and each produced transaction has between 1 and `colorsPerConsumer` distinct inputs.
Throughout, that is after any number of iterations of the second loop, no index was out of
range, `colorMap` is the index of each colour still in `colors`, and no colour is an input
of more than `maxInputConflicts` produced transactions. -/
theorem Initialize_terminates_with_exact_conflicts
    (Sample : Nat → Nat → Int → List Nat) (Prefix : Nat → ids.ID) (n : Network)
    (params : sbcon.Parameters) (numColors colorsPerConsumer maxInputConflicts : Int)
    (hPrefix : Function.Injective Prefix) (hSample : SamplesDistinctInRange Sample)
    (hcolors : 0 ≤ numColors) (hper : 1 ≤ colorsPerConsumer) (hmax : 1 ≤ maxInputConflicts) :
    (∃ N produced,
      (∀ fuel, N ≤ fuel →
        Network.Initialize Sample Prefix fuel n params numColors colorsPerConsumer
            maxInputConflicts =
          Outcome.done { params := params, consumers := n.consumers ++ produced }) ∧
      (∀ k : Nat, 1 ≤ k → (k : Int) ≤ numColors →
        (consumersOf produced (Prefix k) : Int) = maxInputConflicts) ∧
      (∀ tx ∈ produced,
        1 ≤ tx.InputIDsV.card ∧ (tx.InputIDsV.card : Int) ≤ colorsPerConsumer ∧
        ∀ c ∈ tx.InputIDsV, ∃ k : Nat, 1 ≤ k ∧ (k : Int) ≤ numColors ∧ c = Prefix k)) ∧
    (∀ fuel, ∃ st produced,
      (Network.Initialize.loop Sample Prefix colorsPerConsumer maxInputConflicts fuel
            (Network.Initialize.start Prefix n numColors) = Outcome.done st ∨
        Network.Initialize.loop Sample Prefix colorsPerConsumer maxInputConflicts fuel
            (Network.Initialize.start Prefix n numColors) = Outcome.outOfFuel st) ∧
      colorMapIsIndex st ∧ st.consumers = n.consumers ++ produced ∧
      ∀ k : Nat, 1 ≤ k → (k : Int) ≤ numColors →
        (consumersOf produced (Prefix k) : Int) ≤ maxInputConflicts) := by
  obtain ⟨M, rfl⟩ : ∃ M : Nat, maxInputConflicts = (M : Int) :=
    ⟨maxInputConflicts.toNat, (Int.toNat_of_nonneg (by omega)).symm⟩
  have hM : 1 ≤ M := by omega
  have hnum : ((numColors.toNat : Nat) : Int) = numColors := Int.toNat_of_nonneg hcolors
  have hinv0 := start_invariant Prefix hPrefix n numColors M hM colorsPerConsumer
  constructor
  · obtain ⟨st1, hloop, hinv1, hempty⟩ :=
      loop_terminates Sample Prefix numColors.toNat M colorsPerConsumer n.consumers hSample hper
        (selectionsLeft M (Network.Initialize.start Prefix n numColors) + 1)
        (Network.Initialize.start Prefix n numColors) hinv0 (by omega)
    obtain ⟨_, _, _, ⟨produced, hcons, hcount, htx⟩, _, hdead⟩ := hinv1
    refine ⟨selectionsLeft M (Network.Initialize.start Prefix n numColors) + 1, produced,
      ?_, ?_, ?_⟩
    · intro fuel hfuel
      have hdone := loop_done_mono Sample Prefix colorsPerConsumer (M : Int) _ _ _ hloop
        fuel hfuel
      have hstart : Network.Initialize.start Prefix { n with params := params } numColors =
          Network.Initialize.start Prefix n numColors := rfl
      simp only [Network.Initialize, hstart, hdone, hcons]
    · intro k hk1 hk2
      have h := hdead k hk1 (by omega) (by rw [hempty]; simp)
      rw [hcount] at h
      exact_mod_cast h
    · intro tx htxmem
      obtain ⟨h1, h2, h3⟩ := htx tx htxmem
      refine ⟨h1, h2, ?_⟩
      intro c hc
      obtain ⟨k, hk1, hk2, hk3⟩ := h3 c hc
      exact ⟨k, hk1, by omega, hk3⟩
  · intro fuel
    obtain ⟨st1, hor, hinv1⟩ :=
      loop_keeps_invariant Sample Prefix numColors.toNat M colorsPerConsumer n.consumers hSample
        hper fuel (Network.Initialize.start Prefix n numColors) hinv0
    obtain ⟨hindex, _, _, ⟨produced, hcons, hcount, _⟩, hlive, hdead⟩ := hinv1
    refine ⟨st1, produced, hor, hindex, hcons, ?_⟩
    intro k hk1 hk2
    by_cases hmem : Prefix k ∈ st1.colors
    · have h := hlive (Prefix k) hmem
      rw [hcount] at h
      exact_mod_cast Nat.le_of_lt h
    · have h := hdead k hk1 (by omega) hmem
      rw [hcount] at h
      exact_mod_cast Nat.le_of_eq h

theorem Initialize_terminates_with_exact_conflicts_witness :
    Function.Injective (fun k : Nat => (k : ids.ID)) ∧ SamplesDistinctInRange firstIndices ∧
    (0 : Int) ≤ 5 ∧ (1 : Int) ≤ 2 ∧ (1 : Int) ≤ 3 ∧
    ((∃ N produced,
      (∀ fuel, N ≤ fuel →
        Network.Initialize firstIndices (fun k : Nat => (k : ids.ID)) fuel
            { params := { K := 1, Alpha := 1 }, consumers := [] } { K := 20, Alpha := 15 } 5 2 3 =
          Outcome.done { params := { K := 20, Alpha := 15 },
                         consumers := ([] : List TestTx) ++ produced }) ∧
      (∀ k : Nat, 1 ≤ k → (k : Int) ≤ 5 →
        (consumersOf produced ((fun k : Nat => (k : ids.ID)) k) : Int) = 3) ∧
      (∀ tx ∈ produced,
        1 ≤ tx.InputIDsV.card ∧ (tx.InputIDsV.card : Int) ≤ 2 ∧
        ∀ c ∈ tx.InputIDsV, ∃ k : Nat, 1 ≤ k ∧ (k : Int) ≤ 5 ∧
          c = (fun k : Nat => (k : ids.ID)) k)) ∧
    (∀ fuel, ∃ st produced,
      (Network.Initialize.loop firstIndices (fun k : Nat => (k : ids.ID)) 2 3 fuel
            (Network.Initialize.start (fun k : Nat => (k : ids.ID))
              { params := { K := 1, Alpha := 1 }, consumers := [] } 5) = Outcome.done st ∨
        Network.Initialize.loop firstIndices (fun k : Nat => (k : ids.ID)) 2 3 fuel
            (Network.Initialize.start (fun k : Nat => (k : ids.ID))
              { params := { K := 1, Alpha := 1 }, consumers := [] } 5) = Outcome.outOfFuel st) ∧
      colorMapIsIndex st ∧ st.consumers = ([] : List TestTx) ++ produced ∧
      ∀ k : Nat, 1 ≤ k → (k : Int) ≤ 5 →
        (consumersOf produced ((fun k : Nat => (k : ids.ID)) k) : Int) ≤ 3)) :=
  ⟨fun _ _ h => h, firstIndices_distinct, by decide, by decide, by decide,
    Initialize_terminates_with_exact_conflicts firstIndices (fun k : Nat => (k : ids.ID))
      { params := { K := 1, Alpha := 1 }, consumers := [] } { K := 20, Alpha := 15 } 5 2 3
      (fun _ _ h => h) firstIndices_distinct (by decide) (by decide) (by decide)⟩
